import Mathlib

/-!
# Swadge "ray" mode: integer trigonometry, Q24.8 arithmetic and the player frame step

A shallow embedding of `main/utils/trigonometry.c` and `main/modes/ray/mode_ray.c`.

Conventions of the embedding:

* C integers are Lean `Int`. Conversions to a narrower type (an `int16_t` parameter, the
  result of a 32-bit shift) are written out with `toInt16` / `toInt32`. Signed `+`, `-`, `*`
  on `int32_t` have no defined result on overflow in C and are the exact integer operations.
* C `/` and `%` truncate toward zero: `Int.tdiv` and `Int.tmod`.
* An array read is `Option`-valued: an index outside the array has no defined result.
-/

namespace Swadge

/-! ## Machine integers -/

/-- Conversion of an integer to `int16_t` (two's complement wrap). -/
def toInt16 (x : Int) : Int := (x + 32768) % 65536 - 32768

/-- Conversion of an integer to `int32_t` (two's complement wrap). -/
def toInt32 (x : Int) : Int := (x + 2147483648) % 4294967296 - 2147483648

/-- C `x << n` on a signed integer, before any conversion of the result. -/
def shl (x : Int) (n : Nat) : Int := x * 2 ^ n

/-- Read of `t[i]` in a constant table; `none` outside the table. -/
def tableAt (t : List Int) (i : Int) : Option Int :=
  if 0 ≤ i then t[i.toNat]? else none

/-! ## trigonometry.c -/

/-- A table of 360 sine values in degrees, where the amplitude is between -1024 and +1024. -/
def sin1024 : List Int :=
  [
   0, 18, 36, 54, 71, 89, 107, 125, 143, 160, 178, 195, 213, 230, 248, 265,
   282, 299, 316, 333, 350, 367, 384, 400, 416, 433, 449, 465, 481, 496, 512, 527,
   543, 558, 573, 587, 602, 616, 630, 644, 658, 672, 685, 698, 711, 724, 737, 749,
   761, 773, 784, 796, 807, 818, 828, 839, 849, 859, 868, 878, 887, 896, 904, 912,
   920, 928, 935, 943, 949, 956, 962, 968, 974, 979, 984, 989, 994, 998, 1002, 1005,
   1008, 1011, 1014, 1016, 1018, 1020, 1022, 1023, 1023, 1024, 1024, 1024, 1023, 1023, 1022, 1020,
   1018, 1016, 1014, 1011, 1008, 1005, 1002, 998, 994, 989, 984, 979, 974, 968, 962, 956,
   949, 943, 935, 928, 920, 912, 904, 896, 887, 878, 868, 859, 849, 839, 828, 818,
   807, 796, 784, 773, 761, 749, 737, 724, 711, 698, 685, 672, 658, 644, 630, 616,
   602, 587, 573, 558, 543, 527, 512, 496, 481, 465, 449, 433, 416, 400, 384, 367,
   350, 333, 316, 299, 282, 265, 248, 230, 213, 195, 178, 160, 143, 125, 107, 89,
   71, 54, 36, 18, 0, -18, -36, -54, -71, -89, -107, -125, -143, -160, -178, -195,
   -213, -230, -248, -265, -282, -299, -316, -333, -350, -367, -384, -400, -416, -433, -449, -465,
   -481, -496, -512, -527, -543, -558, -573, -587, -602, -616, -630, -644, -658, -672, -685, -698,
   -711, -724, -737, -749, -761, -773, -784, -796, -807, -818, -828, -839, -849, -859, -868, -878,
   -887, -896, -904, -912, -920, -928, -935, -943, -949, -956, -962, -968, -974, -979, -984, -989,
   -994, -998, -1002, -1005, -1008, -1011, -1014, -1016, -1018, -1020, -1022, -1023, -1023, -1024, -1024, -1024,
   -1023, -1023, -1022, -1020, -1018, -1016, -1014, -1011, -1008, -1005, -1002, -998, -994, -989, -984, -979,
   -974, -968, -962, -956, -949, -943, -935, -928, -920, -912, -904, -896, -887, -878, -868, -859,
   -849, -839, -828, -818, -807, -796, -784, -773, -761, -749, -737, -724, -711, -698, -685, -672,
   -658, -644, -630, -616, -602, -587, -573, -558, -543, -527, -512, -496, -481, -465, -449, -433,
   -416, -400, -384, -367, -350, -333, -316, -299, -282, -265, -248, -230, -213, -195, -178, -160,
   -143, -125, -107, -89, -71, -54, -36, -18]

/-- A table of the first 90 values of (1024 * tan(x)), of type `uint16_t`. -/
def tan1024 : List Int :=
  [
   0, 18, 36, 54, 72, 90, 108, 126, 144, 162, 181, 199, 218, 236, 255, 274, 294, 313,
   333, 353, 373, 393, 414, 435, 456, 477, 499, 522, 544, 568, 591, 615, 640, 665, 691, 717,
   744, 772, 800, 829, 859, 890, 922, 955, 989, 1024, 1060, 1098, 1137, 1178, 1220, 1265, 1311, 1359,
   1409, 1462, 1518, 1577, 1639, 1704, 1774, 1847, 1926, 2010, 2100, 2196, 2300, 2412, 2534, 2668, 2813, 2974,
   3152, 3349, 3571, 3822, 4107, 4435, 4818, 5268, 5807, 6465, 7286, 8340, 9743, 11704, 14644, 19539, 29324, 58665]

/-- Integer sine function `int16_t getSin1024(int16_t degree)`. The argument is converted to
the parameter type on entry. -/
def getSin1024 (degree : Int) : Option Int :=
  let degree := toInt16 degree
  let degree := toInt16 (((degree.tmod 360) + 360).tmod 360)
  tableAt sin1024 degree

/-- Integer cosine function `int16_t getCos1024(int16_t degree)`: sine offset by 90 degrees. -/
def getCos1024 (degree : Int) : Option Int :=
  let degree := toInt16 degree
  let degree := toInt16 (((degree.tmod 360) + 450).tmod 360)
  tableAt sin1024 degree

/-- Integer tangent function `int32_t getTan1024(int16_t degree)`. The table entry is promoted
to `int` before it is negated. -/
def getTan1024 (degree : Int) : Option Int :=
  let degree := toInt16 degree
  let degree := toInt16 (((degree.tmod 180) + 180).tmod 180)
  if degree < 90 then
    tableAt tan1024 degree
  else
    (tableAt tan1024 (degree - 90)).map (fun v => -v)

/-! ## Fixed-point macros

The header that defines `q24_8` and its macros is not among the sources. -/

/-- Modelled from the spec: `FRAC_BITS`, the number of fractional bits of the Q24.8 type
`q24_8`; the header defining it is not among the sources. -/
def FRAC_BITS : Nat := 8

/-- Modelled from the spec: the macro `TO_FX(in)` of the absent header, "shift left by 8" on a
32-bit signed integer. -/
def TO_FX (x : Int) : Int := toInt32 (shl x FRAC_BITS)

/-- Modelled from the spec: the macro `FROM_FX(in)` of the absent header, "shift right by 8,
truncating toward negative infinity" (an arithmetic shift). -/
def FROM_FX (x : Int) : Int := x >>> FRAC_BITS

/-- Modelled from the spec: the macro `ADD_FX(a, b)` of the absent header, plain integer add. -/
def ADD_FX (a b : Int) : Int := a + b

/-- Modelled from the spec: the macro `SUB_FX(a, b)` of the absent header, plain integer sub. -/
def SUB_FX (a b : Int) : Int := a - b

/-- Modelled from the spec: the macro `MUL_FX(a, b)` of the absent header, "multiply, shift
right by 8". -/
def MUL_FX (a b : Int) : Int := (a * b) >>> FRAC_BITS

/-- Modelled from the spec: the macro `DIV_FX(a, b)` of the absent header, "shift left by 8
before integer division". -/
def DIV_FX (a b : Int) : Int := (shl a FRAC_BITS).tdiv b

/-! ## Data model of mode_ray.c -/

/-- Constants and macros used by `mode_ray.c` whose headers are not among the sources: the
button bits, the cell-type bits with the macro `CELL_IS_TYPE`, the size of the object pool and
the bullet type. They are parameters of the embedding. -/
structure RayHeader where
  PB_UP : Nat
  PB_DOWN : Nat
  PB_LEFT : Nat
  PB_RIGHT : Nat
  PB_A : Nat
  PB_B : Nat
  BG : Nat
  WALL : Nat
  DOOR : Nat
  CELL_IS_TYPE : Nat → Nat → Bool
  MAX_RAY_OBJS : Nat
  OBJ_BULLET_NORMAL : Nat

/-- A map cell: the two fields `mode_ray.c` reads. -/
structure rayMapCell_t where
  type : Nat
  doorOpen : Int
deriving DecidableEq

/-- The map: `tiles[x][y]`, a list of columns. -/
structure rayMap_t where
  w : Int
  h : Int
  tiles : List (List rayMapCell_t)
deriving DecidableEq

/-- A texture; `mode_ray.c` reads its width. -/
structure wsg_t where
  w : Int
  h : Int
deriving DecidableEq

/-- An object of the pool. -/
structure rayObj_t where
  sprite : Option wsg_t
  dist : Int
  posX : Int
  posY : Int
  velX : Int
  velY : Int
  radius : Int
  type : Nat
  id : Int
deriving DecidableEq

/-- The mode state `ray_t`, with the fields `mode_ray.c` uses. -/
structure ray_t where
  map : rayMap_t
  objs : List rayObj_t
  posX : Int
  posY : Int
  posZ : Int
  dirX : Int
  dirY : Int
  planeX : Int
  planeY : Int
  dirAngle : Int
  bobTimer : Int
  bobCount : Int
  doorTimer : Int
  btnState : Nat
  isStrafing : Bool
deriving DecidableEq

/-- Functions called by `rayMainLoop` that are defined outside the sources. Each receives the
state and may write it; `castSprites` also returns the centered sprite, if any. -/
structure Collaborators where
  moveRayObjects : ray_t → Int → ray_t
  castWalls : ray_t → ray_t
  castSprites : ray_t → ray_t × Option rayObj_t
  cordicAtan2 : Int → Int → Int
  getTexByType : ray_t → Nat → wsg_t
  loadRayMap : ray_t → ray_t
  initLoadedTextures : ray_t → ray_t

/-- A C condition `state & mask`. -/
def held (state mask : Nat) : Bool := (state &&& mask) != 0

/-- The grid holds the `w` columns of `h` cells that the loops of the door timer visit. -/
@[reducible] def mapInBounds (m : rayMap_t) : Prop :=
  m.w.toNat ≤ m.tiles.length ∧ ∀ col ∈ m.tiles, m.h.toNat ≤ col.length

/-- Read of `map.tiles[x][y]`; `none` outside the allocated grid. -/
def tileAt (m : rayMap_t) (x y : Int) : Option rayMapCell_t :=
  if 0 ≤ x ∧ 0 ≤ y then (m.tiles[x.toNat]?).bind (fun col => col[y.toNat]?) else none

/-- Read of `map.tiles[x][y]` at natural indices. -/
def cellAt (m : rayMap_t) (x y : Nat) : Option rayMapCell_t :=
  (m.tiles[x]?).bind (fun col => col[y]?)

/-! ## mode_ray.c -/

/-- Helper function to set the angle the player is facing and associated camera variables:
`void setPlayerAngle(q24_8 angle)`. -/
def setPlayerAngle (ray : ray_t) (angle : Int) : Option ray_t := do
  let ray := { ray with dirAngle := angle }
  let c ← getCos1024 (FROM_FX ray.dirAngle)
  let ray := { ray with dirY := (-c).tdiv 4 }
  let s ← getSin1024 (FROM_FX ray.dirAngle)
  let ray := { ray with dirX := s.tdiv 4 }
  let ray := { ray with planeX := MUL_FX ((-((shl 1 FRAC_BITS) * 2)).tdiv 3) ray.dirY }
  some { ray with planeY := MUL_FX (((shl 1 FRAC_BITS) * 2).tdiv 3) ray.dirX }

/-- The integer dot product of the stored direction and camera-plane vectors. -/
def planeDot (ray : ray_t) : Int := ray.dirX * ray.planeX + ray.dirY * ray.planeY

/-- Two states agree on the facing angle and the vectors derived from it. -/
@[reducible] def sameFacing (a b : ray_t) : Prop :=
  a.dirAngle = b.dirAngle ∧ a.dirX = b.dirX ∧ a.dirY = b.dirY ∧ a.planeX = b.planeX ∧
    a.planeY = b.planeY

/-- The direction and the camera plane are those `setPlayerAngle` computes for the stored
facing angle: `dirX = getSin1024 (FROM_FX dirAngle) / 4`,
`dirY = (-getCos1024 (FROM_FX dirAngle)) / 4`, `planeX = MUL_FX (-170) dirY` and
`planeY = MUL_FX 170 dirX`. -/
@[reducible] def facingConsistent (ray : ray_t) : Prop :=
  (getSin1024 (FROM_FX ray.dirAngle)).map (fun v => v.tdiv 4) = some ray.dirX ∧
  (getCos1024 (FROM_FX ray.dirAngle)).map (fun v => (-v).tdiv 4) = some ray.dirY ∧
  ray.planeX = MUL_FX (-170) ray.dirY ∧ ray.planeY = MUL_FX 170 ray.dirX

/-- The head-bob phase is in `[0, 359]` and the camera offset is the one of the phase:
`posZ = getSin1024 bobCount * 4`. -/
@[reducible] def bobConsistent (ray : ray_t) : Prop :=
  0 ≤ ray.bobCount ∧ ray.bobCount ≤ 359 ∧
  (getSin1024 ray.bobCount).map (fun v => v * 4) = some ray.posZ

/-- The zeroed object of a fresh `calloc`. -/
def zeroObj : rayObj_t :=
  { sprite := none, dist := 0, posX := 0, posY := 0, velX := 0, velY := 0, radius := 0,
    type := 0, id := 0 }

/-- The zeroed state of a fresh `calloc`, with a pool of `MAX_RAY_OBJS` objects. -/
def zeroRay (H : RayHeader) : ray_t :=
  { map := { w := 0, h := 0, tiles := [] }, objs := List.replicate H.MAX_RAY_OBJS zeroObj,
    posX := 0, posY := 0, posZ := 0, dirX := 0, dirY := 0, planeX := 0, planeY := 0,
    dirAngle := 0, bobTimer := 0, bobCount := 0, doorTimer := 0, btnState := 0,
    isStrafing := false }

/-- Mode entry `void rayEnterMode(void)`: the state it leaves in `ray`. The loader writes the
map and the start tile; the LED output is not part of the state. -/
def rayEnterMode (H : RayHeader) (C : Collaborators) : Option ray_t := do
  let ray := zeroRay H
  let ray := { ray with objs := ray.objs.map (fun o => { o with id := -1 }) }
  let ray := C.loadRayMap ray
  let ray := { ray with posX := TO_FX ray.posX + shl 1 (FRAC_BITS - 1) }
  let ray := { ray with posY := TO_FX ray.posY + shl 1 (FRAC_BITS - 1) }
  let ray ← setPlayerAngle ray (TO_FX 0)
  let ray := { ray with posZ := TO_FX 0 }
  some (C.initLoadedTextures ray)

/-- Check if a cell is currently passable: `static bool isPassableCell(rayMapCell_t* cell)`. -/
def isPassableCell (H : RayHeader) (cell : rayMapCell_t) : Bool :=
  if H.CELL_IS_TYPE cell.type (H.BG ||| H.WALL) then
    false
  else if H.CELL_IS_TYPE cell.type (H.BG ||| H.DOOR) then
    TO_FX 1 == cell.doorOpen
  else
    true

/-- Lines 107-112: every queued event overwrites the button state. -/
def drainButtons (ray : ray_t) (evts : List Nat) : ray_t :=
  evts.foldl (fun r st => { r with btnState := st }) ray

/-- One pass of the body of the head-bob loop (lines 125-143). -/
def bobStep (H : RayHeader) (ray : ray_t) : Option ray_t :=
  let ray := { ray with bobTimer := ray.bobTimer - 2500 }
  if held ray.btnState (H.PB_UP ||| H.PB_DOWN) ∨ (0 ≠ ray.bobCount ∧ 180 ≠ ray.bobCount) then
    let ray := { ray with bobCount := ray.bobCount + 1 }
    let ray := if 360 = ray.bobCount then { ray with bobCount := 0 } else ray
    (getSin1024 ray.bobCount).map (fun v => { ray with posZ := v * 4 })
  else
    some { ray with bobCount := 0 }

/-- The loop `while (ray->bobTimer > 2500)`, with a bound on the number of passes; `none` when
the bound is reached with the condition still true. -/
def bobLoop (H : RayHeader) : Nat → ray_t → Option ray_t
  | 0, ray => if ray.bobTimer > 2500 then none else some ray
  | fuel + 1, ray =>
    if ray.bobTimer > 2500 then (bobStep H ray).bind (bobLoop H fuel) else some ray

/-- Lines 121-144: run a timer for head bob. Every pass lowers the timer by 2500, so its value
bounds the number of passes. -/
def bobTimerRun (H : RayHeader) (ray : ray_t) (elapsedUs : Int) : Option ray_t :=
  let ray := { ray with bobTimer := ray.bobTimer + elapsedUs }
  bobLoop H ray.bobTimer.toNat ray

/-- Lines 156-159: the door step on the cell `tiles[x][y]`. -/
def doorCell (m : rayMap_t) (x y : Nat) : Option rayMap_t := do
  let col ← m.tiles[x]?
  let cell ← col[y]?
  if cell.doorOpen > 0 ∧ cell.doorOpen < TO_FX 1 then
    some { m with tiles := m.tiles.set x (col.set y { cell with doorOpen := cell.doorOpen + 1 }) }
  else
    some m

/-- Lines 154-160: the inner loop over `x` for one `y`. -/
def doorRow (m : rayMap_t) (y : Nat) : Option rayMap_t :=
  (List.range m.w.toNat).foldlM (fun acc x => doorCell acc x y) m

/-- Lines 152-161: the loops over the whole map. -/
def doorStep (m : rayMap_t) : Option rayMap_t :=
  (List.range m.h.toNat).foldlM doorRow m

/-- Lines 156-159 on one cell: a door in mid-animation opens one step further. -/
def doorBump (cell : rayMapCell_t) : rayMapCell_t :=
  if cell.doorOpen > 0 ∧ cell.doorOpen < TO_FX 1 then
    { cell with doorOpen := cell.doorOpen + 1 }
  else
    cell

/-- The door step of lines 152-161 run `k` times in a row. -/
def doorSteps : Nat → rayMap_t → Option rayMap_t
  | 0, m => some m
  | k + 1, m => (doorStep m).bind (doorSteps k)

/-- The loop `while (ray->doorTimer >= 5000)`, with a bound on the number of passes. -/
def doorLoop : Nat → ray_t → Option ray_t
  | 0, ray => if ray.doorTimer ≥ 5000 then none else some ray
  | fuel + 1, ray =>
    if ray.doorTimer ≥ 5000 then
      (doorStep ray.map).bind
        (fun m => doorLoop fuel { ray with doorTimer := ray.doorTimer - 5000, map := m })
    else some ray

/-- Lines 146-162: run a timer to open and close doors. -/
def doorTimerRun (ray : ray_t) (elapsedUs : Int) : Option ray_t :=
  let ray := { ray with doorTimer := ray.doorTimer + elapsedUs }
  doorLoop ray.doorTimer.toNat ray

/-- Lines 170-180: the B button sets and clears strafing on its edges. -/
def strafeLatch (H : RayHeader) (ray : ray_t) (prevBtnState : Nat) : ray_t :=
  if held ray.btnState H.PB_B ∧ ¬ held prevBtnState H.PB_B then
    { ray with isStrafing := true }
  else if ¬ held ray.btnState H.PB_B ∧ held prevBtnState H.PB_B then
    { ray with isStrafing := false }
  else
    ray

/-- Lines 208-217: rotate right, in place. -/
def rotateRight (H : RayHeader) (ray : ray_t) : Option ray_t :=
  if held ray.btnState H.PB_RIGHT then
    let newAngle := ADD_FX ray.dirAngle (TO_FX 5)
    let newAngle := if newAngle ≥ TO_FX 360 then newAngle - TO_FX 360 else newAngle
    setPlayerAngle ray newAngle
  else
    some ray

/-- Lines 219-228: rotate left, in place. -/
def rotateLeft (H : RayHeader) (ray : ray_t) : Option ray_t :=
  if held ray.btnState H.PB_LEFT then
    let newAngle := SUB_FX ray.dirAngle (TO_FX 5)
    let newAngle := if newAngle < TO_FX 0 then newAngle + TO_FX 360 else newAngle
    setPlayerAngle ray newAngle
  else
    some ray

/-- Lines 167-229: strafing (locked or unlocked) or rotation; returns the state and the
deltas `(deltaX, deltaY)` accumulated so far. -/
def turnStep (H : RayHeader) (C : Collaborators) (ray : ray_t)
    (centeredSprite : Option rayObj_t) : Option (ray_t × Int × Int) :=
  let deltaX : Int := 0
  let deltaY : Int := 0
  if ray.isStrafing then do
    let ray ← match centeredSprite with
      | some sp =>
        let newAngle := toInt32 (C.cordicAtan2 (sp.posX - ray.posX) (ray.posY - sp.posY))
        setPlayerAngle ray (TO_FX newAngle)
      | none => some ray
    if held ray.btnState H.PB_RIGHT then
      some (ray, deltaX - ray.dirY.tdiv 6, deltaY + ray.dirX.tdiv 6)
    else if held ray.btnState H.PB_LEFT then
      some (ray, deltaX + ray.dirY.tdiv 6, deltaY - ray.dirX.tdiv 6)
    else
      some (ray, deltaX, deltaY)
  else do
    let ray ← rotateRight H ray
    let ray ← rotateLeft H ray
    some (ray, deltaX, deltaY)

/-- Lines 231-244: the up and down buttons. -/
def walkDelta (H : RayHeader) (ray : ray_t) (deltaX deltaY : Int) : Int × Int :=
  if held ray.btnState H.PB_UP then
    (deltaX + ray.dirX.tdiv 6, deltaY + ray.dirY.tdiv 6)
  else if held ray.btnState H.PB_DOWN then
    (deltaX - ray.dirX.tdiv 6, deltaY - ray.dirY.tdiv 6)
  else
    (deltaX, deltaY)

/-- Lines 246-259: the boundary checks and the move. -/
def movePlayer (H : RayHeader) (ray : ray_t) (deltaX deltaY : Int) : Option ray_t := do
  let boundaryCheckX := deltaX * 2
  let boundaryCheckY := deltaY * 2
  let cellX ← tileAt ray.map (FROM_FX (ray.posX + boundaryCheckX)) (FROM_FX ray.posY)
  let ray := if isPassableCell H cellX then { ray with posX := ray.posX + deltaX } else ray
  let cellY ← tileAt ray.map (FROM_FX ray.posX) (FROM_FX (ray.posY + boundaryCheckY))
  let ray := if isPassableCell H cellY then { ray with posY := ray.posY + deltaY } else ray
  some ray

/-- Lines 264-280: the scan for a free slot from `newIdx`, over `n` remaining slots. -/
def fireScan (H : RayHeader) (C : Collaborators) (ray : ray_t) : Nat → Nat → Option ray_t
  | 0, _ => some ray
  | n + 1, newIdx => do
    let o ← ray.objs[newIdx]?
    if -1 = o.id then
      let texture := C.getTexByType ray H.OBJ_BULLET_NORMAL
      let bullet : rayObj_t :=
        { o with
          sprite := some texture,
          dist := 0,
          posX := ray.posX + ray.dirX.tdiv 2,
          posY := ray.posY + ray.dirY.tdiv 2,
          velX := ray.dirX,
          velY := ray.dirY,
          radius := DIV_FX (TO_FX texture.w) (TO_FX 64),
          type := H.OBJ_BULLET_NORMAL,
          id := 0 }
      some { ray with objs := ray.objs.set newIdx bullet }
    else
      fireScan H C ray n (newIdx + 1)

/-- Lines 261-281: the fire action on a press edge of the A button. -/
def fireStep (H : RayHeader) (C : Collaborators) (ray : ray_t) (prevBtnState : Nat) :
    Option ray_t :=
  if held ray.btnState H.PB_A ∧ ¬ held prevBtnState H.PB_A then
    fireScan H C ray H.MAX_RAY_OBJS 0
  else
    some ray

/-- Lines 107-119 of `rayMainLoop`: the button queue and the collaborators. Returns the state
and the centered sprite. `evts` are the button states of the queued events. -/
def frameInputs (C : Collaborators) (ray : ray_t) (evts : List Nat) (elapsedUs : Int) :
    ray_t × Option rayObj_t :=
  let ray := drainButtons ray evts
  let ray := C.moveRayObjects ray elapsedUs
  let ray := C.castWalls ray
  C.castSprites ray

/-- Lines 107-180 of `rayMainLoop`: the inputs, the two timers and the strafe latch. Returns
the state and the centered sprite. -/
def frameTimers (H : RayHeader) (C : Collaborators) (ray : ray_t) (evts : List Nat)
    (elapsedUs : Int) : Option (ray_t × Option rayObj_t) := do
  let prevBtnState := ray.btnState
  let (ray, centeredSprite) := frameInputs C ray evts elapsedUs
  let ray ← bobTimerRun H ray elapsedUs
  let ray ← doorTimerRun ray elapsedUs
  let ray := strafeLatch H ray prevBtnState
  some (ray, centeredSprite)

/-- Lines 107-248 of `rayMainLoop`: everything before the move. Returns the state and the
movement delta of the frame. -/
def frameDelta (H : RayHeader) (C : Collaborators) (ray : ray_t) (evts : List Nat)
    (elapsedUs : Int) : Option (ray_t × Int × Int) := do
  let (ray, centeredSprite) ← frameTimers H C ray evts elapsedUs
  let (ray, deltaX, deltaY) ← turnStep H C ray centeredSprite
  let (deltaX, deltaY) := walkDelta H ray deltaX deltaY
  some (ray, deltaX, deltaY)

/-- The frame step `void rayMainLoop(int64_t elapsedUs)`. -/
def rayMainLoop (H : RayHeader) (C : Collaborators) (ray : ray_t) (evts : List Nat)
    (elapsedUs : Int) : Option ray_t := do
  let prevBtnState := ray.btnState
  let (ray, deltaX, deltaY) ← frameDelta H C ray evts elapsedUs
  let ray ← movePlayer H ray deltaX deltaY
  fireStep H C ray prevBtnState

/-! ## Concrete inputs

A header instance and small worlds on which the embedding is evaluated. -/

/-- A header instance: one bit per button, the cell category in bits 5 and 6 of the type and
the object flag in bit 7, a pool of four objects. -/
def sampleHeader : RayHeader :=
  { PB_UP := 0x01, PB_DOWN := 0x02, PB_LEFT := 0x04, PB_RIGHT := 0x08, PB_A := 0x10,
    PB_B := 0x20, BG := 0x00, WALL := 0x40, DOOR := 0x60,
    CELL_IS_TYPE := fun cell type => (cell &&& 0xE0) == type,
    MAX_RAY_OBJS := 4, OBJ_BULLET_NORMAL := 0xC1 }

/-- Collaborators that leave the state as it is, find no centered sprite and hand out a
16 by 16 texture. -/
def idleCollaborators : Collaborators :=
  { moveRayObjects := fun ray _ => ray, castWalls := fun ray => ray,
    castSprites := fun ray => (ray, none), cordicAtan2 := fun _ _ => 0,
    getTexByType := fun _ _ => { w := 16, h := 16 }, loadRayMap := fun ray => ray,
    initLoadedTextures := fun ray => ray }

/-- A floor cell of the sample header (category 0x20). -/
def floorCell : rayMapCell_t := { type := 0x21, doorOpen := 0 }

/-- A wall cell of the sample header (category `BG | WALL`). -/
def wallCell : rayMapCell_t := { type := 0x41, doorOpen := 0 }

/-- A door cell of the sample header (category `BG | DOOR`) with the given progress. -/
def doorCellOf (doorOpen : Int) : rayMapCell_t := { type := 0x61, doorOpen := doorOpen }

/-- A 4 by 4 map of floor cells with one wall cell at tile `(wx, wy)`. -/
def oneWallMap (wx wy : Nat) : rayMap_t :=
  { w := 4, h := 4,
    tiles := (List.range 4).map (fun x => (List.range 4).map (fun y =>
      if x = wx ∧ y = wy then wallCell else floorCell)) }

/-- A player on `m` at `(posX, posY)` with direction `(dirX, dirY)` for the facing angle
`angle` in degrees, the given buttons held since the frame before, an empty pool. -/
def playerAt (m : rayMap_t) (posX posY angle dirX dirY : Int) (btnState : Nat) : ray_t :=
  { zeroRay sampleHeader with
    map := m, objs := List.replicate 4 { zeroObj with id := -1 },
    posX := posX, posY := posY, dirAngle := TO_FX angle, dirX := dirX, dirY := dirY,
    planeX := MUL_FX (-170) dirY, planeY := MUL_FX 170 dirX, btnState := btnState }

/-- The player in tile `(1, 1)` at height `posY`, facing north (angle 0) with the up button
held; the tile `(1, 0)` north of it is a wall. -/
def northOfWall (posY : Int) : ray_t :=
  playerAt (oneWallMap 1 0) 384 posY 0 0 (-256) 0x01

/-- The player in tile `(1, 1)` facing north with the up button held, no wall around. -/
def northInOpen : ray_t :=
  playerAt (oneWallMap 3 3) 384 384 0 0 (-256) 0x01

/-- The player near the far corner of tile `(1, 1)`, facing south-east (angle 135) with the up
button held; the tile `(2, 2)` across the corner is a wall, the tiles `(2, 1)` and `(1, 2)`
are floor. -/
def diagonalAtCorner : ray_t :=
  playerAt (oneWallMap 2 2) 506 506 135 181 181 0x01

/-- A 2 by 2 map: a door in mid-animation at `(0, 0)`, a closed door at `(0, 1)`, an open
door at `(1, 0)` and a floor cell at `(1, 1)`. -/
def doorsMap : rayMap_t :=
  { w := 2, h := 2, tiles := [[doorCellOf 100, doorCellOf 0], [doorCellOf 256, floorCell]] }

/-- The player at the centre of the floor cell of `doorsMap`, facing north, no button held,
all timers at 0. -/
def amongDoors : ray_t :=
  playerAt doorsMap 384 384 0 0 (-256) 0x00

/-- The player in the open at the facing angle 357, with the right button held. -/
def turningRight : ray_t :=
  playerAt (oneWallMap 3 3) 384 384 357 (-13) (-255) 0x08

/-- The player in the open at the facing angle 2, with the left button held. -/
def turningLeft : ray_t :=
  playerAt (oneWallMap 3 3) 384 384 2 9 (-255) 0x04

/-- The player in tile `(1, 1)` facing south-east (angle 135) with the up button held, no wall
around. -/
def southEastInOpen : ray_t :=
  playerAt (oneWallMap 3 3) 384 384 135 181 181 0x01

/-- The player in tile `(1, 1)`, 12 units from its east edge, facing east (angle 90) with the
up button held; the tile `(2, 1)` east of it is a wall. -/
def eastOfWall : ray_t :=
  playerAt (oneWallMap 2 1) 500 384 90 256 0 0x01

/-! ## Theorems -/

set_option maxRecDepth 1000000

/-! ### Integer trigonometry and fixed point -/

/-- Truncating division by a positive number, in terms of floor division. -/
theorem tdiv_pos_cases (a b : Int) (hb : 0 < b) :
    (0 ≤ a → a.tdiv b = a / b) ∧ (a < 0 → a.tdiv b = -((-a) / b)) := by
  constructor
  · intro h; exact Int.tdiv_eq_ediv h (le_of_lt hb)
  · intro h
    have h2 : (-(-a)).tdiv b = -((-a).tdiv b) := Int.neg_tdiv (-a) b
    have h3 : (-a).tdiv b = (-a) / b := Int.tdiv_eq_ediv (by omega) (le_of_lt hb)
    rw [neg_neg, h3] at h2
    exact h2

/-- Truncating remainder by a positive number, in terms of the floor remainder. -/
theorem tmod_pos_cases (a b : Int) (hb : 0 < b) :
    (0 ≤ a → a.tmod b = a % b) ∧ (a < 0 → a.tmod b = -((-a) % b)) := by
  constructor
  · intro h; exact Int.tmod_eq_emod h (le_of_lt hb)
  · intro h
    rw [Int.tmod_def, (tdiv_pos_cases a b hb).2 h, Int.emod_def]
    ring

/-- The corrected modulus: C `((d % m) + (m + c)) % m` is the non-negative remainder of
`d + c`. -/
theorem norm_tmod (d m c : Int) (hm : 0 < m) (hc : 0 ≤ c) :
    ((d.tmod m) + (m + c)).tmod m = (d + c) % m := by
  have h1 := tmod_pos_cases d m hm
  have hlt : -m < d.tmod m := by
    rcases lt_or_le d 0 with h | h
    · rw [h1.2 h]; have := Int.emod_lt_of_pos (-d) hm; omega
    · rw [h1.1 h]; have := Int.emod_nonneg d (ne_of_gt hm); omega
  rw [(tmod_pos_cases (d.tmod m + (m + c)) m hm).1 (by omega)]
  rcases lt_or_le d 0 with h | h
  · rw [h1.2 h]
    have e : -(-d % m) + (m + c) = (d + c) + m * ((-d) / m + 1) := by
      rw [Int.emod_def]; ring
    rw [e, Int.add_mul_emod_self_left]
  · rw [h1.1 h]
    have e : d % m + (m + c) = (d + c) + m * (1 - d / m) := by
      rw [Int.emod_def]; ring
    rw [e, Int.add_mul_emod_self_left]

/-- Conversion to `int16_t` keeps a representable value. -/
theorem toInt16_of_range (x : Int) (h1 : -32768 ≤ x) (h2 : x ≤ 32767) : toInt16 x = x := by
  unfold toInt16; omega

/-- Conversion to `int16_t` gives a representable value. -/
theorem toInt16_range (x : Int) : -32768 ≤ toInt16 x ∧ toInt16 x ≤ 32767 := by
  unfold toInt16; omega

/-- The sine table has 360 entries. -/
theorem sin1024_length : sin1024.length = 360 := by decide

/-- The tangent table has 90 entries. -/
theorem tan1024_length : tan1024.length = 90 := rfl

/-- Every entry of the sine table is between -1024 and 1024. -/
theorem sin1024_bound : ∀ v ∈ sin1024, -1024 ≤ v ∧ v ≤ 1024 := by decide

/-- Every entry of the tangent table is a `uint16_t`. -/
theorem tan1024_nonneg : ∀ v ∈ tan1024, 0 ≤ v ∧ v ≤ 65535 := by decide

/-- The sine lookup on an `int16_t` degree reads the table at the non-negative remainder. -/
theorem getSin1024_eq (d : Int) (h1 : -32768 ≤ d) (h2 : d ≤ 32767) :
    getSin1024 d = sin1024[(d % 360).toNat]? := by
  have hn := norm_tmod d 360 0 (by norm_num) (by norm_num)
  simp only [add_zero] at hn
  unfold getSin1024
  simp only [toInt16_of_range d h1 h2, hn]
  rw [toInt16_of_range _ (by omega) (by omega)]
  unfold tableAt
  rw [if_pos (by omega)]

/-- The cosine lookup on an `int16_t` degree reads the table 90 entries further. -/
theorem getCos1024_eq (d : Int) (h1 : -32768 ≤ d) (h2 : d ≤ 32767) :
    getCos1024 d = sin1024[((d + 90) % 360).toNat]? := by
  have hn := norm_tmod d 360 90 (by norm_num) (by norm_num)
  norm_num at hn
  unfold getCos1024
  simp only [toInt16_of_range d h1 h2, hn]
  rw [toInt16_of_range _ (by omega) (by omega)]
  unfold tableAt
  rw [if_pos (by omega)]

/-- A read of the sine table at a normalised index gives an entry between -1024 and 1024. -/
theorem sin1024_read (i : Int) (h0 : 0 ≤ i) (h1 : i ≤ 359) :
    ∃ v, sin1024[i.toNat]? = some v ∧ -1024 ≤ v ∧ v ≤ 1024 := by
  have hl : i.toNat < sin1024.length := by rw [sin1024_length]; omega
  refine ⟨sin1024[i.toNat], List.getElem?_eq_getElem hl, ?_⟩
  exact sin1024_bound _ (List.getElem_mem hl)

/-- Claim C1: `getSin1024` is 360-periodic on `int16_t` degrees: when `d` and `d + 360 * k` are
both representable as `int16_t`, the two lookups agree (negative degrees included). -/
theorem getSin1024_periodic (d k : Int) (h1 : -32768 ≤ d) (h2 : d ≤ 32767)
    (h3 : -32768 ≤ d + 360 * k) (h4 : d + 360 * k ≤ 32767) :
    getSin1024 (d + 360 * k) = getSin1024 d := by
  rw [getSin1024_eq _ h3 h4, getSin1024_eq _ h1 h2]
  have : (d + 360 * k) % 360 = d % 360 := by omega
  rw [this]

/-- Witness of C1 at the negative degree -350 and two periods. -/
theorem getSin1024_periodic_witness :
    (-32768 ≤ (-350 : Int) ∧ (-350 : Int) ≤ 32767 ∧ -32768 ≤ (-350 : Int) + 360 * 2 ∧
      (-350 : Int) + 360 * 2 ≤ 32767) ∧
    getSin1024 (-350 + 360 * 2) = getSin1024 (-350) :=
  ⟨by decide, getSin1024_periodic (-350) 2 (by decide) (by decide) (by decide) (by decide)⟩

/-- Claim C2: for every degree `d` in `[0, 359]`, `getCos1024 d` is `getSin1024` of
`(d + 90) % 360` (the remainder written both as C computes it and as the non-negative one). -/
theorem getCos1024_eq_getSin1024_shift (d : Int) (h1 : 0 ≤ d) (h2 : d ≤ 359) :
    getCos1024 d = getSin1024 ((d + 90).tmod 360) ∧
    getCos1024 d = getSin1024 ((d + 90) % 360) := by
  have ht : (d + 90).tmod 360 = (d + 90) % 360 :=
    Int.tmod_eq_emod (by omega) (by norm_num)
  rw [ht, getCos1024_eq _ (by omega) (by omega), getSin1024_eq _ (by omega) (by omega)]
  have : (d + 90) % 360 % 360 = (d + 90) % 360 := by omega
  rw [this]
  exact ⟨rfl, rfl⟩

/-- Witness of C2 at 300 degrees, where `d + 90` wraps past 360. -/
theorem getCos1024_eq_getSin1024_shift_witness :
    ((0 : Int) ≤ 300 ∧ (300 : Int) ≤ 359) ∧
    getCos1024 300 = getSin1024 ((300 + 90 : Int).tmod 360) ∧
    getCos1024 300 = getSin1024 ((300 + 90) % 360) :=
  ⟨by decide, getCos1024_eq_getSin1024_shift 300 (by decide) (by decide)⟩

/-- Claim C4: for every `int16_t` degree `d`, `getSin1024 d` and `getCos1024 d` read the
360-entry table at an index in `[0, 359]` and return a value between -1024 and 1024. -/
theorem getSin1024_getCos1024_in_range (d : Int) (h1 : -32768 ≤ d) (h2 : d ≤ 32767) :
    sin1024.length = 360 ∧
    (∃ i : Nat, i < 360 ∧ ∃ v, sin1024[i]? = some v ∧ getSin1024 d = some v ∧
      -1024 ≤ v ∧ v ≤ 1024) ∧
    (∃ i : Nat, i < 360 ∧ ∃ v, sin1024[i]? = some v ∧ getCos1024 d = some v ∧
      -1024 ≤ v ∧ v ≤ 1024) := by
  refine ⟨sin1024_length, ?_, ?_⟩
  · obtain ⟨v, hv, hb⟩ := sin1024_read (d % 360) (by omega) (by omega)
    exact ⟨(d % 360).toNat, by omega, v, hv, by rw [getSin1024_eq d h1 h2]; exact hv, hb⟩
  · obtain ⟨v, hv, hb⟩ := sin1024_read ((d + 90) % 360) (by omega) (by omega)
    exact ⟨((d + 90) % 360).toNat, by omega, v, hv, by rw [getCos1024_eq d h1 h2]; exact hv, hb⟩


/-- The tangent lookup on an `int16_t` degree, by the half of the half-period. -/
theorem getTan1024_eq (d : Int) (h1 : -32768 ≤ d) (h2 : d ≤ 32767) :
    getTan1024 d = if d % 180 < 90 then tan1024[(d % 180).toNat]?
      else (tan1024[(d % 180 - 90).toNat]?).map (fun v => -v) := by
  have hn := norm_tmod d 180 0 (by norm_num) (by norm_num)
  simp only [add_zero] at hn
  have h0 : (0 : Int) ≤ d % 180 := by omega
  unfold getTan1024
  simp only [toInt16_of_range d h1 h2, hn]
  rw [toInt16_of_range _ (by omega) (by omega)]
  unfold tableAt
  by_cases hlt : d % 180 < 90
  · rw [if_pos hlt, if_pos hlt, if_pos h0]
  · have h90 : (0 : Int) ≤ d % 180 - 90 := by omega
    rw [if_neg hlt, if_neg hlt, if_pos h90]

/-- Every entry of the tangent table after the first is positive. -/
theorem tan1024_pos : ∀ k ∈ List.range 90, 1 ≤ k → 0 < tan1024.getD k 0 := by decide

/-- A read of the tangent table at an index below 90 gives an entry, positive past index 0. -/
theorem tan1024_read (i : Int) (h0 : 0 ≤ i) (h1 : i ≤ 89) :
    ∃ v, tan1024[i.toNat]? = some v ∧ 0 ≤ v ∧ v ≤ 65535 ∧ (0 < i → 0 < v) := by
  have hl : i.toNat < tan1024.length := by rw [tan1024_length]; omega
  have hget : tan1024[i.toNat]? = some tan1024[i.toNat] := List.getElem?_eq_getElem hl
  refine ⟨tan1024[i.toNat], hget, (tan1024_nonneg _ (List.getElem_mem hl)).1,
    (tan1024_nonneg _ (List.getElem_mem hl)).2, ?_⟩
  intro hpos
  have h := tan1024_pos i.toNat (List.mem_range.2 (by omega)) (by omega)
  rw [List.getD_eq_getElem?_getD, hget] at h
  exact h

/-- Claim C3: for every `int16_t` degree `d`, with `n = ((d % 180) + 180) % 180` in C
arithmetic, `getTan1024 d` is `tan1024[n]` when `n < 90` and the integer `-tan1024[n - 90]`
when `90 ≤ n < 180`, negated as an integer (negative past `n = 90`, never a wrapped unsigned
value); `getTan1024 45 = 1024` and `getTan1024 135 = -1024`. -/
theorem getTan1024_half_period (d : Int) (h1 : -32768 ≤ d) (h2 : d ≤ 32767) :
    (∀ n : Int, n = ((d.tmod 180) + 180).tmod 180 →
      0 ≤ n ∧ n < 180 ∧
      (n < 90 → ∃ t, tan1024[n.toNat]? = some t ∧ getTan1024 d = some t) ∧
      (90 ≤ n → ∃ t, tan1024[(n - 90).toNat]? = some t ∧ 0 ≤ t ∧ (90 < n → 0 < t) ∧
        getTan1024 d = some (-t))) ∧
    getTan1024 45 = some 1024 ∧ getTan1024 135 = some (-1024) := by
  refine ⟨?_, by decide, by decide⟩
  intro n hn
  have hn2 := norm_tmod d 180 0 (by norm_num) (by norm_num)
  simp only [add_zero] at hn2
  rw [hn2] at hn
  subst hn
  refine ⟨by omega, by omega, ?_, ?_⟩
  · intro hlt
    obtain ⟨t, ht, _⟩ := tan1024_read (d % 180) (by omega) (by omega)
    exact ⟨t, ht, by rw [getTan1024_eq d h1 h2, if_pos hlt]; exact ht⟩
  · intro hge
    obtain ⟨t, ht, ht0, _, htp⟩ := tan1024_read (d % 180 - 90) (by omega) (by omega)
    refine ⟨t, ht, ht0, fun h => htp (by omega), ?_⟩
    rw [getTan1024_eq d h1 h2, if_neg (by omega), ht]
    rfl

/-- Witness of C3 at -45 degrees, which normalises to 135. -/
theorem getTan1024_half_period_witness :
    (-32768 ≤ (-45 : Int) ∧ (-45 : Int) ≤ 32767) ∧
    (∃ t, tan1024[((135 : Int) - 90).toNat]? = some t ∧ 0 ≤ t ∧ ((90 : Int) < 135 → 0 < t) ∧
      getTan1024 (-45) = some (-t)) :=
  ⟨by decide,
    ((getTan1024_half_period (-45) (by decide) (by decide)).1 135 (by decide)).2.2.2
      (by decide)⟩

/-- Conversion to `int32_t` keeps a representable value. -/
theorem toInt32_of_range (x : Int) (h1 : -2147483648 ≤ x) (h2 : x ≤ 2147483647) :
    toInt32 x = x := by
  unfold toInt32; omega

/-- The arithmetic shift of `FROM_FX` is floor division by 256. -/
theorem FROM_FX_eq (x : Int) : FROM_FX x = x / 256 := by
  unfold FROM_FX FRAC_BITS
  rw [Int.shiftRight_eq_div_pow]
  norm_num

/-- On a Q24.8 integer `TO_FX` is multiplication by 256. -/
theorem TO_FX_eq (n : Int) (h1 : -8388608 ≤ n) (h2 : n ≤ 8388607) : TO_FX n = n * 256 := by
  unfold TO_FX shl FRAC_BITS
  rw [toInt32_of_range _ (by omega) (by omega)]
  norm_num

/-- The shift of `MUL_FX` is floor division by 256. -/
theorem MUL_FX_eq (a b : Int) : MUL_FX a b = (a * b) / 256 := by
  unfold MUL_FX FRAC_BITS
  rw [Int.shiftRight_eq_div_pow]
  norm_num

/-- Converting a Q24.8 integer to fixed point and back gives it again. -/
theorem FROM_FX_TO_FX (n : Int) (h1 : -8388608 ≤ n) (h2 : n ≤ 8388607) :
    FROM_FX (TO_FX n) = n := by
  rw [TO_FX_eq n h1 h2, FROM_FX_eq]
  omega

/-- Witness of C4 at the lowest `int16_t`. -/
theorem getSin1024_getCos1024_in_range_witness :
    (-32768 ≤ (-32768 : Int) ∧ (-32768 : Int) ≤ 32767) ∧
    sin1024.length = 360 ∧
    (∃ i : Nat, i < 360 ∧ ∃ v, sin1024[i]? = some v ∧ getSin1024 (-32768) = some v ∧
      -1024 ≤ v ∧ v ≤ 1024) ∧
    (∃ i : Nat, i < 360 ∧ ∃ v, sin1024[i]? = some v ∧ getCos1024 (-32768) = some v ∧
      -1024 ≤ v ∧ v ≤ 1024) :=
  ⟨by decide, getSin1024_getCos1024_in_range (-32768) (by decide) (by decide)⟩

/-- Claim C5: fixed-point round trip: for every integer `n` representable in Q24.8
(`-2^23 ≤ n ≤ 2^23 - 1`), `FROM_FX (TO_FX n) = n`. -/
theorem FROM_FX_TO_FX_roundtrip (n : Int) (h1 : -8388608 ≤ n) (h2 : n ≤ 8388607) :
    FROM_FX (TO_FX n) = n := FROM_FX_TO_FX n h1 h2

/-- Witness of C5 at the lowest Q24.8 integer. -/
theorem FROM_FX_TO_FX_roundtrip_witness :
    (-8388608 ≤ (-8388608 : Int) ∧ (-8388608 : Int) ≤ 8388607) ∧
    FROM_FX (TO_FX (-8388608)) = -8388608 :=
  ⟨by decide, FROM_FX_TO_FX_roundtrip (-8388608) (by decide) (by decide)⟩

/-- Totality of `getSin1024`: it returns a table entry for every argument. -/
theorem getSin1024_total (d : Int) : ∃ v, getSin1024 d = some v ∧ -1024 ≤ v ∧ v ≤ 1024 := by
  have hr := toInt16_range d
  have e : getSin1024 d = getSin1024 (toInt16 d) := by
    unfold getSin1024
    rw [toInt16_of_range (toInt16 d) hr.1 hr.2]
  rw [e, getSin1024_eq _ hr.1 hr.2]
  exact sin1024_read _ (by omega) (by omega)

/-- Totality of `getCos1024`: it returns a table entry for every argument. -/
theorem getCos1024_total (d : Int) : ∃ v, getCos1024 d = some v ∧ -1024 ≤ v ∧ v ≤ 1024 := by
  have hr := toInt16_range d
  have e : getCos1024 d = getCos1024 (toInt16 d) := by
    unfold getCos1024
    rw [toInt16_of_range (toInt16 d) hr.1 hr.2]
  rw [e, getCos1024_eq _ hr.1 hr.2]
  exact sin1024_read _ (by omega) (by omega)

/-- What `setPlayerAngle` stores, given the two table reads. -/
theorem setPlayerAngle_eq (ray : ray_t) (angle sn cs : Int)
    (hs : getSin1024 (FROM_FX angle) = some sn) (hc : getCos1024 (FROM_FX angle) = some cs) :
    setPlayerAngle ray angle = some { ray with
      dirAngle := angle, dirX := sn.tdiv 4, dirY := (-cs).tdiv 4,
      planeX := MUL_FX (-170) ((-cs).tdiv 4), planeY := MUL_FX 170 (sn.tdiv 4) } := by
  have e1 : (-(shl 1 FRAC_BITS * 2)).tdiv 3 = -170 := by decide
  have e2 : (shl 1 FRAC_BITS * 2).tdiv 3 = 170 := by decide
  simp only [setPlayerAngle, hs, hc, e1, e2, Option.bind_eq_bind, Option.some_bind,
    Option.pure_def, Option.bind_some]

/-- Claim C6: for every integer angle `a` in `[0, 359]`, `setPlayerAngle (TO_FX a)` sets
`dirAngle = TO_FX a`, `dirX = getSin1024 a / 4`, `dirY = (-getCos1024 a) / 4` (truncating),
`planeX = MUL_FX (-170) dirY` and `planeY = MUL_FX 170 dirX`, with `170 = (256 * 2) / 3` and
`MUL_FX x y = (x * y) >> 8`; for the angle 0 it gives `dirX = 0`, `dirY = -256`,
`planeX = 170`, `planeY = 0`. -/
theorem setPlayerAngle_of_degree (ray : ray_t) (a : Int) (h0 : 0 ≤ a) (h1 : a ≤ 359) :
    (∃ sn cs, getSin1024 a = some sn ∧ getCos1024 a = some cs ∧
      setPlayerAngle ray (TO_FX a) = some { ray with
        dirAngle := TO_FX a, dirX := sn.tdiv 4, dirY := (-cs).tdiv 4,
        planeX := MUL_FX (-170) ((-cs).tdiv 4), planeY := MUL_FX 170 (sn.tdiv 4) }) ∧
    ((256 * 2 : Int).tdiv 3 = 170 ∧ ∀ x y : Int, MUL_FX x y = (x * y) >>> (8 : Nat)) ∧
    setPlayerAngle ray (TO_FX 0) = some { ray with
      dirAngle := TO_FX 0, dirX := 0, dirY := -256, planeX := 170, planeY := 0 } := by
  refine ⟨?_, ⟨by decide, fun x y => by unfold MUL_FX FRAC_BITS; rfl⟩, ?_⟩
  · obtain ⟨sn, hs, _⟩ := getSin1024_total a
    obtain ⟨cs, hc, _⟩ := getCos1024_total a
    refine ⟨sn, cs, hs, hc, ?_⟩
    apply setPlayerAngle_eq
    · rw [FROM_FX_TO_FX a (by omega) (by omega)]; exact hs
    · rw [FROM_FX_TO_FX a (by omega) (by omega)]; exact hc
  · have hs : getSin1024 (FROM_FX (TO_FX 0)) = some 0 := by decide
    have hc : getCos1024 (FROM_FX (TO_FX 0)) = some 1024 := by decide
    rw [setPlayerAngle_eq ray (TO_FX 0) 0 1024 hs hc]
    have e1 : (-1024 : Int).tdiv 4 = -256 := by decide
    have e2 : (0 : Int).tdiv 4 = 0 := by decide
    have e3 : MUL_FX (-170) (-256) = 170 := by decide
    have e4 : MUL_FX 170 0 = 0 := by decide
    rw [e1, e2, e3, e4]

/-- Witness of C6 at 135 degrees. -/
theorem setPlayerAngle_of_degree_witness :
    ((0 : Int) ≤ 135 ∧ (135 : Int) ≤ 359) ∧
    (∃ sn cs, getSin1024 135 = some sn ∧ getCos1024 135 = some cs ∧
      setPlayerAngle northInOpen (TO_FX 135) = some { northInOpen with
        dirAngle := TO_FX 135, dirX := sn.tdiv 4, dirY := (-cs).tdiv 4,
        planeX := MUL_FX (-170) ((-cs).tdiv 4), planeY := MUL_FX 170 (sn.tdiv 4) }) :=
  ⟨by decide, (setPlayerAngle_of_degree northInOpen 135 (by decide) (by decide)).1⟩

/-- Claim C7: `isPassableCell` depends only on the cell's type and `doorOpen`: a cell of
type `BG | WALL` is never passable; a cell of type `BG | DOOR` is passable if and only if
`doorOpen = TO_FX 1 = 256` (so not at 255); a cell of neither type is passable. The type
test is the macro `CELL_IS_TYPE` of the header. -/
theorem isPassableCell_by_type (H : RayHeader) (cell : rayMapCell_t) :
    (H.CELL_IS_TYPE cell.type (H.BG ||| H.WALL) = true → isPassableCell H cell = false) ∧
    (H.CELL_IS_TYPE cell.type (H.BG ||| H.WALL) = false →
      H.CELL_IS_TYPE cell.type (H.BG ||| H.DOOR) = true →
      ((isPassableCell H cell = true ↔ cell.doorOpen = TO_FX 1) ∧ TO_FX 1 = 256 ∧
        (cell.doorOpen = 255 → isPassableCell H cell = false))) ∧
    (H.CELL_IS_TYPE cell.type (H.BG ||| H.WALL) = false →
      H.CELL_IS_TYPE cell.type (H.BG ||| H.DOOR) = false → isPassableCell H cell = true) ∧
    (∀ other : rayMapCell_t, other.type = cell.type → other.doorOpen = cell.doorOpen →
      isPassableCell H other = isPassableCell H cell) := by
  have h256 : TO_FX 1 = 256 := by rw [TO_FX_eq 1 (by norm_num) (by norm_num)]; norm_num
  refine ⟨?_, ?_, ?_, ?_⟩
  · intro hw; simp [isPassableCell, hw]
  · intro hw hd
    refine ⟨?_, h256, ?_⟩
    · simp [isPassableCell, hw, hd]
      constructor <;> intro h <;> exact h.symm
    · intro h; simp [isPassableCell, hw, hd, h256, h]
  · intro hw hd; simp [isPassableCell, hw, hd]
  · intro other ht hdo; simp [isPassableCell, ht, hdo]


/-- Witness of C7 on the sample header: a wall, a door at 256 and at 255, a floor. -/
theorem isPassableCell_by_type_witness :
    isPassableCell sampleHeader wallCell = false ∧
    (isPassableCell sampleHeader (doorCellOf 256) = true ↔ (doorCellOf 256).doorOpen = TO_FX 1) ∧
    isPassableCell sampleHeader (doorCellOf 255) = false ∧
    isPassableCell sampleHeader floorCell = true :=
  ⟨(isPassableCell_by_type sampleHeader wallCell).1 (by decide),
    ((isPassableCell_by_type sampleHeader (doorCellOf 256)).2.1 (by decide) (by decide)).1,
    ((isPassableCell_by_type sampleHeader (doorCellOf 255)).2.1 (by decide) (by decide)).2.2
      (by decide),
    (isPassableCell_by_type sampleHeader floorCell).2.2.1 (by decide) (by decide)⟩

/-! ### Totality of the frame before the move -/

/-- A fold of an `Option`-valued step returns when every step keeps an invariant. -/
theorem foldlM_option_inv {α β : Type} (P : β → Prop) (f : β → α → Option β) (l : List α)
    (hstep : ∀ acc x, x ∈ l → P acc → ∃ acc2, f acc x = some acc2 ∧ P acc2) :
    ∀ init, P init → ∃ r, l.foldlM f init = some r ∧ P r := by
  induction l with
  | nil => intro init hi; exact ⟨init, rfl, hi⟩
  | cons a l ih =>
    intro init hi
    obtain ⟨acc2, hf, hP⟩ := hstep init a (List.mem_cons_self a l) hi
    obtain ⟨r, hr, hPr⟩ := ih (fun acc x hx => hstep acc x (List.mem_cons_of_mem a hx)) acc2 hP
    refine ⟨r, ?_, hPr⟩
    rw [List.foldlM_cons, hf]
    exact hr

/-- The door step on a cell inside the grid returns and keeps the shape of the grid. -/
theorem doorCell_total (m : rayMap_t) (x y : Nat) (hm : mapInBounds m)
    (hx : x < m.w.toNat) (hy : y < m.h.toNat) :
    ∃ m2, doorCell m x y = some m2 ∧ m2.w = m.w ∧ m2.h = m.h ∧ mapInBounds m2 := by
  have hxl : x < m.tiles.length := by have := hm.1; omega
  have hcol : m.tiles[x]? = some m.tiles[x] := List.getElem?_eq_getElem hxl
  have hyl : y < (m.tiles[x]).length := by
    have := hm.2 _ (List.getElem_mem hxl); omega
  have hcell : (m.tiles[x])[y]? = some (m.tiles[x])[y] := List.getElem?_eq_getElem hyl
  unfold doorCell
  simp only [hcol, hcell, Option.bind_eq_bind, Option.some_bind]
  split
  · refine ⟨_, rfl, rfl, rfl, ?_, ?_⟩
    · simp only [List.length_set]; exact hm.1
    · intro col hc
      rcases List.mem_or_eq_of_mem_set hc with h | h
      · exact hm.2 col h
      · rw [h, List.length_set]; exact hm.2 _ (List.getElem_mem hxl)
  · exact ⟨m, rfl, rfl, rfl, hm⟩

/-- The door step on a row of the grid returns and keeps the shape of the grid. -/
theorem doorRow_total (m : rayMap_t) (y : Nat) (hm : mapInBounds m) (hy : y < m.h.toNat) :
    ∃ m2, doorRow m y = some m2 ∧ m2.w = m.w ∧ m2.h = m.h ∧ mapInBounds m2 := by
  have h := foldlM_option_inv (fun acc : rayMap_t => acc.w = m.w ∧ acc.h = m.h ∧ mapInBounds acc)
    (fun acc x => doorCell acc x y) (List.range m.w.toNat)
    (by
      intro acc x hx hacc
      obtain ⟨hw, hh, hb⟩ := hacc
      obtain ⟨m2, h1, h2, h3, h4⟩ := doorCell_total acc x y hb
        (by rw [hw]; exact List.mem_range.1 hx) (by rw [hh]; exact hy)
      exact ⟨m2, h1, by rw [h2, hw], by rw [h3, hh], h4⟩)
    m ⟨rfl, rfl, hm⟩
  exact h

/-- The door step on the whole grid returns and keeps the shape of the grid. -/
theorem doorStep_total (m : rayMap_t) (hm : mapInBounds m) :
    ∃ m2, doorStep m = some m2 ∧ m2.w = m.w ∧ m2.h = m.h ∧ mapInBounds m2 := by
  have h := foldlM_option_inv (fun acc : rayMap_t => acc.w = m.w ∧ acc.h = m.h ∧ mapInBounds acc)
    doorRow (List.range m.h.toNat)
    (by
      intro acc y hy hacc
      obtain ⟨hw, hh, hb⟩ := hacc
      obtain ⟨m2, h1, h2, h3, h4⟩ := doorRow_total acc y hb
        (by rw [hh]; exact List.mem_range.1 hy)
      exact ⟨m2, h1, by rw [h2, hw], by rw [h3, hh], h4⟩)
    m ⟨rfl, rfl, hm⟩
  exact h

/-- The door loop returns when its bound covers the timer; it writes the timer and the map. -/
theorem doorLoop_total : ∀ (fuel : Nat) (ray : ray_t), mapInBounds ray.map →
    ray.doorTimer ≤ fuel →
    ∃ r, doorLoop fuel ray = some r ∧ mapInBounds r.map ∧
      r = { ray with doorTimer := r.doorTimer, map := r.map } := by
  intro fuel
  induction fuel with
  | zero =>
    intro ray hm hf
    refine ⟨ray, ?_, hm, rfl⟩
    unfold doorLoop
    rw [if_neg (by simp only [Nat.cast_zero] at hf; omega)]
  | succ n ih =>
    intro ray hm hf
    unfold doorLoop
    by_cases hc : ray.doorTimer ≥ 5000
    · rw [if_pos hc]
      obtain ⟨m2, h1, _, _, h4⟩ := doorStep_total ray.map hm
      rw [h1, Option.some_bind]
      obtain ⟨r, hr, hrm, hre⟩ := ih { ray with doorTimer := ray.doorTimer - 5000, map := m2 } h4
        (by simp only [Nat.cast_add, Nat.cast_one] at hf ⊢; omega)
      refine ⟨r, hr, hrm, ?_⟩
      rw [hre]
    · rw [if_neg hc]; exact ⟨ray, rfl, hm, rfl⟩

/-- The door timer returns on a grid within its bounds. -/
theorem doorTimerRun_total (ray : ray_t) (elapsedUs : Int) (hm : mapInBounds ray.map) :
    ∃ r, doorTimerRun ray elapsedUs = some r ∧ mapInBounds r.map ∧
      r = { ray with doorTimer := r.doorTimer, map := r.map } := by
  unfold doorTimerRun
  obtain ⟨r, hr, hrm, hre⟩ := doorLoop_total (ray.doorTimer + elapsedUs).toNat
    { ray with doorTimer := ray.doorTimer + elapsedUs } hm (by simp only; omega)
  refine ⟨r, hr, hrm, ?_⟩
  rw [hre]

/-- One pass of the head-bob loop returns; it writes the timer, the phase and `posZ`. -/
theorem bobStep_total (H : RayHeader) (ray : ray_t) :
    ∃ r, bobStep H ray = some r ∧ r.bobTimer = ray.bobTimer - 2500 ∧
      r = { ray with bobTimer := r.bobTimer, bobCount := r.bobCount, posZ := r.posZ } := by
  unfold bobStep
  simp only
  split
  · split
    · obtain ⟨v, hv, _⟩ := getSin1024_total 0
      simp only [hv, Option.map_some']
      exact ⟨_, rfl, rfl, rfl⟩
    · obtain ⟨v, hv, _⟩ := getSin1024_total (ray.bobCount + 1)
      simp only [hv, Option.map_some']
      exact ⟨_, rfl, rfl, rfl⟩
  · exact ⟨_, rfl, rfl, rfl⟩

/-- The head-bob loop returns when its bound covers the timer. -/
theorem bobLoop_total (H : RayHeader) : ∀ (fuel : Nat) (ray : ray_t), ray.bobTimer ≤ fuel →
    ∃ r, bobLoop H fuel ray = some r ∧
      r = { ray with bobTimer := r.bobTimer, bobCount := r.bobCount, posZ := r.posZ } := by
  intro fuel
  induction fuel with
  | zero =>
    intro ray hf
    refine ⟨ray, ?_, rfl⟩
    unfold bobLoop
    rw [if_neg (by simp only [Nat.cast_zero] at hf; omega)]
  | succ n ih =>
    intro ray hf
    unfold bobLoop
    by_cases hc : ray.bobTimer > 2500
    · rw [if_pos hc]
      obtain ⟨r1, h1, ht, he⟩ := bobStep_total H ray
      rw [h1, Option.some_bind]
      obtain ⟨r, hr, hre⟩ := ih r1
        (by simp only [Nat.cast_add, Nat.cast_one] at hf; omega)
      refine ⟨r, hr, ?_⟩
      rw [hre, he]
    · rw [if_neg hc]; exact ⟨ray, rfl, rfl⟩

/-- The head-bob timer returns. -/
theorem bobTimerRun_total (H : RayHeader) (ray : ray_t) (elapsedUs : Int) :
    ∃ r, bobTimerRun H ray elapsedUs = some r ∧
      r = { ray with bobTimer := r.bobTimer, bobCount := r.bobCount, posZ := r.posZ } := by
  unfold bobTimerRun
  obtain ⟨r, hr, hre⟩ := bobLoop_total H (ray.bobTimer + elapsedUs).toNat
    { ray with bobTimer := ray.bobTimer + elapsedUs } (by simp only; omega)
  refine ⟨r, hr, ?_⟩
  rw [hre]


/-- The angle setter returns; it writes the angle, the direction and the camera plane. -/
theorem setPlayerAngle_total (ray : ray_t) (angle : Int) :
    ∃ r, setPlayerAngle ray angle = some r ∧
      r = { ray with dirAngle := r.dirAngle, dirX := r.dirX, dirY := r.dirY,
                     planeX := r.planeX, planeY := r.planeY } := by
  obtain ⟨sn, hs, _⟩ := getSin1024_total (FROM_FX angle)
  obtain ⟨cs, hc, _⟩ := getCos1024_total (FROM_FX angle)
  exact ⟨_, setPlayerAngle_eq ray angle sn cs hs hc, rfl⟩

/-- Writing the facing twice is writing the facing. -/
theorem facing_trans (a b c : ray_t)
    (hab : b = { a with dirAngle := b.dirAngle, dirX := b.dirX, dirY := b.dirY,
                        planeX := b.planeX, planeY := b.planeY })
    (hbc : c = { b with dirAngle := c.dirAngle, dirX := c.dirX, dirY := c.dirY,
                        planeX := c.planeX, planeY := c.planeY }) :
    c = { a with dirAngle := c.dirAngle, dirX := c.dirX, dirY := c.dirY,
                 planeX := c.planeX, planeY := c.planeY } := by
  cases a; cases b; cases c
  simp only [ray_t.mk.injEq] at hab hbc ⊢
  simp_all

/-- The tangential delta of a strafing frame is defined. -/
theorem strafeDelta_total (H : RayHeader) (r : ray_t) :
    ∃ deltaX deltaY,
      (if held r.btnState H.PB_RIGHT = true then
          some (r, (0 : Int) - r.dirY.tdiv 6, (0 : Int) + r.dirX.tdiv 6)
        else if held r.btnState H.PB_LEFT = true then
          some (r, (0 : Int) + r.dirY.tdiv 6, (0 : Int) - r.dirX.tdiv 6)
        else some (r, (0 : Int), (0 : Int))) = some (r, deltaX, deltaY) := by
  split
  · exact ⟨_, _, rfl⟩
  · split
    · exact ⟨_, _, rfl⟩
    · exact ⟨_, _, rfl⟩

/-- The turn step returns; it writes the angle, the direction and the camera plane. -/
theorem turnStep_total (H : RayHeader) (C : Collaborators) (ray : ray_t)
    (centeredSprite : Option rayObj_t) :
    ∃ r deltaX deltaY, turnStep H C ray centeredSprite = some (r, deltaX, deltaY) ∧
      r = { ray with dirAngle := r.dirAngle, dirX := r.dirX, dirY := r.dirY,
                     planeX := r.planeX, planeY := r.planeY } := by
  unfold turnStep
  by_cases hs : ray.isStrafing = true
  · rw [if_pos hs]
    simp only [Option.bind_eq_bind]
    cases centeredSprite with
    | none =>
      simp only [Option.some_bind]
      obtain ⟨dx, dy, hd⟩ := strafeDelta_total H ray
      exact ⟨ray, dx, dy, hd, rfl⟩
    | some sp =>
      obtain ⟨r, hr, hre⟩ := setPlayerAngle_total ray
        (TO_FX (toInt32 (C.cordicAtan2 (sp.posX - ray.posX) (ray.posY - sp.posY))))
      simp only [hr, Option.some_bind]
      obtain ⟨dx, dy, hd⟩ := strafeDelta_total H r
      exact ⟨r, dx, dy, hd, hre⟩
  · rw [if_neg hs]
    simp only [Option.bind_eq_bind]
    have hright : ∃ r, rotateRight H ray = some r ∧
        r = { ray with dirAngle := r.dirAngle, dirX := r.dirX, dirY := r.dirY,
                       planeX := r.planeX, planeY := r.planeY } := by
      unfold rotateRight
      split
      · exact setPlayerAngle_total ray _
      · exact ⟨ray, rfl, rfl⟩
    obtain ⟨ra, hra, hrae⟩ := hright
    have hleft : ∃ r, rotateLeft H ra = some r ∧
        r = { ra with dirAngle := r.dirAngle, dirX := r.dirX, dirY := r.dirY,
                      planeX := r.planeX, planeY := r.planeY } := by
      unfold rotateLeft
      split
      · exact setPlayerAngle_total ra _
      · exact ⟨ra, rfl, rfl⟩
    obtain ⟨rb, hrb, hrbe⟩ := hleft
    rw [hra, Option.some_bind, hrb, Option.some_bind]
    exact ⟨rb, 0, 0, rfl, facing_trans ray ra rb hrae hrbe⟩

/-- The strafe latch writes nothing but the strafing flag. -/
theorem strafeLatch_keeps (H : RayHeader) (ray : ray_t) (prevBtnState : Nat) :
    strafeLatch H ray prevBtnState
      = { ray with isStrafing := (strafeLatch H ray prevBtnState).isStrafing } := by
  unfold strafeLatch
  split
  · rfl
  · split <;> rfl

/-- The frame before the turn returns on a grid within its bounds; the timers and the latch
leave the position, the direction, the pool and the buttons as the collaborators left them. -/
theorem frameTimers_total (H : RayHeader) (C : Collaborators) (ray : ray_t) (evts : List Nat)
    (elapsedUs : Int) (hm : mapInBounds (frameInputs C ray evts elapsedUs).1.map) :
    ∃ r0, frameTimers H C ray evts elapsedUs
        = some (r0, (frameInputs C ray evts elapsedUs).2) ∧
      mapInBounds r0.map ∧
      r0.posX = (frameInputs C ray evts elapsedUs).1.posX ∧
      r0.posY = (frameInputs C ray evts elapsedUs).1.posY ∧
      r0.dirX = (frameInputs C ray evts elapsedUs).1.dirX ∧
      r0.dirY = (frameInputs C ray evts elapsedUs).1.dirY ∧
      r0.objs = (frameInputs C ray evts elapsedUs).1.objs ∧
      r0.btnState = (frameInputs C ray evts elapsedUs).1.btnState := by
  obtain ⟨ra, hra, hrae⟩ := bobTimerRun_total H (frameInputs C ray evts elapsedUs).1 elapsedUs
  have hma : mapInBounds ra.map := by rw [hrae]; exact hm
  obtain ⟨rb, hrb, hrbm, hrbe⟩ := doorTimerRun_total ra elapsedUs hma
  refine ⟨strafeLatch H rb ray.btnState, ?_, ?_, ?_, ?_, ?_, ?_, ?_, ?_⟩
  · unfold frameTimers
    simp only [hra, hrb, Option.bind_eq_bind, Option.some_bind, Option.pure_def]
  all_goals rw [strafeLatch_keeps, hrbe, hrae]
  exact hrbm

/-- The delta of the frame is computed on every grid within its bounds; the position and the
pool before the move are those the collaborators left. -/
theorem frameDelta_total (H : RayHeader) (C : Collaborators) (ray : ray_t) (evts : List Nat)
    (elapsedUs : Int) (hm : mapInBounds (frameInputs C ray evts elapsedUs).1.map) :
    ∃ r0 r1 deltaX deltaY,
      frameTimers H C ray evts elapsedUs = some (r0, (frameInputs C ray evts elapsedUs).2) ∧
      frameDelta H C ray evts elapsedUs = some (r1, deltaX, deltaY) ∧
      r1 = { r0 with dirAngle := r1.dirAngle, dirX := r1.dirX, dirY := r1.dirY,
                     planeX := r1.planeX, planeY := r1.planeY } ∧
      mapInBounds r1.map ∧
      r1.posX = (frameInputs C ray evts elapsedUs).1.posX ∧
      r1.posY = (frameInputs C ray evts elapsedUs).1.posY ∧
      r1.objs = (frameInputs C ray evts elapsedUs).1.objs := by
  obtain ⟨r0, h0, hm0, hx, hy, _, _, ho, _⟩ := frameTimers_total H C ray evts elapsedUs hm
  obtain ⟨r1, dx, dy, h1, h1e⟩ := turnStep_total H C r0 (frameInputs C ray evts elapsedUs).2
  refine ⟨r0, r1, (walkDelta H r1 dx dy).1, (walkDelta H r1 dx dy).2, h0, ?_, h1e, ?_, ?_, ?_, ?_⟩
  · unfold frameDelta
    simp only [h0, h1, Option.bind_eq_bind, Option.some_bind, Option.pure_def]
  · rw [h1e]; exact hm0
  · rw [h1e]; exact hx
  · rw [h1e]; exact hy
  · rw [h1e]; exact ho

/-! ### The frame step -/

/-- The scan for a free slot returns, and writes nothing but the pool. -/
theorem fireScan_keeps (H : RayHeader) (C : Collaborators) (ray : ray_t) :
    ∀ n idx : Nat, idx + n ≤ ray.objs.length →
      ∃ objs, fireScan H C ray n idx = some { ray with objs := objs } := by
  intro n
  induction n with
  | zero => intro idx _; exact ⟨ray.objs, rfl⟩
  | succ n ih =>
    intro idx hle
    have hlt : idx < ray.objs.length := by omega
    have hget : ray.objs[idx]? = some ray.objs[idx] := List.getElem?_eq_getElem hlt
    unfold fireScan
    simp only [hget, Option.bind_eq_bind, Option.some_bind]
    by_cases hid : -1 = (ray.objs[idx]).id
    · rw [if_pos hid]; exact ⟨_, rfl⟩
    · rw [if_neg hid]; exact ih (idx + 1) (by omega)

/-- The fire action returns, and writes nothing but the pool. -/
theorem fireStep_keeps (H : RayHeader) (C : Collaborators) (ray : ray_t) (prevBtnState : Nat)
    (hp : H.MAX_RAY_OBJS ≤ ray.objs.length) :
    ∃ objs, fireStep H C ray prevBtnState = some { ray with objs := objs } := by
  unfold fireStep
  split
  · exact fireScan_keeps H C ray H.MAX_RAY_OBJS 0 (by omega)
  · exact ⟨ray.objs, rfl⟩

/-- The move, given the two cells it probes. -/
theorem movePlayer_eq (H : RayHeader) (ray : ray_t) (deltaX deltaY : Int)
    (cellX cellY : rayMapCell_t)
    (hx : tileAt ray.map (FROM_FX (ray.posX + deltaX * 2)) (FROM_FX ray.posY) = some cellX)
    (hy : tileAt ray.map
        (FROM_FX (if isPassableCell H cellX then ray.posX + deltaX else ray.posX))
        (FROM_FX (ray.posY + deltaY * 2)) = some cellY) :
    movePlayer H ray deltaX deltaY = some { ray with
      posX := if isPassableCell H cellX then ray.posX + deltaX else ray.posX,
      posY := if isPassableCell H cellY then ray.posY + deltaY else ray.posY } := by
  unfold movePlayer
  simp only [hx, Option.bind_eq_bind, Option.some_bind, Option.pure_def]
  cases hpx : isPassableCell H cellX <;>
    simp only [hpx, Bool.false_eq_true, if_false, if_true] at hy ⊢ <;>
    simp only [hy, Option.some_bind] <;>
    cases hpy : isPassableCell H cellY <;>
    simp only [Bool.false_eq_true, if_false, if_true]

/-- The frame, given the delta of the frame and the two cells the move probes. -/
theorem rayMainLoop_eq (H : RayHeader) (C : Collaborators) (ray : ray_t) (evts : List Nat)
    (elapsedUs : Int) (r1 : ray_t) (deltaX deltaY : Int) (cellX cellY : rayMapCell_t)
    (hd : frameDelta H C ray evts elapsedUs = some (r1, deltaX, deltaY))
    (hx : tileAt r1.map (FROM_FX (r1.posX + deltaX * 2)) (FROM_FX r1.posY) = some cellX)
    (hy : tileAt r1.map
        (FROM_FX (if isPassableCell H cellX then r1.posX + deltaX else r1.posX))
        (FROM_FX (r1.posY + deltaY * 2)) = some cellY)
    (hp : H.MAX_RAY_OBJS ≤ r1.objs.length) :
    ∃ objs, rayMainLoop H C ray evts elapsedUs = some { r1 with
      posX := if isPassableCell H cellX then r1.posX + deltaX else r1.posX,
      posY := if isPassableCell H cellY then r1.posY + deltaY else r1.posY,
      objs := objs } := by
  unfold rayMainLoop
  simp only [hd, Option.bind_eq_bind, Option.some_bind,
    movePlayer_eq H r1 deltaX deltaY cellX cellY hx hy]
  exact fireStep_keeps H C _ ray.btnState hp


/-- The delta of a frame in which the player is not strafing and walks forward without
turning. -/
theorem frameDelta_forward (H : RayHeader) (C : Collaborators) (ray : ray_t) (evts : List Nat)
    (elapsedUs : Int) (r0 : ray_t) (cs : Option rayObj_t)
    (ht : frameTimers H C ray evts elapsedUs = some (r0, cs))
    (hs : r0.isStrafing = false) (hup : held r0.btnState H.PB_UP = true)
    (hl : held r0.btnState H.PB_LEFT = false) (hr : held r0.btnState H.PB_RIGHT = false) :
    frameDelta H C ray evts elapsedUs = some (r0, r0.dirX.tdiv 6, r0.dirY.tdiv 6) := by
  unfold frameDelta
  simp only [ht, Option.bind_eq_bind, Option.some_bind, turnStep, hs, Bool.false_eq_true,
    if_false, rotateRight, rotateLeft, hl, hr, walkDelta, hup, if_true, zero_add,
    Option.pure_def]

/-- In a frame without strafing and without a turn button the state before the move is the
state after the timers, and the delta is the forward delta. -/
theorem frameDelta_of_no_turn (H : RayHeader) (C : Collaborators) (ray : ray_t)
    (evts : List Nat) (elapsedUs : Int) (r0 r1 : ray_t) (cs : Option rayObj_t)
    (deltaX deltaY : Int)
    (ht : frameTimers H C ray evts elapsedUs = some (r0, cs))
    (hd : frameDelta H C ray evts elapsedUs = some (r1, deltaX, deltaY))
    (hf : r1 = { r0 with dirAngle := r1.dirAngle, dirX := r1.dirX, dirY := r1.dirY,
                         planeX := r1.planeX, planeY := r1.planeY })
    (hs : r1.isStrafing = false) (hup : held r1.btnState H.PB_UP = true)
    (hl : held r1.btnState H.PB_LEFT = false) (hr : held r1.btnState H.PB_RIGHT = false) :
    r0 = r1 ∧ deltaX = r1.dirX.tdiv 6 ∧ deltaY = r1.dirY.tdiv 6 := by
  have hs0 : r0.isStrafing = r1.isStrafing := by rw [hf]
  have hb0 : r0.btnState = r1.btnState := by rw [hf]
  have hd2 := frameDelta_forward H C ray evts elapsedUs r0 cs ht (by rw [hs0]; exact hs)
    (by rw [hb0]; exact hup) (by rw [hb0]; exact hl) (by rw [hb0]; exact hr)
  rw [hd] at hd2
  injection hd2 with hd2
  injection hd2 with h1 h2
  injection h2 with h2 h3
  subst h1 h2 h3
  exact ⟨rfl, rfl, rfl⟩

/-- Claim C8: collision-gated X movement in `rayMainLoop`: on every state whose grid and pool
are within their bounds the delta `(deltaX, deltaY)` of the frame is computed, and with the
probed cells inside the map the new `posX` is `posX + deltaX` if the cell at
`(FROM_FX (posX + 2 * deltaX), FROM_FX posY)` is passable and the old `posX` otherwise; with
the up button held, no turn button held, not strafing and both probed cells passable, the
position advances by exactly `(dirX / 6, dirY / 6)`, truncating. -/
theorem rayMainLoop_moveX_gated (H : RayHeader) (C : Collaborators) (ray : ray_t)
    (evts : List Nat) (elapsedUs : Int)
    (hm : mapInBounds (frameInputs C ray evts elapsedUs).1.map)
    (hp : H.MAX_RAY_OBJS ≤ (frameInputs C ray evts elapsedUs).1.objs.length) :
    ∃ r1 deltaX deltaY, frameDelta H C ray evts elapsedUs = some (r1, deltaX, deltaY) ∧
      r1.posX = (frameInputs C ray evts elapsedUs).1.posX ∧
      r1.posY = (frameInputs C ray evts elapsedUs).1.posY ∧
      ∀ cellX cellY : rayMapCell_t,
        tileAt r1.map (FROM_FX (r1.posX + deltaX * 2)) (FROM_FX r1.posY) = some cellX →
        tileAt r1.map
          (FROM_FX (if isPassableCell H cellX then r1.posX + deltaX else r1.posX))
          (FROM_FX (r1.posY + deltaY * 2)) = some cellY →
        ∃ r2, rayMainLoop H C ray evts elapsedUs = some r2 ∧
          r2.posX = (if isPassableCell H cellX then r1.posX + deltaX else r1.posX) ∧
          (r1.isStrafing = false → held r1.btnState H.PB_UP = true →
            held r1.btnState H.PB_LEFT = false → held r1.btnState H.PB_RIGHT = false →
            isPassableCell H cellX = true → isPassableCell H cellY = true →
            r2.posX = r1.posX + r1.dirX.tdiv 6 ∧ r2.posY = r1.posY + r1.dirY.tdiv 6) := by
  obtain ⟨r0, r1, deltaX, deltaY, ht, hd, hf, _, hx1, hy1, ho⟩ :=
    frameDelta_total H C ray evts elapsedUs hm
  refine ⟨r1, deltaX, deltaY, hd, hx1, hy1, ?_⟩
  intro cellX cellY hx hy
  obtain ⟨objs, hr2⟩ := rayMainLoop_eq H C ray evts elapsedUs r1 deltaX deltaY cellX cellY
    hd hx hy (by rw [ho]; exact hp)
  refine ⟨_, hr2, rfl, ?_⟩
  intro hs hup hl hr hpx hpy
  obtain ⟨_, hdx, hdy⟩ := frameDelta_of_no_turn H C ray evts elapsedUs r0 r1 _ deltaX deltaY
    ht hd hf hs hup hl hr
  simp only [hpx, hpy, if_true, hdx, hdy]
  exact ⟨trivial, trivial⟩

/-- Witness of C8 on two frames with a non-zero `deltaX`. Facing south-east in the open the
frame delta is `(30, 30)`, both probed cells are floor, and the frame moves the player from
`(384, 384)` to `(414, 414)`. Facing east with a wall in the next tile the frame delta is
`(42, 0)`, the cell probed at `500 + 84` is the wall, and `posX` stays at 500. -/
theorem rayMainLoop_moveX_gated_witness :
    ((mapInBounds (frameInputs idleCollaborators southEastInOpen [] 0).1.map ∧
        sampleHeader.MAX_RAY_OBJS
          ≤ (frameInputs idleCollaborators southEastInOpen [] 0).1.objs.length ∧
        frameDelta sampleHeader idleCollaborators southEastInOpen [] 0
          = some (southEastInOpen, 30, 30)) ∧
      (∃ r2, rayMainLoop sampleHeader idleCollaborators southEastInOpen [] 0 = some r2 ∧
        r2.posX = 414 ∧ r2.posY = 414 ∧
        r2.posX = 384 + (181 : Int).tdiv 6 ∧ r2.posY = 384 + (181 : Int).tdiv 6)) ∧
    ((mapInBounds (frameInputs idleCollaborators eastOfWall [] 0).1.map ∧
        sampleHeader.MAX_RAY_OBJS
          ≤ (frameInputs idleCollaborators eastOfWall [] 0).1.objs.length ∧
        frameDelta sampleHeader idleCollaborators eastOfWall [] 0
          = some (eastOfWall, 42, 0) ∧
        tileAt eastOfWall.map (FROM_FX (500 + 42 * 2)) (FROM_FX 384) = some wallCell ∧
        isPassableCell sampleHeader wallCell = false) ∧
      (∃ r2, rayMainLoop sampleHeader idleCollaborators eastOfWall [] 0 = some r2 ∧
        r2.posX = 500)) := by
  refine ⟨⟨by decide, ?_⟩, ⟨by decide, ?_⟩⟩
  · obtain ⟨r1, deltaX, deltaY, hd, _, _, h⟩ :=
      rayMainLoop_moveX_gated sampleHeader idleCollaborators southEastInOpen [] 0 (by decide)
        (by decide)
    have hd0 : frameDelta sampleHeader idleCollaborators southEastInOpen [] 0
        = some (southEastInOpen, 30, 30) := by decide
    rw [hd0] at hd
    injection hd with hd
    injection hd with h1 h2
    injection h2 with h2 h3
    subst h1 h2 h3
    obtain ⟨r2, hr2, hx, hfwd⟩ := h floorCell floorCell (by decide) (by decide)
    obtain ⟨hfx, hfy⟩ := hfwd (by decide) (by decide) (by decide) (by decide) (by decide)
      (by decide)
    exact ⟨r2, hr2, by rw [hx]; decide, by rw [hfy]; decide, hfx, hfy⟩
  · obtain ⟨r1, deltaX, deltaY, hd, _, _, h⟩ :=
      rayMainLoop_moveX_gated sampleHeader idleCollaborators eastOfWall [] 0 (by decide)
        (by decide)
    have hd0 : frameDelta sampleHeader idleCollaborators eastOfWall [] 0
        = some (eastOfWall, 42, 0) := by decide
    rw [hd0] at hd
    injection hd with hd
    injection hd with h1 h2
    injection h2 with h2 h3
    subst h1 h2 h3
    obtain ⟨r2, hr2, hx, _⟩ := h wallCell floorCell (by decide) (by decide)
    exact ⟨r2, hr2, by rw [hx]; decide⟩

/-- A wall cell is not passable. -/
theorem isPassableCell_wall (H : RayHeader) (cell : rayMapCell_t)
    (hw : H.CELL_IS_TYPE cell.type (H.BG ||| H.WALL) = true) : isPassableCell H cell = false := by
  simp [isPassableCell, hw]

/-- A forward frame is blocked on an axis whose delta is 0 or whose probed cell is a wall. -/
theorem rayMainLoop_forward_blocked (H : RayHeader) (C : Collaborators) (ray : ray_t)
    (evts : List Nat) (elapsedUs : Int) (r0 : ray_t) (cs : Option rayObj_t)
    (cellX cellY : rayMapCell_t)
    (ht : frameTimers H C ray evts elapsedUs = some (r0, cs))
    (hs : r0.isStrafing = false) (hup : held r0.btnState H.PB_UP = true)
    (hl : held r0.btnState H.PB_LEFT = false) (hr : held r0.btnState H.PB_RIGHT = false)
    (hp : H.MAX_RAY_OBJS ≤ r0.objs.length)
    (hx : tileAt r0.map (FROM_FX (r0.posX + r0.dirX.tdiv 6 * 2)) (FROM_FX r0.posY) = some cellX)
    (hy : tileAt r0.map (FROM_FX r0.posX) (FROM_FX (r0.posY + r0.dirY.tdiv 6 * 2)) = some cellY)
    (hwx : r0.dirX.tdiv 6 = 0 ∨ H.CELL_IS_TYPE cellX.type (H.BG ||| H.WALL) = true)
    (hwy : r0.dirY.tdiv 6 = 0 ∨ H.CELL_IS_TYPE cellY.type (H.BG ||| H.WALL) = true) :
    ∃ r2, rayMainLoop H C ray evts elapsedUs = some r2 ∧ r2.posX = r0.posX ∧
      r2.posY = r0.posY := by
  have hd := frameDelta_forward H C ray evts elapsedUs r0 cs ht hs hup hl hr
  have hxs : (if isPassableCell H cellX then r0.posX + r0.dirX.tdiv 6 else r0.posX)
      = r0.posX := by
    rcases hwx with h | h
    · rw [h]; simp
    · rw [isPassableCell_wall H cellX h]; simp
  have hys : (if isPassableCell H cellY then r0.posY + r0.dirY.tdiv 6 else r0.posY)
      = r0.posY := by
    rcases hwy with h | h
    · rw [h]; simp
    · rw [isPassableCell_wall H cellY h]; simp
  obtain ⟨objs, hm⟩ := rayMainLoop_eq H C ray evts elapsedUs r0 _ _ cellX cellY hd hx
    (by rw [hxs]; exact hy) hp
  rw [hxs, hys] at hm
  exact ⟨_, hm, rfl, rfl⟩

/-- The three cases of a forward frame toward a wall, on the state after the timers. -/
theorem rayMainLoop_forward_cases (H : RayHeader) (C : Collaborators) (ray : ray_t)
    (evts : List Nat) (elapsedUs : Int) (r0 : ray_t) (cs : Option rayObj_t)
    (ht : frameTimers H C ray evts elapsedUs = some (r0, cs))
    (hs : r0.isStrafing = false) (hup : held r0.btnState H.PB_UP = true)
    (hl : held r0.btnState H.PB_LEFT = false) (hr : held r0.btnState H.PB_RIGHT = false)
    (hp : H.MAX_RAY_OBJS ≤ r0.objs.length) :
    (∀ cellX cellY : rayMapCell_t,
      tileAt r0.map (FROM_FX (r0.posX + r0.dirX.tdiv 6 * 2)) (FROM_FX r0.posY) = some cellX →
      tileAt r0.map (FROM_FX r0.posX) (FROM_FX (r0.posY + r0.dirY.tdiv 6 * 2)) = some cellY →
      (r0.dirX.tdiv 6 = 0 ∨ H.CELL_IS_TYPE cellX.type (H.BG ||| H.WALL) = true) →
      (r0.dirY.tdiv 6 = 0 ∨ H.CELL_IS_TYPE cellY.type (H.BG ||| H.WALL) = true) →
      ∃ r2, rayMainLoop H C ray evts elapsedUs = some r2 ∧ r2.posX = r0.posX ∧
        r2.posY = r0.posY) ∧
    (∀ own wall : rayMapCell_t, r0.dirX = 0 → r0.dirY = -256 →
      tileAt r0.map (FROM_FX r0.posX) (FROM_FX r0.posY) = some own →
      tileAt r0.map (FROM_FX r0.posX) (FROM_FX r0.posY - 1) = some wall →
      H.CELL_IS_TYPE wall.type (H.BG ||| H.WALL) = true →
      r0.posY - 256 * FROM_FX r0.posY < 84 →
      ∃ r2, rayMainLoop H C ray evts elapsedUs = some r2 ∧ r2.posX = r0.posX ∧
        r2.posY = r0.posY) ∧
    (∀ own : rayMapCell_t, r0.dirX = 0 → r0.dirY = -256 →
      tileAt r0.map (FROM_FX r0.posX) (FROM_FX r0.posY) = some own →
      isPassableCell H own = true →
      84 ≤ r0.posY - 256 * FROM_FX r0.posY →
      ∃ r2, rayMainLoop H C ray evts elapsedUs = some r2 ∧ r2.posX = r0.posX ∧
        r2.posY = r0.posY - 42) := by
  have e0 : (0 : Int).tdiv 6 = 0 := by decide
  have e42 : (-256 : Int).tdiv 6 = -42 := by decide
  refine ⟨?_, ?_, ?_⟩
  · intro cellX cellY hx hy hwx hwy
    exact rayMainLoop_forward_blocked H C ray evts elapsedUs r0 cs cellX cellY ht hs hup hl hr
      hp hx hy hwx hwy
  · intro own wall hdx hdy hown hwall hw hnear
    have hrow : FROM_FX (r0.posY + (-42) * 2) = FROM_FX r0.posY - 1 := by
      rw [FROM_FX_eq] at hnear ⊢; rw [FROM_FX_eq]; omega
    apply rayMainLoop_forward_blocked H C ray evts elapsedUs r0 cs own wall ht hs hup hl hr hp
    · rw [hdx, e0]; simpa using hown
    · rw [hdy, e42, hrow]; exact hwall
    · left; rw [hdx, e0]
    · right; exact hw
  · intro own hdx hdy hown hpass hfar
    have hd := frameDelta_forward H C ray evts elapsedUs r0 cs ht hs hup hl hr
    rw [hdx, hdy, e0, e42] at hd
    have hrow : FROM_FX (r0.posY + (-42) * 2) = FROM_FX r0.posY := by
      rw [FROM_FX_eq] at hfar ⊢; rw [FROM_FX_eq]; omega
    have hx : tileAt r0.map (FROM_FX (r0.posX + 0 * 2)) (FROM_FX r0.posY) = some own := by
      simpa using hown
    have hy : tileAt r0.map (FROM_FX (if isPassableCell H own then r0.posX + 0 else r0.posX))
        (FROM_FX (r0.posY + (-42) * 2)) = some own := by
      rw [hrow]; simpa using hown
    obtain ⟨objs, hm⟩ := rayMainLoop_eq H C ray evts elapsedUs r0 0 (-42) own own hd hx hy hp
    refine ⟨_, hm, ?_, ?_⟩
    · simp
    · simp only [hpass, if_true]; omega

/-- Claim C9, amended: in a frame where the player is not strafing and only the up button is
held, `posX` and `posY` are unchanged when, on each axis, the delta is 0 or the cell probed at
twice the delta is a wall. Facing north (`dirX = 0`, `dirY = -256`) below a `BG | WALL` cell
this is the case when the player stands less than 84 units from the upper edge of its cell;
from 84 units on, in a passable cell, the frame moves the player 42 units toward the wall. -/
theorem rayMainLoop_blocked_within_probe (H : RayHeader) (C : Collaborators) (ray : ray_t)
    (evts : List Nat) (elapsedUs : Int)
    (hm : mapInBounds (frameInputs C ray evts elapsedUs).1.map)
    (hp : H.MAX_RAY_OBJS ≤ (frameInputs C ray evts elapsedUs).1.objs.length) :
    ∃ r1 deltaX deltaY, frameDelta H C ray evts elapsedUs = some (r1, deltaX, deltaY) ∧
      r1.posX = (frameInputs C ray evts elapsedUs).1.posX ∧
      r1.posY = (frameInputs C ray evts elapsedUs).1.posY ∧
      (r1.isStrafing = false → held r1.btnState H.PB_UP = true →
        held r1.btnState H.PB_LEFT = false → held r1.btnState H.PB_RIGHT = false →
        (∀ cellX cellY : rayMapCell_t,
          tileAt r1.map (FROM_FX (r1.posX + r1.dirX.tdiv 6 * 2)) (FROM_FX r1.posY)
            = some cellX →
          tileAt r1.map (FROM_FX r1.posX) (FROM_FX (r1.posY + r1.dirY.tdiv 6 * 2))
            = some cellY →
          (r1.dirX.tdiv 6 = 0 ∨ H.CELL_IS_TYPE cellX.type (H.BG ||| H.WALL) = true) →
          (r1.dirY.tdiv 6 = 0 ∨ H.CELL_IS_TYPE cellY.type (H.BG ||| H.WALL) = true) →
          ∃ r2, rayMainLoop H C ray evts elapsedUs = some r2 ∧ r2.posX = r1.posX ∧
            r2.posY = r1.posY) ∧
        (∀ own wall : rayMapCell_t, r1.dirX = 0 → r1.dirY = -256 →
          tileAt r1.map (FROM_FX r1.posX) (FROM_FX r1.posY) = some own →
          tileAt r1.map (FROM_FX r1.posX) (FROM_FX r1.posY - 1) = some wall →
          H.CELL_IS_TYPE wall.type (H.BG ||| H.WALL) = true →
          r1.posY - 256 * FROM_FX r1.posY < 84 →
          ∃ r2, rayMainLoop H C ray evts elapsedUs = some r2 ∧ r2.posX = r1.posX ∧
            r2.posY = r1.posY) ∧
        (∀ own : rayMapCell_t, r1.dirX = 0 → r1.dirY = -256 →
          tileAt r1.map (FROM_FX r1.posX) (FROM_FX r1.posY) = some own →
          isPassableCell H own = true →
          84 ≤ r1.posY - 256 * FROM_FX r1.posY →
          ∃ r2, rayMainLoop H C ray evts elapsedUs = some r2 ∧ r2.posX = r1.posX ∧
            r2.posY = r1.posY - 42)) := by
  obtain ⟨r0, r1, deltaX, deltaY, ht, hd, hf, _, hx1, hy1, ho⟩ :=
    frameDelta_total H C ray evts elapsedUs hm
  refine ⟨r1, deltaX, deltaY, hd, hx1, hy1, ?_⟩
  intro hs hup hl hr
  obtain ⟨h01, _, _⟩ := frameDelta_of_no_turn H C ray evts elapsedUs r0 r1 _ deltaX deltaY
    ht hd hf hs hup hl hr
  subst h01
  exact rayMainLoop_forward_cases H C ray evts elapsedUs r0 _ ht hs hup hl hr
    (by rw [ho]; exact hp)

/-- Counterexample to C9 as stated: the player stands at the centre of tile `(1, 1)`, faces
north with only the up button held and is not strafing; the adjacent tile `(1, 0)` is a wall.
The probe at `384 - 84` is still in the player's own tile, and the frame moves the player
from `posY = 384` to `posY = 342`. -/
theorem rayMainLoop_wall_ahead_still_moves :
    ((northOfWall 384).isStrafing = false ∧
      (northOfWall 384).btnState = sampleHeader.PB_UP ∧
      setPlayerAngle (northOfWall 384) (TO_FX 0) = some (northOfWall 384) ∧
      FROM_FX (northOfWall 384).posX = 1 ∧ FROM_FX (northOfWall 384).posY = 1 ∧
      tileAt (northOfWall 384).map 1 (1 - 1) = some wallCell ∧
      sampleHeader.CELL_IS_TYPE wallCell.type (sampleHeader.BG ||| sampleHeader.WALL) = true) ∧
    (rayMainLoop sampleHeader idleCollaborators (northOfWall 384) [] 0).map
      (fun r => (r.posX, r.posY)) = some (384, 342) := by
  decide

/-- Witness of the amended C9: 40 units below the wall the frame leaves the player in
place. -/
theorem rayMainLoop_blocked_within_probe_witness :
    (mapInBounds (frameInputs idleCollaborators (northOfWall 296) [] 0).1.map ∧
      sampleHeader.MAX_RAY_OBJS
        ≤ (frameInputs idleCollaborators (northOfWall 296) [] 0).1.objs.length ∧
      (northOfWall 296).posY - 256 * FROM_FX (northOfWall 296).posY < 84 ∧
      tileAt (northOfWall 296).map (FROM_FX 384) (FROM_FX 296 - 1) = some wallCell) ∧
    (∃ r2, rayMainLoop sampleHeader idleCollaborators (northOfWall 296) [] 0 = some r2 ∧
      r2.posX = 384 ∧ r2.posY = 296) := by
  refine ⟨by decide, ?_⟩
  obtain ⟨r1, deltaX, deltaY, hd, _, _, h⟩ :=
    rayMainLoop_blocked_within_probe sampleHeader idleCollaborators (northOfWall 296) [] 0
      (by decide) (by decide)
  have hd0 : frameDelta sampleHeader idleCollaborators (northOfWall 296) [] 0
      = some (northOfWall 296, 0, -42) := by decide
  rw [hd0] at hd
  injection hd with hd
  injection hd with h1 h2
  subst h1
  exact (h (by decide) (by decide) (by decide) (by decide)).2.1 floorCell wallCell
    (by decide) (by decide) (by decide) (by decide) (by decide) (by decide)

/-- Claim C10, amended: the Y delta is applied if and only if the cell at
`(FROM_FX xAfter, FROM_FX (posY + 2 * deltaY))` is passable, where `xAfter` is the player's X
after the X step of the same frame; it is the cell in the column of the X before the step
whenever the X step leaves the player in its column. -/
theorem rayMainLoop_moveY_gated_after_moveX (H : RayHeader) (C : Collaborators)
    (ray : ray_t) (evts : List Nat) (elapsedUs : Int)
    (hm : mapInBounds (frameInputs C ray evts elapsedUs).1.map)
    (hp : H.MAX_RAY_OBJS ≤ (frameInputs C ray evts elapsedUs).1.objs.length) :
    ∃ r1 deltaX deltaY, frameDelta H C ray evts elapsedUs = some (r1, deltaX, deltaY) ∧
      r1.posX = (frameInputs C ray evts elapsedUs).1.posX ∧
      r1.posY = (frameInputs C ray evts elapsedUs).1.posY ∧
      ∀ (cellX cellY : rayMapCell_t) (xAfter : Int),
        tileAt r1.map (FROM_FX (r1.posX + deltaX * 2)) (FROM_FX r1.posY) = some cellX →
        xAfter = (if isPassableCell H cellX then r1.posX + deltaX else r1.posX) →
        tileAt r1.map (FROM_FX xAfter) (FROM_FX (r1.posY + deltaY * 2)) = some cellY →
        ∃ r2, rayMainLoop H C ray evts elapsedUs = some r2 ∧ r2.posX = xAfter ∧
          r2.posY = (if isPassableCell H cellY then r1.posY + deltaY else r1.posY) ∧
          (FROM_FX xAfter = FROM_FX r1.posX →
            tileAt r1.map (FROM_FX r1.posX) (FROM_FX (r1.posY + deltaY * 2))
              = some cellY) := by
  obtain ⟨r0, r1, deltaX, deltaY, ht, hd, hf, _, hx1, hy1, ho⟩ :=
    frameDelta_total H C ray evts elapsedUs hm
  refine ⟨r1, deltaX, deltaY, hd, hx1, hy1, ?_⟩
  intro cellX cellY xAfter hx hxa hy
  subst hxa
  obtain ⟨objs, hr2⟩ := rayMainLoop_eq H C ray evts elapsedUs r1 deltaX deltaY cellX cellY
    hd hx hy (by rw [ho]; exact hp)
  refine ⟨_, hr2, rfl, rfl, ?_⟩
  intro hcol
  rw [← hcol]; exact hy

/-- Counterexample to C10 as stated: near the corner of tile `(1, 1)`, facing south-east with
the frame delta `(30, 30)`, the X move is applied and takes the player into column 2. The
cell at `(FROM_FX 506, FROM_FX (506 + 60)) = (1, 2)`, in the column of the X before the step,
is passable floor, yet the Y delta is not applied: the code probes `(2, 2)`, a wall. -/
theorem rayMainLoop_moveY_depends_on_moveX :
    (setPlayerAngle diagonalAtCorner (TO_FX 135) = some diagonalAtCorner ∧
      diagonalAtCorner.isStrafing = false ∧
      diagonalAtCorner.btnState = sampleHeader.PB_UP ∧
      frameDelta sampleHeader idleCollaborators diagonalAtCorner [] 0
        = some (diagonalAtCorner, 30, 30) ∧
      diagonalAtCorner.posX = 506 ∧ diagonalAtCorner.posY = 506 ∧
      tileAt diagonalAtCorner.map (FROM_FX 506) (FROM_FX (506 + 2 * 30)) = some floorCell ∧
      isPassableCell sampleHeader floorCell = true) ∧
    (rayMainLoop sampleHeader idleCollaborators diagonalAtCorner [] 0).map
      (fun r => (r.posX, r.posY)) = some (536, 506) := by
  decide

/-- Witness of the amended C10 at the same corner: the X step takes the player to 536, in
column 2, where the Y probe finds the wall and the Y delta is not applied. -/
theorem rayMainLoop_moveY_gated_after_moveX_witness :
    (mapInBounds (frameInputs idleCollaborators diagonalAtCorner [] 0).1.map ∧
      sampleHeader.MAX_RAY_OBJS
        ≤ (frameInputs idleCollaborators diagonalAtCorner [] 0).1.objs.length ∧
      tileAt diagonalAtCorner.map (FROM_FX (506 + 30 * 2)) (FROM_FX 506) = some floorCell ∧
      tileAt diagonalAtCorner.map (FROM_FX 536) (FROM_FX (506 + 30 * 2)) = some wallCell) ∧
    (∃ r2, rayMainLoop sampleHeader idleCollaborators diagonalAtCorner [] 0 = some r2 ∧
      r2.posX = 536 ∧
      r2.posY = (if isPassableCell sampleHeader wallCell then 506 + 30 else 506)) := by
  refine ⟨by decide, ?_⟩
  obtain ⟨r1, deltaX, deltaY, hd, _, _, h⟩ :=
    rayMainLoop_moveY_gated_after_moveX sampleHeader idleCollaborators diagonalAtCorner [] 0
      (by decide) (by decide)
  have hd0 : frameDelta sampleHeader idleCollaborators diagonalAtCorner [] 0
      = some (diagonalAtCorner, 30, 30) := by decide
  rw [hd0] at hd
  injection hd with hd
  injection hd with h1 h2
  injection h2 with h2 h3
  subst h1 h2 h3
  obtain ⟨r2, hr2, hx2, hy2, _⟩ := h floorCell wallCell 536 (by decide) (by decide)
    (by decide)
  exact ⟨r2, hr2, hx2, hy2⟩

/-! ### The frame, step by step -/

/-- The strafe latch reads the buttons and the strafing flag only. -/
theorem strafeLatch_isStrafing (H : RayHeader) (a b : ray_t) (prevBtnState : Nat)
    (hb : a.btnState = b.btnState) (hs : a.isStrafing = b.isStrafing) :
    (strafeLatch H a prevBtnState).isStrafing = (strafeLatch H b prevBtnState).isStrafing := by
  unfold strafeLatch
  rw [hb]
  split
  · rfl
  · split
    · rfl
    · exact hs

/-- The frame on a grid within its bounds, step by step: the head-bob timer `ra`, the door
timer `rb`, the strafe latch `r0`, the turn `r1`, and the move and fire that remain. -/
theorem frame_steps (H : RayHeader) (C : Collaborators) (ray : ray_t) (evts : List Nat)
    (elapsedUs : Int) (s : ray_t) (cs : Option rayObj_t)
    (hin : frameInputs C ray evts elapsedUs = (s, cs)) (hm : mapInBounds s.map) :
    ∃ ra rb r0 r1 deltaX0 deltaY0,
      bobTimerRun H s elapsedUs = some ra ∧
      ra = { s with bobTimer := ra.bobTimer, bobCount := ra.bobCount, posZ := ra.posZ } ∧
      doorTimerRun ra elapsedUs = some rb ∧
      rb = { ra with doorTimer := rb.doorTimer, map := rb.map } ∧
      mapInBounds rb.map ∧
      r0 = strafeLatch H rb ray.btnState ∧
      r0 = { rb with isStrafing := (strafeLatch H s ray.btnState).isStrafing } ∧
      frameTimers H C ray evts elapsedUs = some (r0, cs) ∧
      turnStep H C r0 cs = some (r1, deltaX0, deltaY0) ∧
      r1 = { r0 with dirAngle := r1.dirAngle, dirX := r1.dirX, dirY := r1.dirY,
                     planeX := r1.planeX, planeY := r1.planeY } ∧
      frameDelta H C ray evts elapsedUs
        = some (r1, (walkDelta H r1 deltaX0 deltaY0).1, (walkDelta H r1 deltaX0 deltaY0).2) ∧
      rayMainLoop H C ray evts elapsedUs
        = (movePlayer H r1 (walkDelta H r1 deltaX0 deltaY0).1
            (walkDelta H r1 deltaX0 deltaY0).2).bind
          (fun rm => fireStep H C rm ray.btnState) := by
  obtain ⟨ra, hra, hrae⟩ := bobTimerRun_total H s elapsedUs
  have hma : mapInBounds ra.map := by rw [hrae]; exact hm
  obtain ⟨rb, hrb, hrbm, hrbe⟩ := doorTimerRun_total ra elapsedUs hma
  obtain ⟨r1, dx0, dy0, h1, h1e⟩ := turnStep_total H C (strafeLatch H rb ray.btnState) cs
  have hft : frameTimers H C ray evts elapsedUs
      = some (strafeLatch H rb ray.btnState, cs) := by
    unfold frameTimers
    simp only [hin, hra, hrb, Option.bind_eq_bind, Option.some_bind, Option.pure_def]
  have hfd : frameDelta H C ray evts elapsedUs
      = some (r1, (walkDelta H r1 dx0 dy0).1, (walkDelta H r1 dx0 dy0).2) := by
    unfold frameDelta
    simp only [hft, h1, Option.bind_eq_bind, Option.some_bind, Option.pure_def]
  have hlatch : (strafeLatch H rb ray.btnState).isStrafing
      = (strafeLatch H s ray.btnState).isStrafing := by
    apply strafeLatch_isStrafing
    · rw [hrbe, hrae]
    · rw [hrbe, hrae]
  refine ⟨ra, rb, strafeLatch H rb ray.btnState, r1, dx0, dy0, hra, hrae, hrb, hrbe, hrbm, rfl,
    ?_, hft, h1, h1e, hfd, ?_⟩
  · rw [← hlatch]; exact strafeLatch_keeps H rb ray.btnState
  · unfold rayMainLoop
    simp only [hfd, Option.bind_eq_bind, Option.some_bind]

/-- The scan for a free slot writes nothing but the pool. -/
theorem fireScan_inv (H : RayHeader) (C : Collaborators) (ray : ray_t) :
    ∀ (n idx : Nat) (r : ray_t), fireScan H C ray n idx = some r →
      r = { ray with objs := r.objs } := by
  intro n
  induction n with
  | zero =>
    intro idx r h
    unfold fireScan at h
    injection h with h
    rw [← h]
  | succ n ih =>
    intro idx r h
    unfold fireScan at h
    cases ho : ray.objs[idx]? with
    | none => rw [ho] at h; simp at h
    | some o =>
      rw [ho] at h
      simp only [Option.bind_eq_bind, Option.some_bind] at h
      by_cases hid : -1 = o.id
      · rw [if_pos hid] at h
        injection h with h
        rw [← h]
      · rw [if_neg hid] at h
        exact ih (idx + 1) r h

/-- The fire action writes nothing but the pool. -/
theorem fireStep_inv (H : RayHeader) (C : Collaborators) (ray r : ray_t) (prevBtnState : Nat)
    (h : fireStep H C ray prevBtnState = some r) : r = { ray with objs := r.objs } := by
  unfold fireStep at h
  split at h
  · exact fireScan_inv H C ray _ _ r h
  · injection h with h
    rw [← h]

/-- The move writes nothing but the position. -/
theorem movePlayer_inv (H : RayHeader) (ray rm : ray_t) (deltaX deltaY : Int)
    (h : movePlayer H ray deltaX deltaY = some rm) :
    rm = { ray with posX := rm.posX, posY := rm.posY } := by
  cases hx : tileAt ray.map (FROM_FX (ray.posX + deltaX * 2)) (FROM_FX ray.posY) with
  | none => simp [movePlayer, hx] at h
  | some cellX =>
    cases hy : tileAt ray.map
        (FROM_FX (if isPassableCell H cellX then ray.posX + deltaX else ray.posX))
        (FROM_FX (ray.posY + deltaY * 2)) with
    | none =>
      cases hpx : isPassableCell H cellX <;>
        simp only [hpx, Bool.false_eq_true, if_false, if_true] at hy <;>
        simp [movePlayer, hx, hpx, hy] at h
    | some cellY =>
      rw [movePlayer_eq H ray deltaX deltaY cellX cellY hx hy] at h
      injection h with h
      rw [← h]

/-- The frame returns when the move does and the pool holds its `MAX_RAY_OBJS` slots; after
the move it writes nothing but the pool. -/
theorem rayMainLoop_of_move (H : RayHeader) (C : Collaborators) (ray : ray_t)
    (evts : List Nat) (elapsedUs : Int) (r1 rm : ray_t) (deltaX deltaY : Int)
    (hloop : rayMainLoop H C ray evts elapsedUs
      = (movePlayer H r1 deltaX deltaY).bind (fun rm => fireStep H C rm ray.btnState))
    (hmv : movePlayer H r1 deltaX deltaY = some rm)
    (hp : H.MAX_RAY_OBJS ≤ r1.objs.length) :
    ∃ r2, rayMainLoop H C ray evts elapsedUs = some r2 ∧
      fireStep H C rm ray.btnState = some r2 ∧ r2 = { rm with objs := r2.objs } ∧
      rm = { r1 with posX := rm.posX, posY := rm.posY } := by
  have hrm := movePlayer_inv H r1 rm deltaX deltaY hmv
  obtain ⟨objs, hf⟩ := fireStep_keeps H C rm ray.btnState (by rw [hrm]; exact hp)
  refine ⟨_, ?_, hf, rfl, hrm⟩
  rw [hloop, hmv, Option.some_bind]
  exact hf

/-! ### The door timer -/

/-- A read of the grid at non-negative indices is the read at natural indices. -/
theorem tileAt_eq_cellAt (m : rayMap_t) (x y : Int) (hx : 0 ≤ x) (hy : 0 ≤ y) :
    tileAt m x y = cellAt m x.toNat y.toNat := by
  unfold tileAt cellAt
  rw [if_pos ⟨hx, hy⟩]

/-- The door step on one cell inside the grid: that cell is bumped, the others are kept. -/
theorem doorCell_spec (m : rayMap_t) (x y : Nat) (hm : mapInBounds m)
    (hx : x < m.w.toNat) (hy : y < m.h.toNat) :
    ∃ m2, doorCell m x y = some m2 ∧ m2.w = m.w ∧ m2.h = m.h ∧ mapInBounds m2 ∧
      ∀ x2 y2, cellAt m2 x2 y2
        = if x2 = x ∧ y2 = y then (cellAt m x2 y2).map doorBump else cellAt m x2 y2 := by
  have hxl : x < m.tiles.length := by have := hm.1; omega
  have hcol : m.tiles[x]? = some m.tiles[x] := List.getElem?_eq_getElem hxl
  have hyl : y < (m.tiles[x]).length := by
    have := hm.2 _ (List.getElem_mem hxl); omega
  have hcell : (m.tiles[x])[y]? = some (m.tiles[x])[y] := List.getElem?_eq_getElem hyl
  unfold doorCell
  simp only [hcol, hcell, Option.bind_eq_bind, Option.some_bind]
  by_cases hb : (m.tiles[x])[y].doorOpen > 0 ∧ (m.tiles[x])[y].doorOpen < TO_FX 1
  · rw [if_pos hb]
    refine ⟨_, rfl, rfl, rfl, ⟨?_, ?_⟩, ?_⟩
    · simp only [List.length_set]; exact hm.1
    · intro col hc
      rcases List.mem_or_eq_of_mem_set hc with h | h
      · exact hm.2 col h
      · rw [h, List.length_set]; exact hm.2 _ (List.getElem_mem hxl)
    · intro x2 y2
      unfold cellAt
      by_cases hx2 : x2 = x
      · subst hx2
        simp only [List.getElem?_set_self hxl, Option.some_bind, hcol, true_and]
        by_cases hy2 : y2 = y
        · subst hy2
          simp only [List.getElem?_set_self hyl, hcell, Option.map_some', if_true, doorBump,
            if_pos hb]
        · rw [List.getElem?_set_ne (fun h => hy2 h.symm), if_neg hy2]
      · rw [List.getElem?_set_ne (fun h => hx2 h.symm), if_neg (fun h => hx2 h.1)]
  · rw [if_neg hb]
    refine ⟨m, rfl, rfl, rfl, hm, ?_⟩
    intro x2 y2
    by_cases h : x2 = x ∧ y2 = y
    · rw [if_pos h, h.1, h.2]
      unfold cellAt
      simp only [hcol, hcell, Option.some_bind, Option.map_some', doorBump, if_neg hb]
    · rw [if_neg h]


/-- A fold over `0 .. k` is the fold over `0 .. k-1` followed by the step at `k`. -/
theorem foldlM_range_succ {β : Type} (f : β → Nat → Option β) (init : β) (k : Nat) :
    (List.range (k + 1)).foldlM f init
      = ((List.range k).foldlM f init).bind (fun acc => f acc k) := by
  rw [List.range_succ, List.foldlM_append]
  cases (List.foldlM f init (List.range k)) with
  | none => rfl
  | some acc =>
    simp only [Option.bind_eq_bind, Option.some_bind, List.foldlM_cons, List.foldlM_nil,
      Option.pure_def, Option.bind_some]

/-- The inner loop after `k` columns: the cells `(x, y)` with `x < k` are bumped. -/
theorem doorRow_prefix (m : rayMap_t) (y : Nat) (hm : mapInBounds m) (hy : y < m.h.toNat) :
    ∀ k, k ≤ m.w.toNat →
      ∃ m2, (List.range k).foldlM (fun acc x => doorCell acc x y) m = some m2 ∧
        m2.w = m.w ∧ m2.h = m.h ∧ mapInBounds m2 ∧
        ∀ x2 y2, cellAt m2 x2 y2
          = if x2 < k ∧ y2 = y then (cellAt m x2 y2).map doorBump else cellAt m x2 y2 := by
  intro k
  induction k with
  | zero =>
    intro _
    refine ⟨m, rfl, rfl, rfl, hm, ?_⟩
    intro x2 y2
    rw [if_neg (by omega)]
  | succ k ih =>
    intro hk
    obtain ⟨m1, hf, hw, hh, hb, hc⟩ := ih (by omega)
    obtain ⟨m2, hd, hw2, hh2, hb2, hc2⟩ := doorCell_spec m1 k y hb (by rw [hw]; omega)
      (by rw [hh]; exact hy)
    refine ⟨m2, ?_, by rw [hw2, hw], by rw [hh2, hh], hb2, ?_⟩
    · rw [foldlM_range_succ, hf]; exact hd
    · intro x2 y2
      rw [hc2 x2 y2, hc x2 y2]
      by_cases hy2 : y2 = y
      · by_cases hx2 : x2 = k
        · rw [if_pos ⟨hx2, hy2⟩, if_neg (by omega), if_pos ⟨by omega, hy2⟩]
        · rw [if_neg (fun h => hx2 h.1)]
          by_cases hlt : x2 < k
          · rw [if_pos ⟨hlt, hy2⟩, if_pos ⟨by omega, hy2⟩]
          · rw [if_neg (fun h => hlt h.1), if_neg (fun h => by omega)]
      · rw [if_neg (fun h => hy2 h.2), if_neg (fun h => hy2 h.2), if_neg (fun h => hy2 h.2)]

/-- The inner loop of the door step: the cells of row `y` inside the grid are bumped. -/
theorem doorRow_spec (m : rayMap_t) (y : Nat) (hm : mapInBounds m) (hy : y < m.h.toNat) :
    ∃ m2, doorRow m y = some m2 ∧ m2.w = m.w ∧ m2.h = m.h ∧ mapInBounds m2 ∧
      ∀ x2 y2, cellAt m2 x2 y2
        = if x2 < m.w.toNat ∧ y2 = y then (cellAt m x2 y2).map doorBump
          else cellAt m x2 y2 :=
  doorRow_prefix m y hm hy m.w.toNat (le_refl _)

/-- The door step after `k` rows: the cells `(x, y)` with `x < w` and `y < k` are bumped. -/
theorem doorStep_prefix (m : rayMap_t) (hm : mapInBounds m) :
    ∀ k, k ≤ m.h.toNat →
      ∃ m2, (List.range k).foldlM doorRow m = some m2 ∧
        m2.w = m.w ∧ m2.h = m.h ∧ mapInBounds m2 ∧
        ∀ x2 y2, cellAt m2 x2 y2
          = if x2 < m.w.toNat ∧ y2 < k then (cellAt m x2 y2).map doorBump
            else cellAt m x2 y2 := by
  intro k
  induction k with
  | zero =>
    intro _
    refine ⟨m, rfl, rfl, rfl, hm, ?_⟩
    intro x2 y2
    rw [if_neg (by omega)]
  | succ k ih =>
    intro hk
    obtain ⟨m1, hf, hw, hh, hb, hc⟩ := ih (by omega)
    obtain ⟨m2, hd, hw2, hh2, hb2, hc2⟩ := doorRow_spec m1 k hb (by rw [hh]; omega)
    refine ⟨m2, ?_, by rw [hw2, hw], by rw [hh2, hh], hb2, ?_⟩
    · rw [foldlM_range_succ, hf]; exact hd
    · intro x2 y2
      rw [hc2 x2 y2, hc x2 y2, hw]
      by_cases hx2 : x2 < m.w.toNat
      · by_cases hy2 : y2 = k
        · rw [if_pos ⟨hx2, hy2⟩, if_neg (by omega), if_pos ⟨hx2, by omega⟩]
        · rw [if_neg (fun h => hy2 h.2)]
          by_cases hlt : y2 < k
          · rw [if_pos ⟨hx2, hlt⟩, if_pos ⟨hx2, by omega⟩]
          · rw [if_neg (fun h => hlt h.2), if_neg (fun h => by omega)]
      · rw [if_neg (fun h => hx2 h.1), if_neg (fun h => hx2 h.1), if_neg (fun h => hx2 h.1)]

/-- The door step: every cell inside the `w` by `h` grid is bumped once, the grid keeps its
shape. -/
theorem doorStep_spec (m : rayMap_t) (hm : mapInBounds m) :
    ∃ m2, doorStep m = some m2 ∧ m2.w = m.w ∧ m2.h = m.h ∧ mapInBounds m2 ∧
      ∀ x2 y2, cellAt m2 x2 y2
        = if x2 < m.w.toNat ∧ y2 < m.h.toNat then (cellAt m x2 y2).map doorBump
          else cellAt m x2 y2 :=
  doorStep_prefix m hm m.h.toNat (le_refl _)


/-- The door loop on a non-negative timer runs the door step once per 5000 and leaves the
remainder. -/
theorem doorLoop_count : ∀ (fuel : Nat) (ray : ray_t), mapInBounds ray.map →
    0 ≤ ray.doorTimer → ray.doorTimer ≤ fuel →
    ∃ m, doorSteps (ray.doorTimer / 5000).toNat ray.map = some m ∧ mapInBounds m ∧
      doorLoop fuel ray = some { ray with doorTimer := ray.doorTimer % 5000, map := m } := by
  intro fuel
  induction fuel with
  | zero =>
    intro ray hm h0 hf
    have ht : ray.doorTimer = 0 := by simp only [Nat.cast_zero] at hf; omega
    have hr : ray.doorTimer % 5000 = ray.doorTimer := by omega
    refine ⟨ray.map, ?_, hm, ?_⟩
    · rw [ht]; rfl
    · unfold doorLoop
      rw [if_neg (by omega), hr]
  | succ n ih =>
    intro ray hm h0 hf
    unfold doorLoop
    by_cases hc : ray.doorTimer ≥ 5000
    · rw [if_pos hc]
      obtain ⟨m1, h1, _, _, h4, _⟩ := doorStep_spec ray.map hm
      obtain ⟨m, hs, hmb, hl⟩ := ih { ray with doorTimer := ray.doorTimer - 5000, map := m1 } h4
        (by simp only; omega) (by simp only [Nat.cast_add, Nat.cast_one] at hf ⊢; omega)
      simp only at hs hl
      have hk : (ray.doorTimer / 5000).toNat = ((ray.doorTimer - 5000) / 5000).toNat + 1 := by
        omega
      have hr : (ray.doorTimer - 5000) % 5000 = ray.doorTimer % 5000 := by omega
      refine ⟨m, ?_, hmb, ?_⟩
      · rw [hk]
        show (doorStep ray.map).bind (doorSteps _) = some m
        rw [h1, Option.some_bind]; exact hs
      · rw [h1, Option.some_bind, hl, hr]
    · rw [if_neg hc]
      have hk : (ray.doorTimer / 5000).toNat = 0 := by omega
      have hr : ray.doorTimer % 5000 = ray.doorTimer := by omega
      refine ⟨ray.map, ?_, hm, ?_⟩
      · rw [hk]; rfl
      · rw [hr]

/-- The door timer on a non-negative total runs the door step `floor (total / 5000)` times
and leaves `total mod 5000` in the accumulator. -/
theorem doorTimerRun_count (ray : ray_t) (elapsedUs : Int) (hm : mapInBounds ray.map)
    (h0 : 0 ≤ ray.doorTimer + elapsedUs) :
    ∃ m, doorSteps ((ray.doorTimer + elapsedUs) / 5000).toNat ray.map = some m ∧
      mapInBounds m ∧
      doorTimerRun ray elapsedUs
        = some { ray with doorTimer := (ray.doorTimer + elapsedUs) % 5000, map := m } := by
  unfold doorTimerRun
  obtain ⟨m, hs, hmb, hl⟩ := doorLoop_count (ray.doorTimer + elapsedUs).toNat
    { ray with doorTimer := ray.doorTimer + elapsedUs } hm h0 (by simp only; omega)
  exact ⟨m, hs, hmb, hl⟩

/-- What a bump does to a cell. -/
theorem doorBump_spec (c : rayMapCell_t) :
    (doorBump c).type = c.type ∧
    (0 < c.doorOpen → c.doorOpen < TO_FX 1 → (doorBump c).doorOpen = c.doorOpen + 1) ∧
    (c.doorOpen = 0 ∨ c.doorOpen = TO_FX 1 → doorBump c = c) := by
  unfold doorBump
  refine ⟨?_, ?_, ?_⟩
  · split <;> rfl
  · intro h1 h2; rw [if_pos ⟨h1, h2⟩]
  · intro h
    rw [if_neg]
    intro hc
    rcases h with h | h
    · rw [h] at hc; exact absurd hc.1 (by decide)
    · rw [h] at hc; exact absurd hc.2 (lt_irrefl _)

/-- A frame that returns went through the timers, the turn, the move and the fire action;
each wrote its own fields only. -/
theorem rayMainLoop_inv (H : RayHeader) (C : Collaborators) (ray : ray_t) (evts : List Nat)
    (elapsedUs : Int) (s : ray_t) (cs : Option rayObj_t) (r2 : ray_t)
    (hin : frameInputs C ray evts elapsedUs = (s, cs)) (hm : mapInBounds s.map)
    (h2 : rayMainLoop H C ray evts elapsedUs = some r2) :
    ∃ r0 r1 deltaX deltaY rm,
      frameTimers H C ray evts elapsedUs = some (r0, cs) ∧
      frameDelta H C ray evts elapsedUs = some (r1, deltaX, deltaY) ∧
      r1 = { r0 with dirAngle := r1.dirAngle, dirX := r1.dirX, dirY := r1.dirY,
                     planeX := r1.planeX, planeY := r1.planeY } ∧
      movePlayer H r1 deltaX deltaY = some rm ∧
      rm = { r1 with posX := rm.posX, posY := rm.posY } ∧
      fireStep H C rm ray.btnState = some r2 ∧
      r2 = { rm with objs := r2.objs } := by
  obtain ⟨ra, rb, r0, r1, dx0, dy0, _, _, _, _, _, _, _, hft, _, h1e, hfd, hloop⟩ :=
    frame_steps H C ray evts elapsedUs s cs hin hm
  rw [hloop] at h2
  cases hmv : movePlayer H r1 (walkDelta H r1 dx0 dy0).1 (walkDelta H r1 dx0 dy0).2 with
  | none => rw [hmv] at h2; simp at h2
  | some rm =>
    rw [hmv, Option.some_bind] at h2
    exact ⟨r0, r1, _, _, rm, hft, hfd, h1e, hmv, movePlayer_inv H r1 rm _ _ hmv, h2,
      fireStep_inv H C rm r2 ray.btnState h2⟩

/-- Claim C11: door timer in `rayMainLoop`. For an accumulator `a ≥ 0` and `elapsedUs = e ≥ 0`
the door step runs `floor ((a + e) / 5000)` times and leaves `(a + e) mod 5000` in the
accumulator. With accumulator 0 and `elapsedUs` exactly 5000 every cell inside the map with
`0 < doorOpen < TO_FX 1` has its `doorOpen` increased by exactly 1, and every cell with
`doorOpen = 0` or `doorOpen = TO_FX 1` is unchanged. The rest of the frame keeps the map and
the accumulator. -/
theorem rayMainLoop_doorTimer (H : RayHeader) (C : Collaborators) (ray : ray_t)
    (evts : List Nat) (elapsedUs : Int) (s : ray_t) (cs : Option rayObj_t)
    (hin : frameInputs C ray evts elapsedUs = (s, cs)) (hm : mapInBounds s.map) :
    (0 ≤ s.doorTimer → 0 ≤ elapsedUs →
      ∃ r0 m, frameTimers H C ray evts elapsedUs = some (r0, cs) ∧
        doorSteps ((s.doorTimer + elapsedUs) / 5000).toNat s.map = some m ∧
        r0.map = m ∧ r0.doorTimer = (s.doorTimer + elapsedUs) % 5000) ∧
    (s.doorTimer = 0 → elapsedUs = 5000 →
      ∃ r0, frameTimers H C ray evts elapsedUs = some (r0, cs) ∧ r0.doorTimer = 0 ∧
        ∀ (x y : Int) (c : rayMapCell_t), 0 ≤ x → x < s.map.w → 0 ≤ y → y < s.map.h →
          tileAt s.map x y = some c →
          ∃ c2, tileAt r0.map x y = some c2 ∧ c2.type = c.type ∧
            (0 < c.doorOpen → c.doorOpen < TO_FX 1 → c2.doorOpen = c.doorOpen + 1) ∧
            (c.doorOpen = 0 ∨ c.doorOpen = TO_FX 1 → c2 = c)) ∧
    (∀ r0 r2, frameTimers H C ray evts elapsedUs = some (r0, cs) →
      rayMainLoop H C ray evts elapsedUs = some r2 →
      r2.map = r0.map ∧ r2.doorTimer = r0.doorTimer) := by
  obtain ⟨ra, rb, r0, r1, dx0, dy0, hra, hrae, hrb, hrbe, hrbm, _, h0e, hft, _, _, _, _⟩ :=
    frame_steps H C ray evts elapsedUs s cs hin hm
  have hma : mapInBounds ra.map := by rw [hrae]; exact hm
  have hat : ra.doorTimer = s.doorTimer := by rw [hrae]
  have ham : ra.map = s.map := by rw [hrae]
  have hgen : 0 ≤ s.doorTimer + elapsedUs →
      ∃ m, doorSteps ((s.doorTimer + elapsedUs) / 5000).toNat s.map = some m ∧
        r0.map = m ∧ r0.doorTimer = (s.doorTimer + elapsedUs) % 5000 := by
    intro h0
    obtain ⟨m, hs, _, hrun⟩ := doorTimerRun_count ra elapsedUs hma (by rw [hat]; exact h0)
    rw [hrb] at hrun
    injection hrun with hrun
    rw [hat, ham] at hs
    refine ⟨m, hs, ?_, ?_⟩
    · rw [h0e, hrun]
    · rw [h0e, hrun, hat]
  refine ⟨?_, ?_, ?_⟩
  · intro ha he
    obtain ⟨m, hs, h1, h2⟩ := hgen (by omega)
    exact ⟨r0, m, hft, hs, h1, h2⟩
  · intro ha he
    obtain ⟨m, hs, h1, h2⟩ := hgen (by omega)
    have hone : ((s.doorTimer + elapsedUs) / 5000).toNat = 1 := by rw [ha, he]; decide
    have hrem : (s.doorTimer + elapsedUs) % 5000 = 0 := by rw [ha, he]; decide
    rw [hone] at hs
    obtain ⟨m2, hd, _, _, _, hcells⟩ := doorStep_spec s.map hm
    have hm2 : m = m2 := by
      have : doorSteps 1 s.map = (doorStep s.map).bind (doorSteps 0) := rfl
      rw [this, hd, Option.some_bind] at hs
      injection hs with hs
      exact hs.symm
    refine ⟨r0, hft, by rw [h2, hrem], ?_⟩
    intro x y c hx0 hxw hy0 hyh hc
    rw [tileAt_eq_cellAt _ x y hx0 hy0] at hc
    have hb := doorBump_spec c
    refine ⟨doorBump c, ?_, hb.1, hb.2.1, hb.2.2⟩
    rw [tileAt_eq_cellAt _ x y hx0 hy0, h1, hm2, hcells x.toNat y.toNat,
      if_pos ⟨by omega, by omega⟩, hc]
    rfl
  · intro r0b r2 hftb h2
    obtain ⟨r0c, r1c, dx, dy, rm, hftc, _, h1e, _, hrme, _, h2e⟩ :=
      rayMainLoop_inv H C ray evts elapsedUs s cs r2 hin hm h2
    rw [hftb] at hftc
    injection hftc with hftc
    injection hftc with hftc _
    subst hftc
    constructor
    · rw [h2e, hrme, h1e]
    · rw [h2e, hrme, h1e]

/-- Witness of C11 on `doorsMap`: after 5000 microseconds the door at 100 is at 101, and the
doors at 0 and at 256 are where they were. -/
theorem rayMainLoop_doorTimer_witness :
    (frameInputs idleCollaborators amongDoors [] 5000 = (amongDoors, none) ∧
      mapInBounds amongDoors.map ∧ amongDoors.doorTimer = 0) ∧
    (∃ r0, frameTimers sampleHeader idleCollaborators amongDoors [] 5000 = some (r0, none) ∧
      r0.doorTimer = 0 ∧
      (∃ c2, tileAt r0.map 0 0 = some c2 ∧ c2.doorOpen = 100 + 1) ∧
      tileAt r0.map 0 1 = some (doorCellOf 0) ∧
      tileAt r0.map 1 0 = some (doorCellOf 256)) := by
  refine ⟨by decide, ?_⟩
  obtain ⟨r0, hft, hdt, hcells⟩ :=
    (rayMainLoop_doorTimer sampleHeader idleCollaborators amongDoors [] 5000 amongDoors none
      (by decide) (by decide)).2.1 (by decide) rfl
  obtain ⟨ca, hca, _, hcab, _⟩ := hcells 0 0 (doorCellOf 100) (by decide) (by decide)
    (by decide) (by decide) (by decide)
  obtain ⟨cb, hcb, _, _, hcbe⟩ := hcells 0 1 (doorCellOf 0) (by decide) (by decide)
    (by decide) (by decide) (by decide)
  obtain ⟨cc, hcc, _, _, hcce⟩ := hcells 1 0 (doorCellOf 256) (by decide) (by decide)
    (by decide) (by decide) (by decide)
  refine ⟨r0, hft, hdt, ⟨ca, hca, hcab (by decide) (by decide)⟩, ?_, ?_⟩
  · rw [hcb, hcbe (Or.inl rfl)]
  · rw [hcc, hcce (Or.inr (by decide))]

/-! ### The fire action -/

/-- The scan over occupied slots finds nothing and leaves the state. -/
theorem fireScan_none_free (H : RayHeader) (C : Collaborators) (ray : ray_t) :
    ∀ n idx : Nat,
      (∀ j, idx ≤ j → j < idx + n → ∃ o, ray.objs[j]? = some o ∧ o.id ≠ -1) →
      fireScan H C ray n idx = some ray := by
  intro n
  induction n with
  | zero => intro idx _; rfl
  | succ n ih =>
    intro idx hocc
    obtain ⟨o, ho, hid⟩ := hocc idx (le_refl _) (by omega)
    unfold fireScan
    simp only [ho, Option.bind_eq_bind, Option.some_bind]
    rw [if_neg (fun h => hid h.symm)]
    exact ih (idx + 1) (fun j h1 h2 => hocc j (by omega) (by omega))

/-- The scan populates the first free slot at or after `idx` and leaves the other slots. -/
theorem fireScan_first_free (H : RayHeader) (C : Collaborators) (ray : ray_t) (i : Nat)
    (o : rayObj_t) (ho : ray.objs[i]? = some o) (hfree : o.id = -1) :
    ∀ n idx : Nat, idx ≤ i → i < idx + n →
      (∀ j, idx ≤ j → j < i → ∃ o2, ray.objs[j]? = some o2 ∧ o2.id ≠ -1) →
      fireScan H C ray n idx = some { ray with objs := ray.objs.set i ({ o with
          sprite := some (C.getTexByType ray H.OBJ_BULLET_NORMAL),
          dist := 0,
          posX := ray.posX + ray.dirX.tdiv 2,
          posY := ray.posY + ray.dirY.tdiv 2,
          velX := ray.dirX,
          velY := ray.dirY,
          radius := DIV_FX (TO_FX (C.getTexByType ray H.OBJ_BULLET_NORMAL).w) (TO_FX 64),
          type := H.OBJ_BULLET_NORMAL,
          id := 0 } : rayObj_t) } := by
  intro n
  induction n with
  | zero => intro idx h1 h2 _; omega
  | succ n ih =>
    intro idx h1 h2 hocc
    unfold fireScan
    by_cases hi : idx = i
    · subst hi
      simp only [ho, Option.bind_eq_bind, Option.some_bind]
      rw [if_pos hfree.symm]
    · obtain ⟨o2, ho2, hid⟩ := hocc idx (le_refl _) (by omega)
      simp only [ho2, Option.bind_eq_bind, Option.some_bind]
      rw [if_neg (fun h => hid h.symm)]
      exact ih (idx + 1) (by omega) (by omega) (fun j h3 h4 => hocc j (by omega) h4)

/-- The radius of a bullet: a texture of width `w` gives `4 * w` raw units. -/
theorem bullet_radius (w : Int) (h0 : 0 ≤ w) (h1 : w ≤ 8388607) :
    DIV_FX (TO_FX w) (TO_FX 64) = 4 * w := by
  rw [TO_FX_eq w (by omega) h1, TO_FX_eq 64 (by norm_num) (by norm_num)]
  unfold DIV_FX shl FRAC_BITS
  rw [(tdiv_pos_cases (w * 256 * 2 ^ 8) (64 * 256) (by norm_num)).1 (by positivity)]
  norm_num
  omega

/-- Claim C13: fire action in `rayMainLoop`, with the pool as the collaborators left it.
Without a press edge of the fire button the pool is unchanged. With a press edge (`PB_A` set
in `btnState`, clear in `prevBtnState`): if no slot has `id = -1` the pool is unchanged;
otherwise exactly the lowest slot with `id = -1` is populated (`id ≠ -1`, type
`OBJ_BULLET_NORMAL`, `dist = 0`, position = player position + `(dirX / 2, dirY / 2)`,
velocity `(dirX, dirY)`, radius `DIV_FX (TO_FX w) (TO_FX 64) = 4 * w` for the texture width
`w`) and every other slot is unchanged; firing into an all-free pool occupies slot 0. -/
theorem rayMainLoop_fire (H : RayHeader) (C : Collaborators) (ray : ray_t)
    (evts : List Nat) (elapsedUs : Int) (s : ray_t) (cs : Option rayObj_t)
    (hin : frameInputs C ray evts elapsedUs = (s, cs)) (hm : mapInBounds s.map)
    (hlen : s.objs.length = H.MAX_RAY_OBJS) :
    ∃ r1 deltaX deltaY, frameDelta H C ray evts elapsedUs = some (r1, deltaX, deltaY) ∧
      ∀ rm, movePlayer H r1 deltaX deltaY = some rm →
        ∃ r2, rayMainLoop H C ray evts elapsedUs = some r2 ∧
          r2.posX = rm.posX ∧ r2.posY = rm.posY ∧ r2.dirX = r1.dirX ∧ r2.dirY = r1.dirY ∧
          (¬ (held s.btnState H.PB_A = true ∧ held ray.btnState H.PB_A = false) →
            r2.objs = s.objs) ∧
          (held s.btnState H.PB_A = true → held ray.btnState H.PB_A = false →
            ((∀ o ∈ s.objs, o.id ≠ -1) → r2.objs = s.objs) ∧
            (∀ (i : Nat) (o : rayObj_t), s.objs[i]? = some o → o.id = -1 →
              (∀ (j : Nat) (o2 : rayObj_t), j < i → s.objs[j]? = some o2 → o2.id ≠ -1) →
              ∃ b, r2.objs = s.objs.set i b ∧ b.id ≠ -1 ∧ b.type = H.OBJ_BULLET_NORMAL ∧
                b.dist = 0 ∧
                b.posX = r2.posX + r2.dirX.tdiv 2 ∧ b.posY = r2.posY + r2.dirY.tdiv 2 ∧
                b.velX = r2.dirX ∧ b.velY = r2.dirY ∧
                b.radius
                  = DIV_FX (TO_FX (C.getTexByType rm H.OBJ_BULLET_NORMAL).w) (TO_FX 64) ∧
                (0 ≤ (C.getTexByType rm H.OBJ_BULLET_NORMAL).w →
                  (C.getTexByType rm H.OBJ_BULLET_NORMAL).w ≤ 8388607 →
                  b.radius = 4 * (C.getTexByType rm H.OBJ_BULLET_NORMAL).w)) ∧
            ((∀ o ∈ s.objs, o.id = -1) → 0 < H.MAX_RAY_OBJS →
              ∃ b, r2.objs = s.objs.set 0 b ∧ b.id ≠ -1)) := by
  obtain ⟨ra, rb, r0, r1, dx0, dy0, _, hrae, _, hrbe, _, _, h0e, _, _, h1e, hfd, hloop⟩ :=
    frame_steps H C ray evts elapsedUs s cs hin hm
  have ho1 : r1.objs = s.objs := by rw [h1e, h0e, hrbe, hrae]
  have hb1 : r1.btnState = s.btnState := by rw [h1e, h0e, hrbe, hrae]
  refine ⟨r1, _, _, hfd, ?_⟩
  intro rm hmv
  obtain ⟨r2, hr2, hfire, h2e, hrme⟩ := rayMainLoop_of_move H C ray evts elapsedUs r1 rm _ _
    hloop hmv (by rw [ho1, hlen])
  have hom : rm.objs = s.objs := by rw [hrme]; exact ho1
  have hbm : rm.btnState = s.btnState := by rw [hrme]; exact hb1
  have hpx : r2.posX = rm.posX := by rw [h2e]
  have hpy : r2.posY = rm.posY := by rw [h2e]
  have hdx : r2.dirX = rm.dirX := by rw [h2e]
  have hdy : r2.dirY = rm.dirY := by rw [h2e]
  have hdx1 : rm.dirX = r1.dirX := by rw [hrme]
  have hdy1 : rm.dirY = r1.dirY := by rw [hrme]
  refine ⟨r2, hr2, hpx, hpy, by rw [hdx, hdx1], by rw [hdy, hdy1], ?_, ?_⟩
  · intro hne
    unfold fireStep at hfire
    rw [hbm] at hfire
    rw [if_neg (by
      intro h
      exact hne ⟨h.1, by simpa using h.2⟩)] at hfire
    injection hfire with hfire
    rw [← hfire, hom]
  · intro hA hprev
    unfold fireStep at hfire
    rw [hbm, if_pos ⟨hA, by simp [hprev]⟩] at hfire
    have hfirst : ∀ (i : Nat) (o : rayObj_t), s.objs[i]? = some o → o.id = -1 →
        (∀ (j : Nat) (o2 : rayObj_t), j < i → s.objs[j]? = some o2 → o2.id ≠ -1) →
        ∃ b, r2.objs = s.objs.set i b ∧ b.id ≠ -1 ∧ b.type = H.OBJ_BULLET_NORMAL ∧
          b.dist = 0 ∧
          b.posX = r2.posX + r2.dirX.tdiv 2 ∧ b.posY = r2.posY + r2.dirY.tdiv 2 ∧
          b.velX = r2.dirX ∧ b.velY = r2.dirY ∧
          b.radius
            = DIV_FX (TO_FX (C.getTexByType rm H.OBJ_BULLET_NORMAL).w) (TO_FX 64) ∧
          (0 ≤ (C.getTexByType rm H.OBJ_BULLET_NORMAL).w →
            (C.getTexByType rm H.OBJ_BULLET_NORMAL).w ≤ 8388607 →
            b.radius = 4 * (C.getTexByType rm H.OBJ_BULLET_NORMAL).w) := by
      intro i o ho hfree hlow
      have hil : i < s.objs.length := by
        by_contra hge
        rw [List.getElem?_eq_none (by omega)] at ho
        exact Option.noConfusion ho
      have hscan := fireScan_first_free H C rm i o (by rw [hom]; exact ho) hfree
        H.MAX_RAY_OBJS 0 (Nat.zero_le _) (by omega)
        (by
          intro j _ hj
          have hjl : j < s.objs.length := by omega
          refine ⟨s.objs[j], by rw [hom]; exact List.getElem?_eq_getElem hjl, ?_⟩
          exact hlow j _ hj (List.getElem?_eq_getElem hjl))
      rw [hscan] at hfire
      injection hfire with hfire
      refine ⟨_, by rw [← hfire, hom], (by show (0 : Int) ≠ -1; decide), rfl, rfl, ?_, ?_, ?_,
        ?_, rfl, ?_⟩
      · rw [hpx, hdx]
      · rw [hpy, hdy]
      · rw [hdx]
      · rw [hdy]
      · intro hw0 hw1
        exact bullet_radius _ hw0 hw1
    refine ⟨?_, hfirst, ?_⟩
    · intro hocc
      have hscan := fireScan_none_free H C rm H.MAX_RAY_OBJS 0
        (by
          intro j _ hj
          have hjl : j < s.objs.length := by omega
          refine ⟨s.objs[j], by rw [hom]; exact List.getElem?_eq_getElem hjl, ?_⟩
          exact hocc _ (List.getElem_mem hjl))
      rw [hscan] at hfire
      injection hfire with hfire
      rw [← hfire, hom]
    · intro hall hpos
      have h0l : 0 < s.objs.length := by omega
      obtain ⟨b, hb, hid, _⟩ := hfirst 0 s.objs[0] (List.getElem?_eq_getElem h0l)
        (hall _ (List.getElem_mem h0l)) (fun j _ hj => absurd hj (Nat.not_lt_zero j))
      exact ⟨b, hb, hid⟩

/-- Witness of C13: with the up button held and the fire button pressed in this frame, the
first bullet goes into slot 0 of the free pool. -/
theorem rayMainLoop_fire_witness :
    (frameInputs idleCollaborators northInOpen [0x11] 0
        = ({ northInOpen with btnState := 0x11 }, none) ∧
      mapInBounds northInOpen.map ∧ northInOpen.objs.length = sampleHeader.MAX_RAY_OBJS ∧
      held 0x11 sampleHeader.PB_A = true ∧ held northInOpen.btnState sampleHeader.PB_A = false ∧
      ∀ o ∈ northInOpen.objs, o.id = -1) ∧
    (∃ r2 b, rayMainLoop sampleHeader idleCollaborators northInOpen [0x11] 0 = some r2 ∧
      r2.objs = northInOpen.objs.set 0 b ∧ b.id ≠ -1) := by
  refine ⟨by decide, ?_⟩
  obtain ⟨r1, deltaX, deltaY, hd, h⟩ :=
    rayMainLoop_fire sampleHeader idleCollaborators northInOpen [0x11] 0
      { northInOpen with btnState := 0x11 } none (by decide) (by decide) (by decide)
  have hd0 : frameDelta sampleHeader idleCollaborators northInOpen [0x11] 0
      = some ({ northInOpen with btnState := 0x11 }, 0, -42) := by decide
  rw [hd0] at hd
  injection hd with hd
  injection hd with h1 h2
  injection h2 with h2 h3
  subst h1 h2 h3
  obtain ⟨r2, hr2, _, _, _, _, _, hfire⟩ :=
    h { northInOpen with btnState := 0x11, posY := 342 } (by decide)
  obtain ⟨b, hb, hid⟩ := (hfire (by decide) (by decide)).2.2 (by decide) (by decide)
  exact ⟨r2, b, hr2, hb, hid⟩

/-! ### Rotation -/

/-- Rotating right from a whole degree `a` sets the angle `(a + 5) mod 360`. -/
theorem rotateRight_of_degree (H : RayHeader) (ray : ray_t) (a : Int) (h0 : 0 ≤ a)
    (h1 : a ≤ 359) (hang : ray.dirAngle = TO_FX a) (hr : held ray.btnState H.PB_RIGHT = true) :
    rotateRight H ray = setPlayerAngle ray (TO_FX ((a + 5) % 360)) := by
  unfold rotateRight ADD_FX
  rw [if_pos hr, hang, TO_FX_eq a (by omega) (by omega), TO_FX_eq 5 (by norm_num) (by norm_num),
    TO_FX_eq 360 (by norm_num) (by norm_num), TO_FX_eq ((a + 5) % 360) (by omega) (by omega)]
  simp only
  by_cases hw : a * 256 + 5 * 256 ≥ 360 * 256
  · rw [if_pos hw]
    have e : a * 256 + 5 * 256 - 360 * 256 = (a + 5) % 360 * 256 := by omega
    rw [e]
  · rw [if_neg hw]
    have e : a * 256 + 5 * 256 = (a + 5) % 360 * 256 := by omega
    rw [e]

/-- Rotating left from a whole degree `a` sets the angle `(a - 5) mod 360`. -/
theorem rotateLeft_of_degree (H : RayHeader) (ray : ray_t) (a : Int) (h0 : 0 ≤ a)
    (h1 : a ≤ 359) (hang : ray.dirAngle = TO_FX a) (hl : held ray.btnState H.PB_LEFT = true) :
    rotateLeft H ray = setPlayerAngle ray (TO_FX ((a - 5) % 360)) := by
  unfold rotateLeft SUB_FX
  rw [if_pos hl, hang, TO_FX_eq a (by omega) (by omega), TO_FX_eq 5 (by norm_num) (by norm_num),
    TO_FX_eq 360 (by norm_num) (by norm_num), TO_FX_eq 0 (by norm_num) (by norm_num),
    TO_FX_eq ((a - 5) % 360) (by omega) (by omega)]
  simp only
  by_cases hw : a * 256 - 5 * 256 < 0 * 256
  · rw [if_pos hw]
    have e : a * 256 - 5 * 256 + 360 * 256 = (a - 5) % 360 * 256 := by omega
    rw [e]
  · rw [if_neg hw]
    have e : a * 256 - 5 * 256 = (a - 5) % 360 * 256 := by omega
    rw [e]

/-- The turn of a frame without strafing, with the right button and without the left. -/
theorem turnStep_right (H : RayHeader) (C : Collaborators) (ray : ray_t)
    (cs : Option rayObj_t) (a : Int) (h0 : 0 ≤ a) (h1 : a ≤ 359)
    (hang : ray.dirAngle = TO_FX a) (hs : ray.isStrafing = false)
    (hr : held ray.btnState H.PB_RIGHT = true) (hl : held ray.btnState H.PB_LEFT = false) :
    turnStep H C ray cs
      = (setPlayerAngle ray (TO_FX ((a + 5) % 360))).map (fun r => (r, 0, 0)) := by
  unfold turnStep
  rw [if_neg (by rw [hs]; decide), rotateRight_of_degree H ray a h0 h1 hang hr]
  obtain ⟨r, hr1, hre⟩ := setPlayerAngle_total ray (TO_FX ((a + 5) % 360))
  have hb : r.btnState = ray.btnState := by rw [hre]
  simp only [hr1, Option.bind_eq_bind, Option.some_bind, Option.map_some', rotateLeft, hb, hl,
    Bool.false_eq_true, if_false, Option.pure_def]

/-- The turn of a frame without strafing, with the left button and without the right. -/
theorem turnStep_left (H : RayHeader) (C : Collaborators) (ray : ray_t)
    (cs : Option rayObj_t) (a : Int) (h0 : 0 ≤ a) (h1 : a ≤ 359)
    (hang : ray.dirAngle = TO_FX a) (hs : ray.isStrafing = false)
    (hr : held ray.btnState H.PB_RIGHT = false) (hl : held ray.btnState H.PB_LEFT = true) :
    turnStep H C ray cs
      = (setPlayerAngle ray (TO_FX ((a - 5) % 360))).map (fun r => (r, 0, 0)) := by
  unfold turnStep
  rw [if_neg (by rw [hs]; decide)]
  simp only [rotateRight, hr, Bool.false_eq_true, if_false, Option.bind_eq_bind,
    Option.some_bind, rotateLeft_of_degree H ray a h0 h1 hang hl]
  obtain ⟨r, hr1, _⟩ := setPlayerAngle_total ray (TO_FX ((a - 5) % 360))
  simp only [hr1, Option.some_bind, Option.map_some', Option.pure_def]

/-- The angle setter stores its argument as the facing angle. -/
theorem setPlayerAngle_dirAngle (ray r : ray_t) (angle : Int)
    (h : setPlayerAngle ray angle = some r) : r.dirAngle = angle := by
  obtain ⟨sn, hs, _⟩ := getSin1024_total (FROM_FX angle)
  obtain ⟨cs, hc, _⟩ := getCos1024_total (FROM_FX angle)
  rw [setPlayerAngle_eq ray angle sn cs hs hc] at h
  injection h with h
  rw [← h]

/-- A frame that turns to the whole degree `b` without strafing: the facing at the end of the
frame is the one the angle setter computes for `b`. -/
theorem rayMainLoop_turn_to (H : RayHeader) (C : Collaborators) (ray : ray_t)
    (evts : List Nat) (elapsedUs : Int) (s : ray_t) (cs : Option rayObj_t) (b : Int)
    (hin : frameInputs C ray evts elapsedUs = (s, cs)) (hm : mapInBounds s.map)
    (hp : H.MAX_RAY_OBJS ≤ s.objs.length) (hb0 : 0 ≤ b) (hb1 : b ≤ 359)
    (hturn : ∀ r0, r0.dirAngle = s.dirAngle → r0.btnState = s.btnState →
      r0.isStrafing = (strafeLatch H s ray.btnState).isStrafing →
      turnStep H C r0 cs = (setPlayerAngle r0 (TO_FX b)).map (fun r => (r, 0, 0))) :
    ∃ r0 r1 deltaX deltaY, frameTimers H C ray evts elapsedUs = some (r0, cs) ∧
      frameDelta H C ray evts elapsedUs = some (r1, deltaX, deltaY) ∧
      setPlayerAngle r0 (TO_FX b) = some r1 ∧
      r1.dirAngle = TO_FX b ∧ TO_FX 0 ≤ r1.dirAngle ∧ r1.dirAngle < TO_FX 360 ∧
      ∀ rm, movePlayer H r1 deltaX deltaY = some rm →
        ∃ r2, rayMainLoop H C ray evts elapsedUs = some r2 ∧
          r2.dirAngle = r1.dirAngle ∧ r2.dirX = r1.dirX ∧ r2.dirY = r1.dirY ∧
          r2.planeX = r1.planeX ∧ r2.planeY = r1.planeY := by
  obtain ⟨ra, rb, r0, r1, dx0, dy0, _, hrae, _, hrbe, _, _, h0e, hft, hts, h1e, hfd, hloop⟩ :=
    frame_steps H C ray evts elapsedUs s cs hin hm
  have ht := hturn r0 (by rw [h0e, hrbe, hrae]) (by rw [h0e, hrbe, hrae]) (by rw [h0e])
  obtain ⟨r, hr, _⟩ := setPlayerAngle_total r0 (TO_FX b)
  rw [hts, hr, Option.map_some'] at ht
  injection ht with ht
  injection ht with ht _
  subst ht
  have hang := setPlayerAngle_dirAngle r0 r1 (TO_FX b) hr
  have ho1 : r1.objs = s.objs := by rw [h1e, h0e, hrbe, hrae]
  refine ⟨r0, r1, _, _, hft, hfd, hr, hang, ?_, ?_, ?_⟩
  · rw [hang, TO_FX_eq b (by omega) (by omega), TO_FX_eq 0 (by norm_num) (by norm_num)]
    omega
  · rw [hang, TO_FX_eq b (by omega) (by omega), TO_FX_eq 360 (by norm_num) (by norm_num)]
    omega
  · intro rm hmv
    obtain ⟨r2, hr2, _, h2e, hrme⟩ := rayMainLoop_of_move H C ray evts elapsedUs r1 rm _ _
      hloop hmv (by rw [ho1]; exact hp)
    refine ⟨r2, hr2, ?_, ?_, ?_, ?_, ?_⟩ <;> rw [h2e, hrme]

/-- Claim C14: rotation in `rayMainLoop` when not strafing. From `dirAngle = TO_FX a` with `a`
a whole degree in `[0, 359]`, a frame with the right button held (and not the left) ends with
`dirAngle = TO_FX ((a + 5) mod 360)`, a frame with the left button held (and not the right)
with `dirAngle = TO_FX ((a - 5) mod 360)`, the non-negative remainder; so the facing angle
stays in `[TO_FX 0, TO_FX 360)`, and the direction and plane vectors are those
`setPlayerAngle` computes for the new angle. -/
theorem rayMainLoop_rotate (H : RayHeader) (C : Collaborators) (ray : ray_t)
    (evts : List Nat) (elapsedUs : Int) (s : ray_t) (cs : Option rayObj_t) (a : Int)
    (hin : frameInputs C ray evts elapsedUs = (s, cs)) (hm : mapInBounds s.map)
    (hp : H.MAX_RAY_OBJS ≤ s.objs.length) (ha0 : 0 ≤ a) (ha1 : a ≤ 359)
    (hang : s.dirAngle = TO_FX a)
    (hns : (strafeLatch H s ray.btnState).isStrafing = false) :
    (held s.btnState H.PB_RIGHT = true → held s.btnState H.PB_LEFT = false →
      ∃ r0 r1 deltaX deltaY, frameTimers H C ray evts elapsedUs = some (r0, cs) ∧
        frameDelta H C ray evts elapsedUs = some (r1, deltaX, deltaY) ∧
        setPlayerAngle r0 (TO_FX ((a + 5) % 360)) = some r1 ∧
        r1.dirAngle = TO_FX ((a + 5) % 360) ∧ TO_FX 0 ≤ r1.dirAngle ∧
        r1.dirAngle < TO_FX 360 ∧
        ∀ rm, movePlayer H r1 deltaX deltaY = some rm →
          ∃ r2, rayMainLoop H C ray evts elapsedUs = some r2 ∧
            r2.dirAngle = r1.dirAngle ∧ r2.dirX = r1.dirX ∧ r2.dirY = r1.dirY ∧
            r2.planeX = r1.planeX ∧ r2.planeY = r1.planeY) ∧
    (held s.btnState H.PB_LEFT = true → held s.btnState H.PB_RIGHT = false →
      ∃ r0 r1 deltaX deltaY, frameTimers H C ray evts elapsedUs = some (r0, cs) ∧
        frameDelta H C ray evts elapsedUs = some (r1, deltaX, deltaY) ∧
        setPlayerAngle r0 (TO_FX ((a - 5) % 360)) = some r1 ∧
        r1.dirAngle = TO_FX ((a - 5) % 360) ∧ TO_FX 0 ≤ r1.dirAngle ∧
        r1.dirAngle < TO_FX 360 ∧
        ∀ rm, movePlayer H r1 deltaX deltaY = some rm →
          ∃ r2, rayMainLoop H C ray evts elapsedUs = some r2 ∧
            r2.dirAngle = r1.dirAngle ∧ r2.dirX = r1.dirX ∧ r2.dirY = r1.dirY ∧
            r2.planeX = r1.planeX ∧ r2.planeY = r1.planeY) := by
  constructor
  · intro hr hl
    apply rayMainLoop_turn_to H C ray evts elapsedUs s cs ((a + 5) % 360) hin hm hp
      (by omega) (by omega)
    intro r0 h1 h2 h3
    exact turnStep_right H C r0 cs a ha0 ha1 (by rw [h1, hang]) (by rw [h3, hns])
      (by rw [h2]; exact hr) (by rw [h2]; exact hl)
  · intro hl hr
    apply rayMainLoop_turn_to H C ray evts elapsedUs s cs ((a - 5) % 360) hin hm hp
      (by omega) (by omega)
    intro r0 h1 h2 h3
    exact turnStep_left H C r0 cs a ha0 ha1 (by rw [h1, hang]) (by rw [h3, hns])
      (by rw [h2]; exact hr) (by rw [h2]; exact hl)

/-- Witness of C14: turning right from 357 degrees ends at 2 degrees, turning left from 2
degrees ends at 357 degrees. -/
theorem rayMainLoop_rotate_witness :
    ((frameInputs idleCollaborators turningRight [] 0 = (turningRight, none) ∧
        mapInBounds turningRight.map ∧
        sampleHeader.MAX_RAY_OBJS ≤ turningRight.objs.length ∧
        turningRight.dirAngle = TO_FX 357 ∧
        (strafeLatch sampleHeader turningRight turningRight.btnState).isStrafing = false ∧
        held turningRight.btnState sampleHeader.PB_RIGHT = true ∧
        held turningRight.btnState sampleHeader.PB_LEFT = false) ∧
      (∃ r2, rayMainLoop sampleHeader idleCollaborators turningRight [] 0 = some r2 ∧
        r2.dirAngle = TO_FX ((357 + 5) % 360))) ∧
    ((frameInputs idleCollaborators turningLeft [] 0 = (turningLeft, none) ∧
        turningLeft.dirAngle = TO_FX 2 ∧
        held turningLeft.btnState sampleHeader.PB_LEFT = true ∧
        held turningLeft.btnState sampleHeader.PB_RIGHT = false) ∧
      (∃ r2, rayMainLoop sampleHeader idleCollaborators turningLeft [] 0 = some r2 ∧
        r2.dirAngle = TO_FX ((2 - 5) % 360))) := by
  refine ⟨⟨by decide, ?_⟩, ⟨by decide, ?_⟩⟩
  · obtain ⟨r0, r1, deltaX, deltaY, _, hfd, _, hang, _, _, h⟩ :=
      (rayMainLoop_rotate sampleHeader idleCollaborators turningRight [] 0 turningRight none
        357 (by decide) (by decide) (by decide) (by decide) (by decide) (by decide)
        (by decide)).1 (by decide) (by decide)
    have hd0 : frameDelta sampleHeader idleCollaborators turningRight [] 0
        = some ({ turningLeft with btnState := 0x08 }, 0, 0) := by decide
    rw [hd0] at hfd
    injection hfd with hfd
    injection hfd with h1 h2
    injection h2 with h2 h3
    subst h1 h2 h3
    obtain ⟨r2, hr2, ha2, _⟩ := h { turningLeft with btnState := 0x08 } (by decide)
    exact ⟨r2, hr2, by rw [ha2, hang]⟩
  · obtain ⟨r0, r1, deltaX, deltaY, _, hfd, _, hang, _, _, h⟩ :=
      (rayMainLoop_rotate sampleHeader idleCollaborators turningLeft [] 0 turningLeft none
        2 (by decide) (by decide) (by decide) (by decide) (by decide) (by decide)
        (by decide)).2 (by decide) (by decide)
    have hd0 : frameDelta sampleHeader idleCollaborators turningLeft [] 0
        = some ({ turningRight with btnState := 0x04 }, 0, 0) := by decide
    rw [hd0] at hfd
    injection hfd with hfd
    injection hfd with h1 h2
    injection h2 with h2 h3
    subst h1 h2 h3
    obtain ⟨r2, hr2, ha2, _⟩ := h { turningRight with btnState := 0x04 } (by decide)
    exact ⟨r2, hr2, by rw [ha2, hang]⟩

/-! ### The camera plane -/

/-- The dot product of direction and plane over the table: each sine entry with the entry
90 places further, which is its cosine. -/
theorem planeDot_zip : ∀ p ∈ List.zip sin1024 (sin1024.drop 90 ++ sin1024.take 90),
    -319 ≤ (p.1.tdiv 4) * MUL_FX (-170) ((-p.2).tdiv 4)
        + ((-p.2).tdiv 4) * MUL_FX 170 (p.1.tdiv 4) ∧
    (p.1.tdiv 4) * MUL_FX (-170) ((-p.2).tdiv 4)
        + ((-p.2).tdiv 4) * MUL_FX 170 (p.1.tdiv 4) ≤ 319 := by
  decide

/-- The sine table rotated by 90 places, read at `a`, is the table read at `(a + 90) mod 360`. -/
theorem cosTable_read (a : Int) (h0 : 0 ≤ a) (h1 : a ≤ 359) :
    (sin1024.drop 90 ++ sin1024.take 90)[a.toNat]? = sin1024[((a + 90) % 360).toNat]? := by
  have hl : (sin1024.drop 90).length = 270 := by rw [List.length_drop, sin1024_length]
  by_cases h : a < 270
  · rw [List.getElem?_append_left (by rw [hl]; omega), List.getElem?_drop]
    have e : 90 + a.toNat = ((a + 90) % 360).toNat := by omega
    rw [e]
  · rw [List.getElem?_append_right (by rw [hl]; omega), hl,
      List.getElem?_take_of_lt (by omega)]
    have e : a.toNat - 270 = ((a + 90) % 360).toNat := by omega
    rw [e]

/-- The dot product of direction and plane is within 319 for every whole degree. -/
theorem planeDot_bound (a sn cs : Int) (h0 : 0 ≤ a) (h1 : a ≤ 359)
    (hs : getSin1024 a = some sn) (hc : getCos1024 a = some cs) :
    -319 ≤ (sn.tdiv 4) * MUL_FX (-170) ((-cs).tdiv 4)
        + ((-cs).tdiv 4) * MUL_FX 170 (sn.tdiv 4) ∧
    (sn.tdiv 4) * MUL_FX (-170) ((-cs).tdiv 4)
        + ((-cs).tdiv 4) * MUL_FX 170 (sn.tdiv 4) ≤ 319 := by
  rw [getSin1024_eq a (by omega) (by omega)] at hs
  rw [getCos1024_eq a (by omega) (by omega), ← cosTable_read a h0 h1] at hc
  have ha : a % 360 = a := by omega
  rw [ha] at hs
  have hz : (List.zip sin1024 (sin1024.drop 90 ++ sin1024.take 90))[a.toNat]? = some (sn, cs) :=
    List.getElem?_zip_eq_some.2 ⟨hs, hc⟩
  exact planeDot_zip (sn, cs) (List.getElem?_mem hz)

/-- The rounding of the two fixed-point multiplies: 256 times the dot product is what the two
shifts drop. -/
theorem planeDot_rounding (dirX dirY : Int) :
    256 * (dirX * MUL_FX (-170) dirY + dirY * MUL_FX 170 dirX)
      = -(dirX * ((-170 * dirY) % 256) + dirY * ((170 * dirX) % 256)) := by
  rw [MUL_FX_eq, MUL_FX_eq]
  have hx : 256 * ((-170 * dirY) / 256) + (-170 * dirY) % 256 = -170 * dirY :=
    Int.ediv_add_emod _ _
  have hy : 256 * ((170 * dirX) / 256) + (170 * dirX) % 256 = 170 * dirX :=
    Int.ediv_add_emod _ _
  linear_combination dirX * hx + dirY * hy

/-- Claim C15, amended: for every integer angle `a` in `[0, 359]`, after
`setPlayerAngle (TO_FX a)` the camera plane is orthogonal to the direction up to the rounding
of the two fixed-point multiplies: 256 times `dirX * planeX + dirY * planeY` is what the two
shifts drop, the product is within 319 of 0, and it is 0 at the angles 0, 90, 180 and 270. -/
theorem setPlayerAngle_plane_near_orthogonal (ray : ray_t) (a : Int) (h0 : 0 ≤ a)
    (h1 : a ≤ 359) :
    ∃ r, setPlayerAngle ray (TO_FX a) = some r ∧
      256 * planeDot r
        = -(r.dirX * ((-170 * r.dirY) % 256) + r.dirY * ((170 * r.dirX) % 256)) ∧
      -319 ≤ planeDot r ∧ planeDot r ≤ 319 ∧
      (a = 0 ∨ a = 90 ∨ a = 180 ∨ a = 270 → planeDot r = 0) := by
  obtain ⟨sn, hs, _⟩ := getSin1024_total a
  obtain ⟨cs, hc, _⟩ := getCos1024_total a
  have hset := setPlayerAngle_eq ray (TO_FX a) sn cs
    (by rw [FROM_FX_TO_FX a (by omega) (by omega)]; exact hs)
    (by rw [FROM_FX_TO_FX a (by omega) (by omega)]; exact hc)
  have hb := planeDot_bound a sn cs h0 h1 hs hc
  refine ⟨_, hset, ?_, hb.1, hb.2, ?_⟩
  · exact planeDot_rounding (sn.tdiv 4) ((-cs).tdiv 4)
  · intro haxis
    show (sn.tdiv 4) * MUL_FX (-170) ((-cs).tdiv 4)
        + ((-cs).tdiv 4) * MUL_FX 170 (sn.tdiv 4) = 0
    rcases haxis with h | h | h | h <;> subst h
    · have e1 : getSin1024 0 = some 0 := by decide
      have e2 : getCos1024 0 = some 1024 := by decide
      rw [e1] at hs; rw [e2] at hc
      injection hs with hs; injection hc with hc
      subst hs hc; decide
    · have e1 : getSin1024 90 = some 1024 := by decide
      have e2 : getCos1024 90 = some 0 := by decide
      rw [e1] at hs; rw [e2] at hc
      injection hs with hs; injection hc with hc
      subst hs hc; decide
    · have e1 : getSin1024 180 = some 0 := by decide
      have e2 : getCos1024 180 = some (-1024) := by decide
      rw [e1] at hs; rw [e2] at hc
      injection hs with hs; injection hc with hc
      subst hs hc; decide
    · have e1 : getSin1024 270 = some (-1024) := by decide
      have e2 : getCos1024 270 = some 0 := by decide
      rw [e1] at hs; rw [e2] at hc
      injection hs with hs; injection hc with hc
      subst hs hc; decide

/-- Counterexample to C15 as stated: at 30 degrees the stored vectors are
`dir = (128, -221)` and `plane = (146, 85)`, and `dirX * planeX + dirY * planeY = -97`. -/
theorem setPlayerAngle_plane_not_orthogonal :
    ((0 : Int) ≤ 30 ∧ (30 : Int) ≤ 359) ∧
    (setPlayerAngle northInOpen (TO_FX 30)).map
      (fun r => (r.dirX, r.dirY, r.planeX, r.planeY, r.dirX * r.planeX + r.dirY * r.planeY))
      = some (128, -221, 146, 85, -97) := by
  decide

/-- Witness of the amended C15 at 30 degrees. -/
theorem setPlayerAngle_plane_near_orthogonal_witness :
    ((0 : Int) ≤ 30 ∧ (30 : Int) ≤ 359) ∧
    (∃ r, setPlayerAngle northInOpen (TO_FX 30) = some r ∧
      256 * planeDot r
        = -(r.dirX * ((-170 * r.dirY) % 256) + r.dirY * ((170 * r.dirX) % 256)) ∧
      -319 ≤ planeDot r ∧ planeDot r ≤ 319 ∧
      ((30 : Int) = 0 ∨ (30 : Int) = 90 ∨ (30 : Int) = 180 ∨ (30 : Int) = 270 →
        planeDot r = 0)) :=
  ⟨by decide, setPlayerAngle_plane_near_orthogonal northInOpen 30 (by decide) (by decide)⟩

/-! ### Facing invariant -/

/-- Consistency of the facing reads the facing fields only. -/
theorem facingConsistent_congr (a b : ray_t) (h : sameFacing b a) (ha : facingConsistent a) :
    facingConsistent b := by
  obtain ⟨h1, h2, h3, h4, h5⟩ := h
  unfold facingConsistent
  rw [h1, h2, h3, h4, h5]
  exact ha

/-- The angle setter leaves a consistent facing. -/
theorem setPlayerAngle_consistent (ray r : ray_t) (angle : Int)
    (h : setPlayerAngle ray angle = some r) : facingConsistent r := by
  obtain ⟨sn, hs, _⟩ := getSin1024_total (FROM_FX angle)
  obtain ⟨cs, hc, _⟩ := getCos1024_total (FROM_FX angle)
  rw [setPlayerAngle_eq ray angle sn cs hs hc] at h
  injection h with h
  rw [← h]
  exact ⟨by simp only [hs, Option.map_some'], by simp only [hc, Option.map_some'], rfl, rfl⟩

/-- The turn keeps every property of the state that the angle setter establishes. -/
theorem turnStep_preserves (P : ray_t → Prop)
    (hset : ∀ r angle r2, setPlayerAngle r angle = some r2 → P r2)
    (H : RayHeader) (C : Collaborators) (ray : ray_t) (centeredSprite : Option rayObj_t)
    (h : P ray) :
    ∃ r deltaX deltaY, turnStep H C ray centeredSprite = some (r, deltaX, deltaY) ∧ P r := by
  unfold turnStep
  by_cases hs : ray.isStrafing = true
  · rw [if_pos hs]
    simp only [Option.bind_eq_bind]
    cases centeredSprite with
    | none =>
      simp only [Option.some_bind]
      obtain ⟨dx, dy, hd⟩ := strafeDelta_total H ray
      exact ⟨ray, dx, dy, hd, h⟩
    | some sp =>
      obtain ⟨r, hr, _⟩ := setPlayerAngle_total ray
        (TO_FX (toInt32 (C.cordicAtan2 (sp.posX - ray.posX) (ray.posY - sp.posY))))
      simp only [hr, Option.some_bind]
      obtain ⟨dx, dy, hd⟩ := strafeDelta_total H r
      exact ⟨r, dx, dy, hd, hset _ _ _ hr⟩
  · rw [if_neg hs]
    simp only [Option.bind_eq_bind]
    have hright : ∃ r, rotateRight H ray = some r ∧ P r := by
      unfold rotateRight
      split
      · obtain ⟨r, hr, _⟩ := setPlayerAngle_total ray
          (if ADD_FX ray.dirAngle (TO_FX 5) ≥ TO_FX 360
            then ADD_FX ray.dirAngle (TO_FX 5) - TO_FX 360 else ADD_FX ray.dirAngle (TO_FX 5))
        exact ⟨r, hr, hset _ _ _ hr⟩
      · exact ⟨ray, rfl, h⟩
    obtain ⟨ra, hra, hPa⟩ := hright
    have hleft : ∃ r, rotateLeft H ra = some r ∧ P r := by
      unfold rotateLeft
      split
      · obtain ⟨r, hr, _⟩ := setPlayerAngle_total ra
          (if SUB_FX ra.dirAngle (TO_FX 5) < TO_FX 0
            then SUB_FX ra.dirAngle (TO_FX 5) + TO_FX 360 else SUB_FX ra.dirAngle (TO_FX 5))
        exact ⟨r, hr, hset _ _ _ hr⟩
      · exact ⟨ra, rfl, hPa⟩
    obtain ⟨rb, hrb, hPb⟩ := hleft
    rw [hra, Option.some_bind, hrb, Option.some_bind]
    exact ⟨rb, 0, 0, rfl, hPb⟩

/-- A property of the facing fields that the angle setter establishes holds before the move
and at the end of the frame when it holds for the state the collaborators leave. -/
theorem rayMainLoop_preserves_facing (P : ray_t → Prop)
    (hcongr : ∀ a b, sameFacing b a → P a → P b)
    (hset : ∀ r angle r2, setPlayerAngle r angle = some r2 → P r2)
    (H : RayHeader) (C : Collaborators) (ray : ray_t) (evts : List Nat) (elapsedUs : Int)
    (s : ray_t) (cs : Option rayObj_t)
    (hin : frameInputs C ray evts elapsedUs = (s, cs)) (hm : mapInBounds s.map)
    (hp : H.MAX_RAY_OBJS ≤ s.objs.length) (hs : P s) :
    ∃ r1 deltaX deltaY, frameDelta H C ray evts elapsedUs = some (r1, deltaX, deltaY) ∧
      P r1 ∧
      ∀ rm, movePlayer H r1 deltaX deltaY = some rm →
        ∃ r2, rayMainLoop H C ray evts elapsedUs = some r2 ∧ P r2 ∧ sameFacing r2 r1 := by
  obtain ⟨ra, rb, r0, r1, dx0, dy0, _, hrae, _, hrbe, _, _, h0e, _, hts, h1e, hfd, hloop⟩ :=
    frame_steps H C ray evts elapsedUs s cs hin hm
  have hP0 : P r0 := by
    apply hcongr s r0 _ hs
    refine ⟨?_, ?_, ?_, ?_, ?_⟩ <;> rw [h0e, hrbe, hrae]
  obtain ⟨r1b, dxb, dyb, htb, hP1⟩ := turnStep_preserves P hset H C r0 cs hP0
  rw [hts] at htb
  injection htb with htb
  injection htb with htb _
  subst htb
  have ho1 : r1.objs = s.objs := by rw [h1e, h0e, hrbe, hrae]
  refine ⟨r1, _, _, hfd, hP1, ?_⟩
  intro rm hmv
  obtain ⟨r2, hr2, _, h2e, hrme⟩ := rayMainLoop_of_move H C ray evts elapsedUs r1 rm _ _
    hloop hmv (by rw [ho1]; exact hp)
  have hsf : sameFacing r2 r1 := by
    refine ⟨?_, ?_, ?_, ?_, ?_⟩ <;> rw [h2e, hrme]
  exact ⟨r2, hr2, hcongr r1 r2 hsf hP1, hsf⟩

/-- Claim C16: consistency of direction and plane with the facing angle is an invariant of
the frame step, for every button state, strafing state, elapsed time and locked-target angle,
the collaborators not writing these fields; it also holds after `rayEnterMode`. -/
theorem rayMainLoop_facing_consistent (H : RayHeader) (C : Collaborators) (ray : ray_t)
    (evts : List Nat) (elapsedUs : Int) (s : ray_t) (cs : Option rayObj_t)
    (hin : frameInputs C ray evts elapsedUs = (s, cs)) (hm : mapInBounds s.map)
    (hp : H.MAX_RAY_OBJS ≤ s.objs.length) (hcol : sameFacing s ray)
    (hinv : facingConsistent ray) :
    (∃ r1 deltaX deltaY, frameDelta H C ray evts elapsedUs = some (r1, deltaX, deltaY) ∧
      facingConsistent r1 ∧
      ∀ rm, movePlayer H r1 deltaX deltaY = some rm →
        ∃ r2, rayMainLoop H C ray evts elapsedUs = some r2 ∧ facingConsistent r2) ∧
    ((∀ r, sameFacing (C.initLoadedTextures r) r) →
      ∃ r, rayEnterMode H C = some r ∧ facingConsistent r) := by
  constructor
  · obtain ⟨r1, dx, dy, hfd, hP1, h⟩ := rayMainLoop_preserves_facing facingConsistent
      facingConsistent_congr (fun r angle r2 h => setPlayerAngle_consistent r r2 angle h) H C ray
      evts elapsedUs s cs hin hm hp
      (facingConsistent_congr ray s hcol hinv)
    refine ⟨r1, dx, dy, hfd, hP1, ?_⟩
    intro rm hmv
    obtain ⟨r2, hr2, hP2, _⟩ := h rm hmv
    exact ⟨r2, hr2, hP2⟩
  · intro htex
    unfold rayEnterMode
    simp only [Option.bind_eq_bind]
    obtain ⟨r, hr, _⟩ := setPlayerAngle_total
      { C.loadRayMap { zeroRay H with
            objs := (zeroRay H).objs.map (fun o => { o with id := -1 }) } with
          posX := TO_FX (C.loadRayMap { zeroRay H with
            objs := (zeroRay H).objs.map (fun o => { o with id := -1 }) }).posX
              + shl 1 (FRAC_BITS - 1),
          posY := TO_FX (C.loadRayMap { zeroRay H with
            objs := (zeroRay H).objs.map (fun o => { o with id := -1 }) }).posY
              + shl 1 (FRAC_BITS - 1) }
      (TO_FX 0)
    simp only [hr, Option.some_bind, Option.pure_def]
    refine ⟨_, rfl, ?_⟩
    apply facingConsistent_congr { r with posZ := TO_FX 0 } _ (htex _)
    exact facingConsistent_congr r _ ⟨rfl, rfl, rfl, rfl, rfl⟩
      (setPlayerAngle_consistent _ r _ hr)

/-- Witness of C16: a frame that turns right from a consistent facing, and mode entry. -/
theorem rayMainLoop_facing_consistent_witness :
    (frameInputs idleCollaborators turningRight [] 0 = (turningRight, none) ∧
      mapInBounds turningRight.map ∧
      sampleHeader.MAX_RAY_OBJS ≤ turningRight.objs.length ∧
      sameFacing turningRight turningRight ∧ facingConsistent turningRight ∧
      ∀ r, sameFacing (idleCollaborators.initLoadedTextures r) r) ∧
    (∃ r2, rayMainLoop sampleHeader idleCollaborators turningRight [] 0 = some r2 ∧
      facingConsistent r2) ∧
    (∃ r, rayEnterMode sampleHeader idleCollaborators = some r ∧ facingConsistent r) := by
  have hthm := rayMainLoop_facing_consistent sampleHeader idleCollaborators turningRight [] 0
    turningRight none (by decide) (by decide) (by decide) (by decide) (by decide)
  refine ⟨⟨by decide, by decide, by decide, by decide, by decide,
    fun r => ⟨rfl, rfl, rfl, rfl, rfl⟩⟩, ?_, hthm.2 (fun r => ⟨rfl, rfl, rfl, rfl, rfl⟩)⟩
  obtain ⟨r1, deltaX, deltaY, hfd, _, h⟩ := hthm.1
  have hd0 : frameDelta sampleHeader idleCollaborators turningRight [] 0
      = some ({ turningLeft with btnState := 0x08 }, 0, 0) := by decide
  rw [hd0] at hfd
  injection hfd with hfd
  injection hfd with h1 h2
  injection h2 with h2 h3
  subst h1 h2 h3
  exact h { turningLeft with btnState := 0x08 } (by decide)

/-! ### Strafing -/

/-- The tangential delta of the turn: none without strafing; with strafing, the direction
after the turn rotated by a quarter, over 6. An unlocked strafe leaves the state. -/
theorem turnStep_delta (H : RayHeader) (C : Collaborators) (ray : ray_t)
    (centeredSprite : Option rayObj_t) :
    ∃ r deltaX deltaY, turnStep H C ray centeredSprite = some (r, deltaX, deltaY) ∧
      (ray.isStrafing = false → deltaX = 0 ∧ deltaY = 0) ∧
      (ray.isStrafing = true →
        (deltaX, deltaY)
          = (if held r.btnState H.PB_RIGHT = true then (-(r.dirY.tdiv 6), r.dirX.tdiv 6)
             else if held r.btnState H.PB_LEFT = true then (r.dirY.tdiv 6, -(r.dirX.tdiv 6))
             else (0, 0))) ∧
      (ray.isStrafing = true → centeredSprite = none → r = ray) := by
  have hstrafe : ∀ r : ray_t, ∃ deltaX deltaY,
      (if held r.btnState H.PB_RIGHT = true then
          some (r, (0 : Int) - r.dirY.tdiv 6, (0 : Int) + r.dirX.tdiv 6)
        else if held r.btnState H.PB_LEFT = true then
          some (r, (0 : Int) + r.dirY.tdiv 6, (0 : Int) - r.dirX.tdiv 6)
        else some (r, (0 : Int), (0 : Int))) = some (r, deltaX, deltaY) ∧
      (deltaX, deltaY)
        = (if held r.btnState H.PB_RIGHT = true then (-(r.dirY.tdiv 6), r.dirX.tdiv 6)
           else if held r.btnState H.PB_LEFT = true then (r.dirY.tdiv 6, -(r.dirX.tdiv 6))
           else (0, 0)) := by
    intro r
    by_cases hr : held r.btnState H.PB_RIGHT = true
    · refine ⟨_, _, by rw [if_pos hr], ?_⟩
      rw [if_pos hr, zero_sub, zero_add]
    · by_cases hl : held r.btnState H.PB_LEFT = true
      · refine ⟨_, _, by rw [if_neg hr, if_pos hl], ?_⟩
        rw [if_neg hr, if_pos hl, zero_sub, zero_add]
      · refine ⟨_, _, by rw [if_neg hr, if_neg hl], ?_⟩
        rw [if_neg hr, if_neg hl]
  by_cases hs : ray.isStrafing = true
  · unfold turnStep
    rw [if_pos hs]
    simp only [Option.bind_eq_bind]
    cases centeredSprite with
    | none =>
      simp only [Option.some_bind]
      obtain ⟨dx, dy, hd, hval⟩ := hstrafe ray
      exact ⟨ray, dx, dy, hd, fun h => by rw [hs] at h; exact absurd h (by decide),
        fun _ => hval, fun _ _ => rfl⟩
    | some sp =>
      obtain ⟨r, hr, _⟩ := setPlayerAngle_total ray
        (TO_FX (toInt32 (C.cordicAtan2 (sp.posX - ray.posX) (ray.posY - sp.posY))))
      simp only [hr, Option.some_bind]
      obtain ⟨dx, dy, hd, hval⟩ := hstrafe r
      exact ⟨r, dx, dy, hd, fun h => by rw [hs] at h; exact absurd h (by decide),
        fun _ => hval, fun _ h => Option.noConfusion h⟩
  · obtain ⟨r, dx, dy, ht, _⟩ := turnStep_total H C ray centeredSprite
    have hzero : dx = 0 ∧ dy = 0 := by
      unfold turnStep at ht
      rw [if_neg hs] at ht
      simp only [Option.bind_eq_bind] at ht
      cases h1 : rotateRight H ray with
      | none => rw [h1] at ht; simp at ht
      | some ra =>
        rw [h1, Option.some_bind] at ht
        cases h2 : rotateLeft H ra with
        | none => rw [h2] at ht; simp at ht
        | some rb =>
          rw [h2, Option.some_bind] at ht
          injection ht with ht
          injection ht with _ ht
          injection ht with h3 h4
          exact ⟨h3.symm, h4.symm⟩
    exact ⟨r, dx, dy, ht, fun _ => hzero, fun h => absurd h hs, fun h => absurd h hs⟩

/-- The up and down buttons add the forward delta on top of the delta of the turn. -/
theorem walkDelta_eq (H : RayHeader) (ray : ray_t) (deltaX deltaY : Int) :
    walkDelta H ray deltaX deltaY
      = (deltaX + (if held ray.btnState H.PB_UP = true then (ray.dirX.tdiv 6, ray.dirY.tdiv 6)
            else if held ray.btnState H.PB_DOWN = true then
              (-(ray.dirX.tdiv 6), -(ray.dirY.tdiv 6))
            else (0, 0)).1,
         deltaY + (if held ray.btnState H.PB_UP = true then (ray.dirX.tdiv 6, ray.dirY.tdiv 6)
            else if held ray.btnState H.PB_DOWN = true then
              (-(ray.dirX.tdiv 6), -(ray.dirY.tdiv 6))
            else (0, 0)).2) := by
  unfold walkDelta
  by_cases hu : held ray.btnState H.PB_UP = true
  · simp only [hu, if_true]
  · by_cases hd : held ray.btnState H.PB_DOWN = true
    · simp only [hu, hd, if_true, Bool.false_eq_true, if_false, sub_eq_add_neg]
    · simp only [hu, hd, Bool.false_eq_true, if_false, add_zero]

/-- Claim C17: strafing without a locked target. In every frame the delta is a tangential
part plus the forward part `±(dirX / 6, dirY / 6)` of the up and down buttons; the
tangential part is `(0, 0)` without strafing and, with strafing, `(-(dirY / 6), dirX / 6)`
when right is held, `(dirY / 6, -(dirX / 6))` when left is held without right, `(0, 0)`
otherwise. When strafing is on after the latch and no sprite is centered, the frame leaves
`dirAngle`, `dirX`, `dirY`, `planeX` and `planeY` unchanged whatever buttons are held. -/
theorem rayMainLoop_strafe_unlocked (H : RayHeader) (C : Collaborators) (ray : ray_t)
    (evts : List Nat) (elapsedUs : Int) (s : ray_t) (cs : Option rayObj_t)
    (hin : frameInputs C ray evts elapsedUs = (s, cs)) (hm : mapInBounds s.map)
    (hp : H.MAX_RAY_OBJS ≤ s.objs.length) :
    ∃ r1 deltaX deltaY, frameDelta H C ray evts elapsedUs = some (r1, deltaX, deltaY) ∧
      r1.btnState = s.btnState ∧
      r1.isStrafing = (strafeLatch H s ray.btnState).isStrafing ∧
      (∃ tanX tanY,
        deltaX = tanX + (if held r1.btnState H.PB_UP = true then
            (r1.dirX.tdiv 6, r1.dirY.tdiv 6)
          else if held r1.btnState H.PB_DOWN = true then
            (-(r1.dirX.tdiv 6), -(r1.dirY.tdiv 6))
          else (0, 0)).1 ∧
        deltaY = tanY + (if held r1.btnState H.PB_UP = true then
            (r1.dirX.tdiv 6, r1.dirY.tdiv 6)
          else if held r1.btnState H.PB_DOWN = true then
            (-(r1.dirX.tdiv 6), -(r1.dirY.tdiv 6))
          else (0, 0)).2 ∧
        (r1.isStrafing = false → tanX = 0 ∧ tanY = 0) ∧
        (r1.isStrafing = true →
          (tanX, tanY)
            = (if held r1.btnState H.PB_RIGHT = true then
                (-(r1.dirY.tdiv 6), r1.dirX.tdiv 6)
               else if held r1.btnState H.PB_LEFT = true then
                (r1.dirY.tdiv 6, -(r1.dirX.tdiv 6))
               else (0, 0)))) ∧
      ((strafeLatch H s ray.btnState).isStrafing = true → cs = none →
        sameFacing r1 s ∧
        ∀ rm, movePlayer H r1 deltaX deltaY = some rm →
          ∃ r2, rayMainLoop H C ray evts elapsedUs = some r2 ∧ sameFacing r2 s) := by
  obtain ⟨ra, rb, r0, r1, dx0, dy0, _, hrae, _, hrbe, _, _, h0e, _, hts, h1e, hfd, hloop⟩ :=
    frame_steps H C ray evts elapsedUs s cs hin hm
  obtain ⟨r1b, dxb, dyb, htb, hns, hst, hunl⟩ := turnStep_delta H C r0 cs
  rw [hts] at htb
  injection htb with htb
  injection htb with htb hd
  injection hd with hdx hdy
  subst htb hdx hdy
  have hb1 : r1.btnState = s.btnState := by rw [h1e, h0e, hrbe, hrae]
  have hs0 : r0.isStrafing = (strafeLatch H s ray.btnState).isStrafing := by rw [h0e]
  have hs1 : r1.isStrafing = r0.isStrafing := by rw [h1e]
  have ho1 : r1.objs = s.objs := by rw [h1e, h0e, hrbe, hrae]
  refine ⟨r1, _, _, hfd, hb1, by rw [hs1, hs0], ⟨dx0, dy0, ?_, ?_, ?_, ?_⟩, ?_⟩
  · rw [walkDelta_eq]
  · rw [walkDelta_eq]
  · intro h; exact hns (by rw [← hs1]; exact h)
  · intro h; exact hst (by rw [← hs1]; exact h)
  · intro hstr hcs
    have h10 : r1 = r0 := hunl (by rw [hs0]; exact hstr) hcs
    have hsf : sameFacing r1 s := by
      rw [h10]
      refine ⟨?_, ?_, ?_, ?_, ?_⟩ <;> rw [h0e, hrbe, hrae]
    refine ⟨hsf, ?_⟩
    intro rm hmv
    obtain ⟨r2, hr2, _, h2e, hrme⟩ := rayMainLoop_of_move H C ray evts elapsedUs r1 rm _ _
      hloop hmv (by rw [ho1]; exact hp)
    refine ⟨r2, hr2, ?_⟩
    obtain ⟨g1, g2, g3, g4, g5⟩ := hsf
    refine ⟨?_, ?_, ?_, ?_, ?_⟩
    · rw [← g1, h2e, hrme]
    · rw [← g2, h2e, hrme]
    · rw [← g3, h2e, hrme]
    · rw [← g4, h2e, hrme]
    · rw [← g5, h2e, hrme]

/-- Witness of C17: the strafe button pressed in this frame with right and up held, no
centered sprite: the delta is `(42, 0) + (0, -42)` and the facing is kept. -/
theorem rayMainLoop_strafe_unlocked_witness :
    (frameInputs idleCollaborators northInOpen [0x29] 0
        = ({ northInOpen with btnState := 0x29 }, none) ∧
      mapInBounds northInOpen.map ∧
      sampleHeader.MAX_RAY_OBJS ≤ northInOpen.objs.length ∧
      (strafeLatch sampleHeader { northInOpen with btnState := 0x29 }
        northInOpen.btnState).isStrafing = true ∧
      frameDelta sampleHeader idleCollaborators northInOpen [0x29] 0
        = some ({ northInOpen with btnState := 0x29, isStrafing := true }, 42, -42)) ∧
    (∃ r2, rayMainLoop sampleHeader idleCollaborators northInOpen [0x29] 0 = some r2 ∧
      sameFacing r2 { northInOpen with btnState := 0x29 }) := by
  refine ⟨by decide, ?_⟩
  obtain ⟨r1, deltaX, deltaY, hfd, _, _, _, h⟩ :=
    rayMainLoop_strafe_unlocked sampleHeader idleCollaborators northInOpen [0x29] 0
      { northInOpen with btnState := 0x29 } none (by decide) (by decide) (by decide)
  have hd0 : frameDelta sampleHeader idleCollaborators northInOpen [0x29] 0
      = some ({ northInOpen with btnState := 0x29, isStrafing := true }, 42, -42) := by decide
  rw [hd0] at hfd
  injection hfd with hfd
  injection hfd with h1 h2
  injection h2 with h2 h3
  subst h1 h2 h3
  exact (h (by decide) rfl).2
    { northInOpen with btnState := 0x29, isStrafing := true, posX := 426, posY := 342 }
    (by decide)

/-! ### The player stays in passable cells -/

/-- A sixth of a direction component is at most 42 in size. -/
theorem tdiv6_bound (x : Int) (h0 : -256 ≤ x) (h1 : x ≤ 256) :
    -42 ≤ x.tdiv 6 ∧ x.tdiv 6 ≤ 42 := by
  have h := tdiv_pos_cases x 6 (by norm_num)
  rcases lt_or_le x 0 with hx | hx
  · rw [h.2 hx]; omega
  · rw [h.1 hx]; omega

/-- A quarter of a table entry is at most 256 in size. -/
theorem tdiv4_bound (x : Int) (h0 : -1024 ≤ x) (h1 : x ≤ 1024) :
    -256 ≤ x.tdiv 4 ∧ x.tdiv 4 ≤ 256 := by
  have h := tdiv_pos_cases x 4 (by norm_num)
  rcases lt_or_le x 0 with hx | hx
  · rw [h.2 hx]; omega
  · rw [h.1 hx]; omega

/-- The angle setter stores a direction within the unit of Q24.8. -/
theorem setPlayerAngle_dir_bound (ray r : ray_t) (angle : Int)
    (h : setPlayerAngle ray angle = some r) :
    (-256 ≤ r.dirX ∧ r.dirX ≤ 256) ∧ (-256 ≤ r.dirY ∧ r.dirY ≤ 256) := by
  obtain ⟨sn, hs, hs0, hs1⟩ := getSin1024_total (FROM_FX angle)
  obtain ⟨cs, hc, hc0, hc1⟩ := getCos1024_total (FROM_FX angle)
  rw [setPlayerAngle_eq ray angle sn cs hs hc] at h
  injection h with h
  rw [← h]
  exact ⟨tdiv4_bound sn hs0 hs1, tdiv4_bound (-cs) (by omega) (by omega)⟩

/-- The move keeps the player in a passable cell when the delta is under half a tile. -/
theorem movePlayer_stays (H : RayHeader) (ray rm : ray_t) (deltaX deltaY : Int)
    (own : rayMapCell_t)
    (hdx : -127 ≤ deltaX ∧ deltaX ≤ 127) (hdy : -127 ≤ deltaY ∧ deltaY ≤ 127)
    (hown : tileAt ray.map (FROM_FX ray.posX) (FROM_FX ray.posY) = some own)
    (hpass : isPassableCell H own = true)
    (hmv : movePlayer H ray deltaX deltaY = some rm) :
    ∃ cell, tileAt rm.map (FROM_FX rm.posX) (FROM_FX rm.posY) = some cell ∧
      isPassableCell H cell = true := by
  cases hx : tileAt ray.map (FROM_FX (ray.posX + deltaX * 2)) (FROM_FX ray.posY) with
  | none => simp [movePlayer, hx] at hmv
  | some cellX =>
    cases hy : tileAt ray.map
        (FROM_FX (if isPassableCell H cellX then ray.posX + deltaX else ray.posX))
        (FROM_FX (ray.posY + deltaY * 2)) with
    | none =>
      cases hpx : isPassableCell H cellX <;>
        simp only [hpx, Bool.false_eq_true, if_false, if_true] at hy <;>
        simp [movePlayer, hx, hpx, hy] at hmv
    | some cellY =>
      rw [movePlayer_eq H ray deltaX deltaY cellX cellY hx hy] at hmv
      injection hmv with hmv
      rw [← hmv]
      simp only
      have hcolX : ∃ c1, tileAt ray.map
          (FROM_FX (if isPassableCell H cellX then ray.posX + deltaX else ray.posX))
          (FROM_FX ray.posY) = some c1 ∧ isPassableCell H c1 = true := by
        by_cases hpx : isPassableCell H cellX = true
        · rw [if_pos hpx]
          have hcases : FROM_FX (ray.posX + deltaX) = FROM_FX ray.posX ∨
              FROM_FX (ray.posX + deltaX) = FROM_FX (ray.posX + deltaX * 2) := by
            simp only [FROM_FX_eq]; omega
          rcases hcases with e | e
          · rw [e]; exact ⟨own, hown, hpass⟩
          · rw [e]; exact ⟨cellX, hx, hpx⟩
        · rw [if_neg hpx]; exact ⟨own, hown, hpass⟩
      obtain ⟨c1, hc1, hp1⟩ := hcolX
      by_cases hpy : isPassableCell H cellY = true
      · rw [if_pos hpy]
        have hcases : FROM_FX (ray.posY + deltaY) = FROM_FX ray.posY ∨
            FROM_FX (ray.posY + deltaY) = FROM_FX (ray.posY + deltaY * 2) := by
          simp only [FROM_FX_eq]; omega
        rcases hcases with e | e
        · rw [e]; exact ⟨c1, hc1, hp1⟩
        · rw [e]; exact ⟨cellY, hy, hpy⟩
      · rw [if_neg hpy]; exact ⟨c1, hc1, hp1⟩

/-- The delta of a frame is at most 84 in each component when the direction is within the
unit of Q24.8. -/
theorem frameDelta_bound (H : RayHeader) (C : Collaborators) (ray : ray_t)
    (evts : List Nat) (elapsedUs : Int) (s : ray_t) (cs : Option rayObj_t)
    (hin : frameInputs C ray evts elapsedUs = (s, cs)) (hm : mapInBounds s.map)
    (hdx : -256 ≤ s.dirX ∧ s.dirX ≤ 256) (hdy : -256 ≤ s.dirY ∧ s.dirY ≤ 256) :
    ∃ r1 deltaX deltaY, frameDelta H C ray evts elapsedUs = some (r1, deltaX, deltaY) ∧
      r1.posX = s.posX ∧ r1.posY = s.posY ∧ r1.objs = s.objs ∧
      (-84 ≤ deltaX ∧ deltaX ≤ 84) ∧ (-84 ≤ deltaY ∧ deltaY ≤ 84) ∧
      rayMainLoop H C ray evts elapsedUs
        = (movePlayer H r1 deltaX deltaY).bind (fun rm => fireStep H C rm ray.btnState) := by
  obtain ⟨ra, rb, r0, r1, dx0, dy0, _, hrae, _, hrbe, _, _, h0e, _, hts, h1e, hfd, hloop⟩ :=
    frame_steps H C ray evts elapsedUs s cs hin hm
  have hb0 : (-256 ≤ r0.dirX ∧ r0.dirX ≤ 256) ∧ (-256 ≤ r0.dirY ∧ r0.dirY ≤ 256) := by
    have e1 : r0.dirX = s.dirX := by rw [h0e, hrbe, hrae]
    have e2 : r0.dirY = s.dirY := by rw [h0e, hrbe, hrae]
    rw [e1, e2]; exact ⟨hdx, hdy⟩
  obtain ⟨r1b, dxb, dyb, htb, hb1⟩ := turnStep_preserves
    (fun r => (-256 ≤ r.dirX ∧ r.dirX ≤ 256) ∧ (-256 ≤ r.dirY ∧ r.dirY ≤ 256))
    (fun r angle r2 h => setPlayerAngle_dir_bound r r2 angle h) H C r0 cs hb0
  rw [hts] at htb
  injection htb with htb
  injection htb with htb _
  subst htb
  obtain ⟨r1c, dxc, dyc, htc, hns, hst, _⟩ := turnStep_delta H C r0 cs
  rw [hts] at htc
  injection htc with htc
  injection htc with htc hd
  injection hd with hdx0 hdy0
  subst htc hdx0 hdy0
  have hX := tdiv6_bound r1.dirX hb1.1.1 hb1.1.2
  have hY := tdiv6_bound r1.dirY hb1.2.1 hb1.2.2
  have htan : (-42 ≤ dx0 ∧ dx0 ≤ 42) ∧ (-42 ≤ dy0 ∧ dy0 ≤ 42) := by
    cases hstr : r0.isStrafing with
    | false =>
      obtain ⟨e1, e2⟩ := hns hstr
      rw [e1, e2]; exact ⟨by decide, by decide⟩
    | true =>
      have hv := hst hstr
      by_cases hr : held r1.btnState H.PB_RIGHT = true
      · rw [if_pos hr] at hv
        injection hv with e1 e2
        rw [e1, e2]; omega
      · by_cases hl : held r1.btnState H.PB_LEFT = true
        · rw [if_neg hr, if_pos hl] at hv
          injection hv with e1 e2
          rw [e1, e2]; omega
        · rw [if_neg hr, if_neg hl] at hv
          injection hv with e1 e2
          rw [e1, e2]; exact ⟨by decide, by decide⟩
  have hfwd : (-42 ≤ (if held r1.btnState H.PB_UP = true then
          (r1.dirX.tdiv 6, r1.dirY.tdiv 6)
        else if held r1.btnState H.PB_DOWN = true then
          (-(r1.dirX.tdiv 6), -(r1.dirY.tdiv 6))
        else (0, 0)).1 ∧
      (if held r1.btnState H.PB_UP = true then
          (r1.dirX.tdiv 6, r1.dirY.tdiv 6)
        else if held r1.btnState H.PB_DOWN = true then
          (-(r1.dirX.tdiv 6), -(r1.dirY.tdiv 6))
        else (0, 0)).1 ≤ 42) ∧
      (-42 ≤ (if held r1.btnState H.PB_UP = true then
          (r1.dirX.tdiv 6, r1.dirY.tdiv 6)
        else if held r1.btnState H.PB_DOWN = true then
          (-(r1.dirX.tdiv 6), -(r1.dirY.tdiv 6))
        else (0, 0)).2 ∧
      (if held r1.btnState H.PB_UP = true then
          (r1.dirX.tdiv 6, r1.dirY.tdiv 6)
        else if held r1.btnState H.PB_DOWN = true then
          (-(r1.dirX.tdiv 6), -(r1.dirY.tdiv 6))
        else (0, 0)).2 ≤ 42) := by
    by_cases hu : held r1.btnState H.PB_UP = true
    · simp only [if_pos hu]; exact ⟨hX, hY⟩
    · by_cases hd : held r1.btnState H.PB_DOWN = true
      · simp only [if_neg hu, if_pos hd]; omega
      · simp only [if_neg hu, if_neg hd]; exact ⟨by decide, by decide⟩
  have hw := walkDelta_eq H r1 dx0 dy0
  refine ⟨r1, _, _, hfd, by rw [h1e, h0e, hrbe, hrae], by rw [h1e, h0e, hrbe, hrae],
    by rw [h1e, h0e, hrbe, hrae], ?_, ?_, hloop⟩
  · rw [hw]; simp only; omega
  · rw [hw]; simp only; omega

/-- Claim C19: the player never ends a frame inside an impassable cell. When the direction
is within `|dirX| ≤ 256` and `|dirY| ≤ 256` and the cell of `(posX, posY)` is passable when
the move starts, the cell of the position after the move of `rayMainLoop` is passable too,
for every button state and strafing state: each component of the delta is at most 84, so
twice the delta is under a tile. -/
theorem rayMainLoop_stays_passable (H : RayHeader) (C : Collaborators) (ray : ray_t)
    (evts : List Nat) (elapsedUs : Int) (s : ray_t) (cs : Option rayObj_t)
    (hin : frameInputs C ray evts elapsedUs = (s, cs)) (hm : mapInBounds s.map)
    (hp : H.MAX_RAY_OBJS ≤ s.objs.length)
    (hdx : -256 ≤ s.dirX ∧ s.dirX ≤ 256) (hdy : -256 ≤ s.dirY ∧ s.dirY ≤ 256) :
    ∃ r1 deltaX deltaY, frameDelta H C ray evts elapsedUs = some (r1, deltaX, deltaY) ∧
      r1.posX = s.posX ∧ r1.posY = s.posY ∧
      (-84 ≤ deltaX ∧ deltaX ≤ 84) ∧ (-84 ≤ deltaY ∧ deltaY ≤ 84) ∧
      ∀ own, tileAt r1.map (FROM_FX r1.posX) (FROM_FX r1.posY) = some own →
        isPassableCell H own = true →
        ∀ rm, movePlayer H r1 deltaX deltaY = some rm →
          ∃ r2 cell, rayMainLoop H C ray evts elapsedUs = some r2 ∧ r2.map = r1.map ∧
            tileAt r2.map (FROM_FX r2.posX) (FROM_FX r2.posY) = some cell ∧
            isPassableCell H cell = true := by
  obtain ⟨r1, dx, dy, hfd, hx1, hy1, ho1, hbx, hby, hloop⟩ :=
    frameDelta_bound H C ray evts elapsedUs s cs hin hm hdx hdy
  refine ⟨r1, dx, dy, hfd, hx1, hy1, hbx, hby, ?_⟩
  intro own hown hpass rm hmv
  obtain ⟨cell, hcell, hpc⟩ := movePlayer_stays H r1 rm dx dy own (by omega) (by omega)
    hown hpass hmv
  obtain ⟨r2, hr2, _, h2e, hrme⟩ := rayMainLoop_of_move H C ray evts elapsedUs r1 rm dx dy
    hloop hmv (by rw [ho1]; exact hp)
  have e1 : r2.map = rm.map := by rw [h2e]
  have e2 : r2.posX = rm.posX := by rw [h2e]
  have e3 : r2.posY = rm.posY := by rw [h2e]
  have e4 : rm.map = r1.map := by rw [hrme]
  exact ⟨r2, cell, hr2, by rw [e1, e4], by rw [e1, e2, e3]; exact hcell, hpc⟩

/-- Witness of C19 at the corner of C10: the X step takes the player into the floor cell
`(2, 1)`, and the wall at `(2, 2)` stops the Y step. -/
theorem rayMainLoop_stays_passable_witness :
    (frameInputs idleCollaborators diagonalAtCorner [] 0 = (diagonalAtCorner, none) ∧
      mapInBounds diagonalAtCorner.map ∧
      sampleHeader.MAX_RAY_OBJS ≤ diagonalAtCorner.objs.length ∧
      (-256 ≤ diagonalAtCorner.dirX ∧ diagonalAtCorner.dirX ≤ 256) ∧
      (-256 ≤ diagonalAtCorner.dirY ∧ diagonalAtCorner.dirY ≤ 256) ∧
      tileAt diagonalAtCorner.map (FROM_FX 506) (FROM_FX 506) = some floorCell ∧
      isPassableCell sampleHeader floorCell = true) ∧
    (∃ r2 cell, rayMainLoop sampleHeader idleCollaborators diagonalAtCorner [] 0 = some r2 ∧
      r2.map = diagonalAtCorner.map ∧
      tileAt r2.map (FROM_FX r2.posX) (FROM_FX r2.posY) = some cell ∧
      isPassableCell sampleHeader cell = true) := by
  refine ⟨by decide, ?_⟩
  obtain ⟨r1, deltaX, deltaY, hfd, _, _, _, _, h⟩ :=
    rayMainLoop_stays_passable sampleHeader idleCollaborators diagonalAtCorner [] 0
      diagonalAtCorner none (by decide) (by decide) (by decide) (by decide) (by decide)
  have hd0 : frameDelta sampleHeader idleCollaborators diagonalAtCorner [] 0
      = some (diagonalAtCorner, 30, 30) := by decide
  rw [hd0] at hfd
  injection hfd with hfd
  injection hfd with h1 h2
  injection h2 with h2 h3
  subst h1 h2 h3
  exact h floorCell (by decide) (by decide) { diagonalAtCorner with posX := 536 } (by decide)

/-! ### Head bob -/

/-- A consistent head bob has offset 0 at phase 0 and an offset within 4096. -/
theorem bobConsistent_facts (r : ray_t) (h : bobConsistent r) :
    (r.bobCount = 0 → r.posZ = 0) ∧ (-4096 ≤ r.posZ ∧ r.posZ ≤ 4096) := by
  obtain ⟨_, _, hz⟩ := h
  obtain ⟨v, hv, hv0, hv1⟩ := getSin1024_total r.bobCount
  rw [hv, Option.map_some'] at hz
  injection hz with hz
  refine ⟨?_, by omega⟩
  intro h0
  rw [h0] at hv
  have e : getSin1024 0 = some 0 := by decide
  rw [e] at hv
  injection hv with hv
  omega

/-- One pass of the head-bob loop keeps the head bob consistent. -/
theorem bobStep_consistent (H : RayHeader) (ray : ray_t) (h : bobConsistent ray) :
    ∃ r, bobStep H ray = some r ∧ bobConsistent r := by
  obtain ⟨hc0, hc1, hz⟩ := h
  unfold bobStep
  simp only
  by_cases hcond : held ray.btnState (H.PB_UP ||| H.PB_DOWN) = true ∨
      (0 ≠ ray.bobCount ∧ 180 ≠ ray.bobCount)
  · rw [if_pos hcond]
    by_cases hw : 360 = ray.bobCount + 1
    · rw [if_pos hw]
      obtain ⟨v, hv, _⟩ := getSin1024_total 0
      simp only [hv, Option.map_some']
      exact ⟨_, rfl, le_refl _, (by show (0 : Int) ≤ 359; decide),
        by simp only [hv, Option.map_some']⟩
    · rw [if_neg hw]
      obtain ⟨v, hv, _⟩ := getSin1024_total (ray.bobCount + 1)
      simp only [hv, Option.map_some']
      exact ⟨_, rfl, by show 0 ≤ ray.bobCount + 1; omega,
        by show ray.bobCount + 1 ≤ 359; omega, by simp only [hv, Option.map_some']⟩
  · rw [if_neg hcond]
    refine ⟨_, rfl, le_refl _, (by show (0 : Int) ≤ 359; decide), ?_⟩
    show (getSin1024 0).map (fun v => v * 4) = some ray.posZ
    have hcase : ray.bobCount = 0 ∨ ray.bobCount = 180 := by
      by_contra hne
      apply hcond
      right
      constructor
      · intro h0; exact hne (Or.inl h0.symm)
      · intro h180; exact hne (Or.inr h180.symm)
    rcases hcase with e | e
    · rw [e] at hz; exact hz
    · rw [e] at hz
      have e180 : (getSin1024 180).map (fun v => v * 4) = some 0 := by decide
      have e0 : (getSin1024 0).map (fun v => v * 4) = some 0 := by decide
      rw [e180] at hz
      rw [e0]; exact hz

/-- The head-bob loop keeps the head bob consistent. -/
theorem bobLoop_consistent (H : RayHeader) : ∀ (fuel : Nat) (ray : ray_t),
    ray.bobTimer ≤ fuel → bobConsistent ray →
    ∃ r, bobLoop H fuel ray = some r ∧ bobConsistent r := by
  intro fuel
  induction fuel with
  | zero =>
    intro ray hf h
    refine ⟨ray, ?_, h⟩
    unfold bobLoop
    rw [if_neg (by simp only [Nat.cast_zero] at hf; omega)]
  | succ n ih =>
    intro ray hf h
    unfold bobLoop
    by_cases hc : ray.bobTimer > 2500
    · rw [if_pos hc]
      obtain ⟨r1, h1, hP1⟩ := bobStep_consistent H ray h
      obtain ⟨r1b, h1b, ht, _⟩ := bobStep_total H ray
      rw [h1] at h1b
      injection h1b with h1b
      subst h1b
      rw [h1, Option.some_bind]
      exact ih r1 (by simp only [Nat.cast_add, Nat.cast_one] at hf; omega) hP1
    · rw [if_neg hc]; exact ⟨ray, rfl, h⟩

/-- The head-bob timer keeps the head bob consistent, for every elapsed time. -/
theorem bobTimerRun_consistent (H : RayHeader) (ray : ray_t) (elapsedUs : Int)
    (h : bobConsistent ray) :
    ∃ r, bobTimerRun H ray elapsedUs = some r ∧ bobConsistent r := by
  unfold bobTimerRun
  exact bobLoop_consistent H (ray.bobTimer + elapsedUs).toNat
    { ray with bobTimer := ray.bobTimer + elapsedUs } (by simp only; omega) h

/-- Claim C20: head-bob invariant. If before `rayMainLoop` the phase is in `[0, 359]` and
`posZ = getSin1024 bobCount * 4`, the same holds after it, for every elapsed time and button
state, the collaborators not writing the two fields; so `posZ = 0` whenever the phase is 0,
and `|posZ| ≤ 4096`. The invariant holds after `rayEnterMode`. -/
theorem rayMainLoop_bob_consistent (H : RayHeader) (C : Collaborators) (ray : ray_t)
    (evts : List Nat) (elapsedUs : Int) (s : ray_t) (cs : Option rayObj_t)
    (hin : frameInputs C ray evts elapsedUs = (s, cs)) (hm : mapInBounds s.map)
    (hp : H.MAX_RAY_OBJS ≤ s.objs.length)
    (hcol : s.bobCount = ray.bobCount ∧ s.posZ = ray.posZ) (hinv : bobConsistent ray) :
    (∃ r1 deltaX deltaY, frameDelta H C ray evts elapsedUs = some (r1, deltaX, deltaY) ∧
      bobConsistent r1 ∧ (r1.bobCount = 0 → r1.posZ = 0) ∧
      (-4096 ≤ r1.posZ ∧ r1.posZ ≤ 4096) ∧
      ∀ rm, movePlayer H r1 deltaX deltaY = some rm →
        ∃ r2, rayMainLoop H C ray evts elapsedUs = some r2 ∧ bobConsistent r2 ∧
          (r2.bobCount = 0 → r2.posZ = 0) ∧ (-4096 ≤ r2.posZ ∧ r2.posZ ≤ 4096)) ∧
    ((∀ r, (C.loadRayMap r).bobCount = r.bobCount) →
      (∀ r, (C.initLoadedTextures r).bobCount = r.bobCount ∧
        (C.initLoadedTextures r).posZ = r.posZ) →
      ∃ r, rayEnterMode H C = some r ∧ bobConsistent r) := by
  constructor
  · obtain ⟨ra, rb, r0, r1, dx0, dy0, hra, hrae, _, hrbe, _, _, h0e, _, _, h1e, hfd, hloop⟩ :=
      frame_steps H C ray evts elapsedUs s cs hin hm
    have hs : bobConsistent s := by
      unfold bobConsistent
      rw [hcol.1, hcol.2]; exact hinv
    obtain ⟨rab, hrab, hPa⟩ := bobTimerRun_consistent H s elapsedUs hs
    rw [hra] at hrab
    injection hrab with hrab
    subst hrab
    have c1 : r1.bobCount = ra.bobCount := by rw [h1e, h0e, hrbe]
    have z1 : r1.posZ = ra.posZ := by rw [h1e, h0e, hrbe]
    have hP1 : bobConsistent r1 := by
      unfold bobConsistent
      rw [c1, z1]; exact hPa
    have ho1 : r1.objs = s.objs := by rw [h1e, h0e, hrbe, hrae]
    refine ⟨r1, _, _, hfd, hP1, (bobConsistent_facts r1 hP1).1, (bobConsistent_facts r1 hP1).2,
      ?_⟩
    intro rm hmv
    obtain ⟨r2, hr2, _, h2e, hrme⟩ := rayMainLoop_of_move H C ray evts elapsedUs r1 rm _ _
      hloop hmv (by rw [ho1]; exact hp)
    have c2 : r2.bobCount = r1.bobCount := by rw [h2e, hrme]
    have z2 : r2.posZ = r1.posZ := by rw [h2e, hrme]
    have hP2 : bobConsistent r2 := by
      unfold bobConsistent
      rw [c2, z2]; exact hP1
    exact ⟨r2, hr2, hP2, (bobConsistent_facts r2 hP2).1, (bobConsistent_facts r2 hP2).2⟩
  · intro hload htex
    unfold rayEnterMode
    simp only [Option.bind_eq_bind]
    obtain ⟨r, hr, hre⟩ := setPlayerAngle_total
      { C.loadRayMap { zeroRay H with
            objs := (zeroRay H).objs.map (fun o => { o with id := -1 }) } with
          posX := TO_FX (C.loadRayMap { zeroRay H with
            objs := (zeroRay H).objs.map (fun o => { o with id := -1 }) }).posX
              + shl 1 (FRAC_BITS - 1),
          posY := TO_FX (C.loadRayMap { zeroRay H with
            objs := (zeroRay H).objs.map (fun o => { o with id := -1 }) }).posY
              + shl 1 (FRAC_BITS - 1) }
      (TO_FX 0)
    simp only [hr, Option.some_bind, Option.pure_def]
    refine ⟨_, rfl, ?_⟩
    have hc : r.bobCount = 0 := by
      rw [hre]
      show (C.loadRayMap _).bobCount = 0
      rw [hload]
      rfl
    unfold bobConsistent
    rw [(htex _).1, (htex _).2]
    show 0 ≤ r.bobCount ∧ r.bobCount ≤ 359 ∧
      (getSin1024 r.bobCount).map (fun v => v * 4) = some (TO_FX 0)
    rw [hc]
    decide

/-- Witness of C20: a walking frame of 2501 microseconds advances the phase to 1 and the
offset to 72; mode entry leaves phase 0 and offset 0. -/
theorem rayMainLoop_bob_consistent_witness :
    (frameInputs idleCollaborators northInOpen [] 2501 = (northInOpen, none) ∧
      mapInBounds northInOpen.map ∧
      sampleHeader.MAX_RAY_OBJS ≤ northInOpen.objs.length ∧
      bobConsistent northInOpen ∧
      (rayMainLoop sampleHeader idleCollaborators northInOpen [] 2501).map
        (fun r => (r.bobCount, r.posZ)) = some (1, 72)) ∧
    (∃ r2, rayMainLoop sampleHeader idleCollaborators northInOpen [] 2501 = some r2 ∧
      bobConsistent r2) ∧
    (∃ r, rayEnterMode sampleHeader idleCollaborators = some r ∧ bobConsistent r) := by
  have hthm := rayMainLoop_bob_consistent sampleHeader idleCollaborators northInOpen [] 2501
    northInOpen none (by decide) (by decide) (by decide) ⟨rfl, rfl⟩ (by decide)
  refine ⟨by decide, ?_, hthm.2 (fun r => rfl) (fun r => ⟨rfl, rfl⟩)⟩
  obtain ⟨r1, deltaX, deltaY, hfd, _, _, _, h⟩ := hthm.1
  have hd0 : frameDelta sampleHeader idleCollaborators northInOpen [] 2501
      = some
        ({ northInOpen with bobTimer := 1, bobCount := 1, posZ := 72, doorTimer := 2501 },
          0, -42) := by decide
  rw [hd0] at hfd
  injection hfd with hfd
  injection hfd with h1 h2
  injection h2 with h2 h3
  subst h1 h2 h3
  obtain ⟨r2, hr2, hP2, _⟩ := h
    { northInOpen with bobTimer := 1, bobCount := 1, posZ := 72, doorTimer := 2501, posY := 342 }
    (by decide)
  exact ⟨r2, hr2, hP2⟩

/-- Evaluation for C12: with the accumulator at 0, the phase at 0, the up button held and
`elapsedUs = 2500`, the loop `while (bobTimer > 2500)` does not run: the accumulator is left
at 2500, the phase at 0 and `posZ` at 0, where one step would give phase 1 and
`posZ = getSin1024 1 * 4 = 72`. One microsecond more and the step runs. -/
theorem rayMainLoop_bob_skips_exact_period :
    (northInOpen.bobTimer = 0 ∧ northInOpen.bobCount = 0 ∧ northInOpen.posZ = 0 ∧
      held northInOpen.btnState sampleHeader.PB_UP = true) ∧
    (rayMainLoop sampleHeader idleCollaborators northInOpen [] 2500).map
      (fun r => (r.bobTimer, r.bobCount, r.posZ)) = some (2500, 0, 0) ∧
    (getSin1024 1).map (fun v => v * 4) = some 72 ∧
    (rayMainLoop sampleHeader idleCollaborators northInOpen [] 2501).map
      (fun r => (r.bobTimer, r.bobCount, r.posZ)) = some (1, 1, 72) ∧
    (rayMainLoop sampleHeader idleCollaborators amongDoors [] 5000).map
      (fun r => r.doorTimer) = some 0 := by
  decide

/-- Evaluation for C18: at `d = 10` the lookup of `180 - d` reads `tan1024[80]`, so
`getTan1024 170 = -5807` while `-getTan1024 10 = -181`. -/
theorem getTan1024_reflection_fails :
    ((0 : Int) ≤ 10 ∧ (10 : Int) ≤ 180) ∧
    getTan1024 (180 - 10) = some (-5807) ∧ getTan1024 10 = some 181 ∧
    tan1024[80]? = some 5807 ∧ tan1024[10]? = some 181 ∧
    getTan1024 (180 - 10) ≠ (getTan1024 10).map (fun v => -v) := by
  decide

/-! ### Door values under the door timer -/

/-- The door step run `k` times on one cell: a door in mid-animation is `k` steps further,
stopping at `TO_FX 1`; any other cell is as it was. -/
theorem doorBump_iterate (k : Nat) : ∀ c : rayMapCell_t,
    doorBump^[k] c
      = if 0 < c.doorOpen ∧ c.doorOpen < TO_FX 1 then
          { c with doorOpen := min (TO_FX 1) (c.doorOpen + (k : Int)) }
        else c := by
  have h256 : TO_FX 1 = 256 := by decide
  induction k with
  | zero =>
    intro c
    rw [Function.iterate_zero, id_eq]
    split
    · rename_i h
      have e : min (TO_FX 1) (c.doorOpen + ((0 : Nat) : Int)) = c.doorOpen := by
        rw [h256] at h ⊢
        simp only [Nat.cast_zero, add_zero]
        exact min_eq_right (by omega)
      rw [e]
    · rfl
  | succ k ih =>
    intro c
    rw [Function.iterate_succ_apply]
    by_cases h : 0 < c.doorOpen ∧ c.doorOpen < TO_FX 1
    · have hb : doorBump c = { c with doorOpen := c.doorOpen + 1 } := by
        unfold doorBump
        rw [if_pos ⟨h.1, h.2⟩]
      rw [hb, ih, if_pos h]
      dsimp only
      rw [h256] at h ⊢
      by_cases h2 : 0 < c.doorOpen + 1 ∧ c.doorOpen + 1 < 256
      · rw [if_pos h2]
        have e : c.doorOpen + 1 + (k : Int) = c.doorOpen + ((k + 1 : Nat) : Int) := by
          push_cast; omega
        rw [e]
      · rw [if_neg h2]
        have e : min (256 : Int) (c.doorOpen + ((k + 1 : Nat) : Int)) = c.doorOpen + 1 := by
          rw [min_eq_left (by push_cast; omega)]; omega
        rw [e]
    · have hb : doorBump c = c := by
        unfold doorBump
        rw [if_neg (fun hc => h ⟨hc.1, hc.2⟩)]
      rw [hb, ih, if_neg h, if_neg h]

/-- The door step run `k` times: every cell inside the `w` by `h` grid is bumped `k` times,
the grid keeps its shape. -/
theorem doorSteps_spec (k : Nat) : ∀ (m : rayMap_t), mapInBounds m →
    ∃ m2, doorSteps k m = some m2 ∧ m2.w = m.w ∧ m2.h = m.h ∧ mapInBounds m2 ∧
      ∀ x2 y2, cellAt m2 x2 y2
        = if x2 < m.w.toNat ∧ y2 < m.h.toNat then (cellAt m x2 y2).map (doorBump^[k])
          else cellAt m x2 y2 := by
  induction k with
  | zero =>
    intro m hm
    refine ⟨m, rfl, rfl, rfl, hm, ?_⟩
    intro x2 y2
    rw [Function.iterate_zero, Option.map_id, id_eq, ite_self]
  | succ k ih =>
    intro m hm
    obtain ⟨m1, h1, hw1, hh1, hb1, hc1⟩ := doorStep_spec m hm
    obtain ⟨m2, h2, hw2, hh2, hb2, hc2⟩ := ih m1 hb1
    refine ⟨m2, ?_, by rw [hw2, hw1], by rw [hh2, hh1], hb2, ?_⟩
    · show (doorStep m).bind (doorSteps k) = some m2
      rw [h1, Option.some_bind]; exact h2
    · intro x2 y2
      rw [hc2 x2 y2, hc1 x2 y2, hw1, hh1]
      by_cases h : x2 < m.w.toNat ∧ y2 < m.h.toNat
      · rw [if_pos h, if_pos h, if_pos h, Option.map_map, Function.iterate_succ]
      · rw [if_neg h, if_neg h, if_neg h]

/-- The door timer returns on any elapsed time, and what it does to the map is some number of
door steps: `floor (total / 5000)` of them when the total is not negative. -/
theorem doorTimerRun_steps (ray : ray_t) (elapsedUs : Int) (hm : mapInBounds ray.map) :
    ∃ k rb, doorTimerRun ray elapsedUs = some rb ∧ doorSteps k ray.map = some rb.map ∧
      (0 ≤ ray.doorTimer + elapsedUs → k = ((ray.doorTimer + elapsedUs) / 5000).toNat) := by
  by_cases h0 : 0 ≤ ray.doorTimer + elapsedUs
  · obtain ⟨m, hs, _, hrun⟩ := doorTimerRun_count ray elapsedUs hm h0
    exact ⟨_, _, hrun, hs, fun _ => rfl⟩
  · refine ⟨0, { ray with doorTimer := ray.doorTimer + elapsedUs }, ?_, rfl,
      fun h => absurd h h0⟩
    unfold doorTimerRun
    have hz : (ray.doorTimer + elapsedUs).toNat = 0 := by omega
    simp only [hz]
    unfold doorLoop
    rw [if_neg (by simp only; omega)]

/-- What `k` door steps do to a cell: the type is kept, the progress does not go down and does
not pass `TO_FX 1`, a closed and a fully open door stay put, and a door in mid-animation is at
`min (TO_FX 1) (v + k)`. -/
theorem doorBump_iterate_facts (k : Nat) (c : rayMapCell_t) :
    (doorBump^[k] c).type = c.type ∧
    c.doorOpen ≤ (doorBump^[k] c).doorOpen ∧
    (c.doorOpen ≤ TO_FX 1 → (doorBump^[k] c).doorOpen ≤ TO_FX 1) ∧
    (c.doorOpen = 0 → (doorBump^[k] c).doorOpen = 0) ∧
    (c.doorOpen = TO_FX 1 → (doorBump^[k] c).doorOpen = TO_FX 1) ∧
    (0 < c.doorOpen → c.doorOpen < TO_FX 1 →
      (doorBump^[k] c).doorOpen = min (TO_FX 1) (c.doorOpen + (k : Int))) := by
  have h256 : TO_FX 1 = 256 := by decide
  rw [doorBump_iterate k c]
  by_cases h : 0 < c.doorOpen ∧ c.doorOpen < TO_FX 1
  · rw [if_pos h]
    dsimp only
    rw [h256] at h ⊢
    refine ⟨rfl, ?_, ?_, ?_, ?_, ?_⟩
    · omega
    · intro _; omega
    · intro h0; omega
    · intro h0; omega
    · intro _ _; rfl
  · rw [if_neg h]
    refine ⟨rfl, le_refl _, fun h1 => h1, fun h0 => h0, fun h0 => h0, ?_⟩
    intro h1 h2
    exact absurd ⟨h1, h2⟩ h

/-- A read of the grid that gives a cell is a read at non-negative indices. -/
theorem tileAt_some_nonneg (m : rayMap_t) (x y : Int) (c : rayMapCell_t)
    (h : tileAt m x y = some c) : 0 ≤ x ∧ 0 ≤ y := by
  by_cases hxy : 0 ≤ x ∧ 0 ≤ y
  · exact hxy
  · unfold tileAt at h
    rw [if_neg hxy] at h
    exact absurd h (by simp)

/-- Claim C21: door-open values stay in range and only grow under the door timer of
`rayMainLoop`, started on the state `s` that the button queue and the collaborators leave. On
every elapsed time the timers return, and what the door timer did to the map is `k` door steps (`floor ((a + e) / 5000)` of them when the total is not negative). Every cell
of the map keeps its type and its new `doorOpen` is at least the old one; it is at most
`TO_FX 1` when the old one was; a cell at 0 stays at 0 and a cell at `TO_FX 1` stays at
`TO_FX 1`. After `k` door steps, for every `k`, a cell inside the `w` by `h` grid that started
at `v` with `0 < v < TO_FX 1` holds `min (TO_FX 1) (v + k)`, so that a door cell is passable
from the step on at which `v + k` reaches `TO_FX 1`. The rest of the frame keeps the map. -/
theorem rayMainLoop_doorOpen_in_range (H : RayHeader) (C : Collaborators) (ray : ray_t)
    (evts : List Nat) (elapsedUs : Int) (s : ray_t) (cs : Option rayObj_t)
    (hin : frameInputs C ray evts elapsedUs = (s, cs)) (hm : mapInBounds s.map) :
    (∃ r0 k, frameTimers H C ray evts elapsedUs = some (r0, cs) ∧
      doorSteps k s.map = some r0.map ∧
      (0 ≤ s.doorTimer + elapsedUs → k = ((s.doorTimer + elapsedUs) / 5000).toNat) ∧
      ∀ (x y : Int) (c : rayMapCell_t), tileAt s.map x y = some c →
        ∃ c2, tileAt r0.map x y = some c2 ∧ c2.type = c.type ∧
          c.doorOpen ≤ c2.doorOpen ∧
          (c.doorOpen ≤ TO_FX 1 → c2.doorOpen ≤ TO_FX 1) ∧
          (c.doorOpen = 0 → c2.doorOpen = 0) ∧
          (c.doorOpen = TO_FX 1 → c2.doorOpen = TO_FX 1) ∧
          (x < s.map.w → y < s.map.h → 0 < c.doorOpen → c.doorOpen < TO_FX 1 →
            c2.doorOpen = min (TO_FX 1) (c.doorOpen + (k : Int)))) ∧
    (∀ k : Nat, ∃ m, doorSteps k s.map = some m ∧
      ∀ (x y : Int) (c : rayMapCell_t), x < s.map.w → y < s.map.h →
        tileAt s.map x y = some c → 0 < c.doorOpen → c.doorOpen < TO_FX 1 →
        ∃ c2, tileAt m x y = some c2 ∧
          c2.doorOpen = min (TO_FX 1) (c.doorOpen + (k : Int)) ∧
          (H.CELL_IS_TYPE c.type (H.BG ||| H.WALL) = false →
            H.CELL_IS_TYPE c.type (H.BG ||| H.DOOR) = true →
            (isPassableCell H c2 = true ↔ TO_FX 1 ≤ c.doorOpen + (k : Int)))) ∧
    (∀ r0 r2, frameTimers H C ray evts elapsedUs = some (r0, cs) →
      rayMainLoop H C ray evts elapsedUs = some r2 → r2.map = r0.map) := by
  obtain ⟨ra, rb, r0, r1, dx0, dy0, hra, hrae, hrb, hrbe, hrbm, _, h0e, hft, _, _, _, _⟩ :=
    frame_steps H C ray evts elapsedUs s cs hin hm
  have hma : mapInBounds ra.map := by rw [hrae]; exact hm
  have hat : ra.doorTimer = s.doorTimer := by rw [hrae]
  have ham : ra.map = s.map := by rw [hrae]
  have h0m : r0.map = rb.map := by rw [h0e]
  refine ⟨?_, ?_, ?_⟩
  · obtain ⟨k, rb2, hrun, hsteps, hk⟩ := doorTimerRun_steps ra elapsedUs hma
    rw [hrb] at hrun
    injection hrun with hrun
    subst hrun
    rw [ham] at hsteps
    rw [hat] at hk
    obtain ⟨m2, hs2, _, _, _, hcells⟩ := doorSteps_spec k s.map hm
    have hm2 : m2 = rb.map := by
      rw [hs2] at hsteps
      injection hsteps
    refine ⟨r0, k, hft, by rw [h0m]; exact hsteps, hk, ?_⟩
    intro x y c hc
    obtain ⟨hx0, hy0⟩ := tileAt_some_nonneg _ x y c hc
    rw [tileAt_eq_cellAt _ x y hx0 hy0] at hc
    have hf := doorBump_iterate_facts k c
    by_cases hg : x.toNat < s.map.w.toNat ∧ y.toNat < s.map.h.toNat
    · refine ⟨doorBump^[k] c, ?_, hf.1, hf.2.1, hf.2.2.1, hf.2.2.2.1, hf.2.2.2.2.1,
        fun _ _ h1 h2 => hf.2.2.2.2.2 h1 h2⟩
      rw [tileAt_eq_cellAt _ x y hx0 hy0, h0m, ← hm2, hcells x.toNat y.toNat, if_pos hg, hc]
      rfl
    · refine ⟨c, ?_, rfl, le_refl _, fun h => h, fun h => h, fun h => h, ?_⟩
      · rw [tileAt_eq_cellAt _ x y hx0 hy0, h0m, ← hm2, hcells x.toNat y.toNat, if_neg hg, hc]
      · intro hxw hyh _ _
        exact absurd ⟨by omega, by omega⟩ hg
  · intro k
    obtain ⟨m2, hs2, _, _, _, hcells⟩ := doorSteps_spec k s.map hm
    refine ⟨m2, hs2, ?_⟩
    intro x y c hxw hyh hc h1 h2
    obtain ⟨hx0, hy0⟩ := tileAt_some_nonneg _ x y c hc
    rw [tileAt_eq_cellAt _ x y hx0 hy0] at hc
    have hf := doorBump_iterate_facts k c
    have hv := hf.2.2.2.2.2 h1 h2
    refine ⟨doorBump^[k] c, ?_, hv, ?_⟩
    · rw [tileAt_eq_cellAt _ x y hx0 hy0, hcells x.toNat y.toNat,
        if_pos ⟨by omega, by omega⟩, hc]
      rfl
    · intro hwall hdoor
      unfold isPassableCell
      rw [hf.1, hwall, hdoor, hv]
      simp only [Bool.false_eq_true, if_false, if_true, beq_iff_eq]
      have h256 : TO_FX 1 = 256 := by decide
      rw [h256] at h2 ⊢
      omega
  · intro r0b r2 hftb h2
    obtain ⟨r0c, r1c, dx, dy, rm, hftc, _, h1e, _, hrme, _, h2e⟩ :=
      rayMainLoop_inv H C ray evts elapsedUs s cs r2 hin hm h2
    rw [hftb] at hftc
    injection hftc with hftc
    injection hftc with hftc _
    subst hftc
    rw [h2e, hrme, h1e]

/-- Witness of C21 on `doorsMap`: after 10000 microseconds, two door steps, the door at 100 is
at 102 and the doors at 0 and at 256 are where they were; after 200 door steps the door at 100
is at 256 and passable. -/
theorem rayMainLoop_doorOpen_in_range_witness :
    (frameInputs idleCollaborators amongDoors [] 10000 = (amongDoors, none) ∧
      mapInBounds amongDoors.map) ∧
    (∃ r0, frameTimers sampleHeader idleCollaborators amongDoors [] 10000 = some (r0, none) ∧
      (∃ c2, tileAt r0.map 0 0 = some c2 ∧ c2.doorOpen = 102) ∧
      (∃ c2, tileAt r0.map 0 1 = some c2 ∧ c2.doorOpen = 0) ∧
      (∃ c2, tileAt r0.map 1 0 = some c2 ∧ c2.doorOpen = 256)) ∧
    (∃ m, doorSteps 200 amongDoors.map = some m ∧
      ∃ c2, tileAt m 0 0 = some c2 ∧ c2.doorOpen = 256 ∧
        isPassableCell sampleHeader c2 = true) := by
  have h := rayMainLoop_doorOpen_in_range sampleHeader idleCollaborators amongDoors [] 10000
    amongDoors none (by decide) (by decide)
  refine ⟨by decide, ?_, ?_⟩
  · obtain ⟨r0, k, hft, _, hk, hcells⟩ := h.1
    have hk2 : k = 2 := by rw [hk (by decide)]; decide
    subst hk2
    obtain ⟨ca, hca, _, _, _, _, _, hmin⟩ := hcells 0 0 (doorCellOf 100) (by decide)
    obtain ⟨cb, hcb, _, _, _, hzero, _, _⟩ := hcells 0 1 (doorCellOf 0) (by decide)
    obtain ⟨cc, hcc, _, _, _, _, hfull, _⟩ := hcells 1 0 (doorCellOf 256) (by decide)
    refine ⟨r0, hft, ⟨ca, hca, ?_⟩, ⟨cb, hcb, hzero rfl⟩, ⟨cc, hcc, ?_⟩⟩
    · rw [hmin (by decide) (by decide) (by decide) (by decide)]; decide
    · rw [hfull (by decide)]; decide
  · obtain ⟨m, hs, hcells⟩ := h.2.1 200
    obtain ⟨c2, hc2, hv, hpass⟩ := hcells 0 0 (doorCellOf 100) (by decide) (by decide)
      (by decide) (by decide) (by decide)
    exact ⟨m, hs, c2, hc2, by rw [hv]; decide, (hpass (by decide) (by decide)).2 (by decide)⟩

/-! ### Symmetries of the sine table -/

/-- The sine table is antisymmetric: each entry is minus the entry at the opposite index,
read off the table laid out backwards from index 0. -/
theorem sin1024_antisymmetric_zip :
    ∀ p ∈ List.zip sin1024 (sin1024.take 1 ++ (sin1024.drop 1).reverse), p.2 = -p.1 := by
  decide

/-- The sine table is symmetric about 90: each entry equals the entry mirrored at 90, read
off the table laid out backwards from index 180. -/
theorem sin1024_symmetric_zip :
    ∀ p ∈ List.zip sin1024 ((sin1024.take 181).reverse ++ (sin1024.drop 181).reverse),
      p.2 = p.1 := by
  decide

/-- The table laid out backwards from index 0, read at `k`, is the table read at `-k`
modulo 360. -/
theorem negTable_read (k : Nat) (hk : k < 360) :
    (sin1024.take 1 ++ (sin1024.drop 1).reverse)[k]? = sin1024[(360 - k) % 360]? := by
  have hl1 : (sin1024.take 1).length = 1 := by rw [List.length_take, sin1024_length]; rfl
  have hl2 : (sin1024.drop 1).length = 359 := by rw [List.length_drop, sin1024_length]
  by_cases h0 : k = 0
  · subst h0
    rw [List.getElem?_append_left (by rw [hl1]; omega), List.getElem?_take_of_lt (by omega)]
  · rw [List.getElem?_append_right (by rw [hl1]; omega), hl1,
      List.getElem?_reverse (by rw [hl2]; omega), hl2, List.getElem?_drop]
    have e : 1 + (359 - 1 - (k - 1)) = (360 - k) % 360 := by omega
    rw [e]

/-- The table laid out backwards from index 180, read at `k`, is the table read at
`180 - k` modulo 360. -/
theorem mirrorTable_read (k : Nat) (hk : k < 360) :
    ((sin1024.take 181).reverse ++ (sin1024.drop 181).reverse)[k]?
      = sin1024[(540 - k) % 360]? := by
  have hl1 : (sin1024.take 181).length = 181 := by
    rw [List.length_take, sin1024_length]; rfl
  have hl2 : (sin1024.drop 181).length = 179 := by rw [List.length_drop, sin1024_length]
  have hr1 : (sin1024.take 181).reverse.length = 181 := by rw [List.length_reverse, hl1]
  by_cases h : k < 181
  · rw [List.getElem?_append_left (by rw [hr1]; exact h),
      List.getElem?_reverse (by rw [hl1]; exact h), hl1,
      List.getElem?_take_of_lt (by omega)]
    have e : 181 - 1 - k = (540 - k) % 360 := by omega
    rw [e]
  · rw [List.getElem?_append_right (by rw [hr1]; omega), hr1,
      List.getElem?_reverse (by rw [hl2]; omega), hl2, List.getElem?_drop]
    have e : 181 + (179 - 1 - (k - 181)) = (540 - k) % 360 := by omega
    rw [e]

/-- The entry opposite to an entry `v` of the sine table is `-v`. -/
theorem sin1024_neg_entry (k : Nat) (hk : k < 360) (v : Int) (hv : sin1024[k]? = some v) :
    sin1024[(360 - k) % 360]? = some (-v) := by
  have hlt : (360 - k) % 360 < sin1024.length := by rw [sin1024_length]; omega
  have hw : sin1024[(360 - k) % 360]? = some sin1024[(360 - k) % 360] :=
    List.getElem?_eq_getElem hlt
  have hz : (List.zip sin1024 (sin1024.take 1 ++ (sin1024.drop 1).reverse))[k]?
      = some (v, sin1024[(360 - k) % 360]) :=
    List.getElem?_zip_eq_some.2 ⟨hv, by rw [negTable_read k hk]; exact hw⟩
  have h := sin1024_antisymmetric_zip _ (List.getElem?_mem hz)
  simp only at h
  rw [hw, h]

/-- The entry mirrored at 90 of an entry of the sine table is the same entry. -/
theorem sin1024_mirror_entry (k : Nat) (hk : k < 360) :
    sin1024[(540 - k) % 360]? = sin1024[k]? := by
  have hlt : (540 - k) % 360 < sin1024.length := by rw [sin1024_length]; omega
  have hkl : k < sin1024.length := by rw [sin1024_length]; exact hk
  have hw : sin1024[(540 - k) % 360]? = some sin1024[(540 - k) % 360] :=
    List.getElem?_eq_getElem hlt
  have hv : sin1024[k]? = some sin1024[k] := List.getElem?_eq_getElem hkl
  have hz : (List.zip sin1024
      ((sin1024.take 181).reverse ++ (sin1024.drop 181).reverse))[k]?
      = some (sin1024[k], sin1024[(540 - k) % 360]) :=
    List.getElem?_zip_eq_some.2 ⟨hv, by rw [mirrorTable_read k hk]; exact hw⟩
  have h := sin1024_symmetric_zip _ (List.getElem?_mem hz)
  simp only at h
  rw [hw, hv, h]

/-- Claim C22: `getSin1024` is odd and `getCos1024` is even: for every `int16_t` degree `d`
with `-32767 ≤ d ≤ 32767`, `getSin1024 (-d) = -getSin1024 d` and
`getCos1024 (-d) = getCos1024 d`, both lookups returning a value. -/
theorem getSin1024_odd_getCos1024_even (d : Int) (h0 : -32767 ≤ d) (h1 : d ≤ 32767) :
    (∃ v, getSin1024 d = some v ∧ getSin1024 (-d) = some (-v)) ∧
    (∃ v, getCos1024 d = some v ∧ getCos1024 (-d) = some v) := by
  constructor
  · obtain ⟨v, hv, _⟩ := getSin1024_total d
    refine ⟨v, hv, ?_⟩
    rw [getSin1024_eq d (by omega) (by omega)] at hv
    rw [getSin1024_eq (-d) (by omega) (by omega)]
    have e : ((-d) % 360).toNat = (360 - (d % 360).toNat) % 360 := by omega
    rw [e]
    exact sin1024_neg_entry _ (by omega) v hv
  · obtain ⟨v, hv, _⟩ := getCos1024_total d
    refine ⟨v, hv, ?_⟩
    rw [getCos1024_eq d (by omega) (by omega)] at hv
    rw [getCos1024_eq (-d) (by omega) (by omega)]
    have e : ((-d + 90) % 360).toNat = (540 - ((d + 90) % 360).toNat) % 360 := by omega
    rw [e, sin1024_mirror_entry _ (by omega)]
    exact hv

/-- Witness of C22 at -350 degrees and at the lowest degree of the claim. -/
theorem getSin1024_odd_getCos1024_even_witness :
    (-32767 ≤ (-350 : Int) ∧ (-350 : Int) ≤ 32767 ∧ -32767 ≤ (-32767 : Int)) ∧
    ((∃ v, getSin1024 (-350) = some v ∧ getSin1024 (-(-350)) = some (-v)) ∧
      (∃ v, getCos1024 (-350) = some v ∧ getCos1024 (-(-350)) = some v)) ∧
    ((∃ v, getSin1024 (-32767) = some v ∧ getSin1024 (-(-32767)) = some (-v)) ∧
      (∃ v, getCos1024 (-32767) = some v ∧ getCos1024 (-(-32767)) = some v)) :=
  ⟨by decide, getSin1024_odd_getCos1024_even (-350) (by decide) (by decide),
    getSin1024_odd_getCos1024_even (-32767) (by decide) (by decide)⟩

end Swadge
